import Mathlib

/-!
# Pixoo-64 driver: Game of Life engine, device protocol client, simulation driver

A shallow embedding of `gameoflife/game.go`, `pixoo/client.go` and the tick loop of
`game-of-life.go`, followed by the properties proved about them.

Conventions of the embedding

* Go `int` values that are coordinates or counters are `Int`; the generation counter
  and the cell ages only ever grow by one per tick, so they are kept unbounded.  The
  sum `x + y` of two arguments of `getCellColor` is wrapped to 64 bits (`wrapInt`), as
  the addition of two `int` is.
* A Go array `[64][64]T` is a function `Fin 64 → Fin 64 → T`, indexed row first
  (`cells[y][x]`), and an assignment to one element is `Grid.set`.
* A counted loop `for i := 0; i < 64; i++` is a left fold over `List.finRange 64`
  (over `List.range 64` where the counter is not used as an array index).
* An array index computed from an argument (the wrapped coordinates of
  `CountNeighbors`) is checked, and the run-time panic of an index out of range is
  the result `none`; functions that may panic return an `Option`.
* A Go `error` result is an `Option Error`, `nil` being `none`; the device and the
  network are the state `pixoo.Net`, threaded through the methods of the client.
-/

namespace gameoflife

/-- The constant `Size = 64`. -/
abbrev Size : Nat := 64

/-- The array type `[Size][Size]bool`, indexed `[y][x]`. -/
abbrev Grid := Fin Size → Fin Size → Bool

/-- The assignment `cells[y][x] = v`. -/
def Grid.set (c : Grid) (y x : Fin Size) (v : Bool) : Grid :=
  fun y' x' => if y' = y ∧ x' = x then v else c y' x'

/-- An `int` known to lie in `0..63`, as an array index. -/
def toIdx (i : Int) (h : 0 ≤ i ∧ i < 64) : Fin Size :=
  ⟨i.toNat, by show i.toNat < 64; omega⟩

/-- The read `cells[y][x]` with indices computed at run time: `none` is the panic
of an index out of range. -/
def Grid.at? (c : Grid) (y x : Int) : Option Bool :=
  if h : (0 ≤ y ∧ y < 64) ∧ (0 ≤ x ∧ x < 64) then
    some (c (toIdx y h.1) (toIdx x h.2))
  else none

/-- The struct `Game`. -/
structure Game where
  cells : Grid
  nextCells : Grid
  generation : Int

/-- The constructor `NewGame`: the zero value of the struct. -/
def NewGame : Game :=
  { cells := fun _ _ => false, nextCells := fun _ _ => false, generation := 0 }

/-- The process-wide pseudo-random source of `math/rand`, seen as the stream of the
float64 values its next calls of `Float64()` return (each one a rational number). -/
abbrev Rand := Nat → ℚ

/-- One call `rand.Float64()`: the value drawn and the advanced source. -/
def Float64 (r : Rand) : ℚ × Rand := (r 0, fun n => r (n + 1))

/-- The method `RandomSeed(density)`. -/
def RandomSeed (g : Game) (density : ℚ) (r : Rand) : Game × Rand :=
  let s := (List.finRange Size).foldl (fun (s : Game × Rand) y =>
    (List.finRange Size).foldl (fun (s : Game × Rand) x =>
      let d := Float64 s.2
      ({ s.1 with cells := s.1.cells.set y x (decide (d.1 < density)) }, d.2)) s) (g, r)
  ({ s.1 with generation := 0 }, s.2)

/-- The guarded assignment `if px >= 0 && px < Size && py >= 0 && py < Size
{ g.cells[py][px] = true }`. -/
def setIfInside (g : Game) (px py : Int) : Game :=
  if h : (px ≥ 0 ∧ px < 64) ∧ (py ≥ 0 ∧ py < 64) then
    { g with cells := g.cells.set (toIdx py h.2) (toIdx px h.1) true }
  else g

/-- The offsets of the glider, in source order. -/
def gliderPattern : List (Int × Int) := [(1, 0), (2, 1), (0, 2), (1, 2), (2, 2)]

/-- The method `Glider(x, y)`. -/
def Glider (g : Game) (x y : Int) : Game :=
  gliderPattern.foldl (fun g p => setIfInside g (x + p.1) (y + p.2)) g

/-- The method `Clear()`. -/
def Clear (g : Game) : Game :=
  let g1 := (List.finRange Size).foldl (fun (g : Game) y =>
    (List.finRange Size).foldl (fun (g : Game) x =>
      { g with cells := g.cells.set y x false }) g) g
  { g1 with generation := 0 }

/-- The cells of the Gosper gun, as `(y, x)` in the order of the assignments
`g.cells[y][x] = true`. -/
def gosperCells : List (Fin Size × Fin Size) :=
  [(5, 1), (5, 2), (6, 1), (6, 2),
   (5, 11), (6, 11), (7, 11), (4, 12), (8, 12), (3, 13), (9, 13), (3, 14), (9, 14),
   (6, 15), (4, 16), (8, 16), (5, 17), (6, 17), (7, 17), (6, 18),
   (3, 21), (4, 21), (5, 21), (3, 22), (4, 22), (5, 22), (2, 23), (6, 23),
   (1, 25), (2, 25), (6, 25), (7, 25),
   (3, 35), (4, 35), (3, 36), (4, 36)]

/-- The offsets of the pulsar, in source order. -/
def pulsarPattern : List (Int × Int) :=
  [(2, 0), (3, 0), (4, 0), (8, 0), (9, 0), (10, 0),
   (0, 2), (5, 2), (7, 2), (12, 2),
   (0, 3), (5, 3), (7, 3), (12, 3),
   (0, 4), (5, 4), (7, 4), (12, 4),
   (2, 5), (3, 5), (4, 5), (8, 5), (9, 5), (10, 5),
   (2, 7), (3, 7), (4, 7), (8, 7), (9, 7), (10, 7),
   (0, 8), (5, 8), (7, 8), (12, 8),
   (0, 9), (5, 9), (7, 9), (12, 9),
   (0, 10), (5, 10), (7, 10), (12, 10),
   (2, 12), (3, 12), (4, 12), (8, 12), (9, 12), (10, 12)]

/-- The float64 nearest to the literal `0.3`. -/
def density030 : ℚ := 5404319552844595 / 2 ^ 54

/-- The float64 nearest to the literal `0.15`. -/
def density015 : ℚ := 5404319552844595 / 2 ^ 55

/-- The float64 `0.5`. -/
def density050 : ℚ := 1 / 2

/-- The method `LoadPattern(name)`: `Clear`, the `switch` on the name, then the
generation set to zero. -/
def LoadPattern (g : Game) (name : String) (r : Rand) : Game × Rand :=
  let g0 := Clear g
  let s : Game × Rand :=
    if name = "gliders" then
      (Glider (Glider (Glider (Glider g0 5 5) 15 20) 30 10) 45 35, r)
    else if name = "gosper-gun" then
      (gosperCells.foldl (fun (g : Game) p => { g with cells := g.cells.set p.1 p.2 true }) g0, r)
    else if name = "random" then RandomSeed g0 density030 r
    else if name = "random-sparse" then RandomSeed g0 density015 r
    else if name = "random-dense" then RandomSeed g0 density050 r
    else if name = "pulsar" then
      let centerX : Int := 64 / 2 - 6
      let centerY : Int := 64 / 2 - 6
      (pulsarPattern.foldl (fun g p => setIfInside g (centerX + p.1) (centerY + p.2)) g0, r)
    else (g0, r)
  ({ s.1 with generation := 0 }, s.2)

/-- The three values `-1, 0, 1` of the loops `for d := -1; d <= 1; d++`. -/
def deltas : List Int := [-1, 0, 1]

/-- The method `CountNeighbors(x, y)`; `%` is Go's truncated remainder. -/
def CountNeighbors (g : Game) (x y : Int) : Option Int :=
  deltas.foldlM (fun (count : Int) dy =>
    deltas.foldlM (fun (count : Int) dx =>
      if dx = 0 ∧ dy = 0 then some count
      else
        let nx := (x + dx + 64).tmod 64
        let ny := (y + dy + 64).tmod 64
        (g.cells.at? ny nx).bind (fun alive => some (if alive then count + 1 else count)))
      count) 0

/-- The body of the two loops of `Step` at the cell `(x, y)`. -/
def stepCell (g : Game) (y x : Fin Size) : Option Game :=
  (CountNeighbors g x.val y.val).bind (fun neighbors =>
    let alive := g.cells y x
    if alive then
      some { g with nextCells := g.nextCells.set y x (decide (neighbors = 2 ∨ neighbors = 3)) }
    else
      some { g with nextCells := g.nextCells.set y x (decide (neighbors = 3)) })

/-- The method `Step()`. -/
def Step (g : Game) : Option Game :=
  ((List.finRange Size).foldlM (fun (g : Game) y =>
    (List.finRange Size).foldlM (fun (g : Game) x => stepCell g y x) g) g).bind
  (fun g1 => some { g1 with cells := g1.nextCells, generation := g1.generation + 1 })

/-- The method `IsAlive(x, y)`. -/
def IsAlive (g : Game) (x y : Int) : Bool :=
  if h : x < 0 ∨ x ≥ 64 ∨ y < 0 ∨ y ≥ 64 then false
  else g.cells (toIdx y (by omega)) (toIdx x (by omega))

/-- The method `Generation()`. -/
def Generation (g : Game) : Int := g.generation

/-- The method `CountAlive()`. -/
def CountAlive (g : Game) : Int :=
  (List.finRange Size).foldl (fun (count : Int) y =>
    (List.finRange Size).foldl (fun (count : Int) x =>
      if g.cells y x then count + 1 else count) count) 0

/-! ### Closed forms of `CountNeighbors` and `Step` -/

/-- The number of live cells among the eight toroidal neighbours of `(x, y)`, in the
order in which the loops of `CountNeighbors` visit them; the index arithmetic of
`Fin 64` wraps around modulo 64. -/
def nbrs (c : Grid) (y x : Fin Size) : Nat :=
  (c (y - 1) (x - 1)).toNat + (c (y - 1) x).toNat + (c (y - 1) (x + 1)).toNat
  + (c y (x - 1)).toNat + (c y (x + 1)).toNat
  + (c (y + 1) (x - 1)).toNat + (c (y + 1) x).toNat + (c (y + 1) (x + 1)).toNat

/-- The rule of `Step` on one cell: its state and its number of live neighbours. -/
def lifeRule (alive : Bool) (n : Nat) : Bool :=
  if alive then decide (n = 2 ∨ n = 3) else decide (n = 3)

/-- The grid that `Step` computes from the grid `c`. -/
def next (c : Grid) : Grid := fun y x => lifeRule (c y x) (nbrs c y x)

/-- The state that `Step` returns. -/
def stepped (g : Game) : Game :=
  { cells := next g.cells, nextCells := next g.cells, generation := g.generation + 1 }

/-- The state after `n` calls of `Step`, `none` if one of them panics. -/
def Steps : Nat → Game → Option Game
  | 0, g => some g
  | n + 1, g => (Step g).bind (Steps n)

/-! ### A bit-board evaluator, used to run `Step` on concrete boards

A board is one natural number of 4096 bits, the cell `(x, y)` being the bit
`64 * y + x`.  One generation is computed on all cells at once with shifts and
bitwise adders; `next_bitGrid` proves that this is the grid `Step` computes. -/

/-- The grid held by a bit-board. -/
def bitGrid (n : Nat) : Grid := fun y x => n.testBit (64 * y.val + x.val)

/-- The bit-board whose row `y` is the 64-bit number `r y`, for the rows below `k`. -/
def packRows (r : Nat → Nat) : Nat → Nat
  | 0 => 0
  | k + 1 => 2 ^ (64 * k) * r k + packRows r k

/-- The cells of column 0. -/
def maskFirst : Nat := packRows (fun _ => 1) 64

/-- The cells outside column 0. -/
def maskNotFirst : Nat := packRows (fun _ => 2 ^ 64 - 2) 64

/-- The cells outside column 63. -/
def maskNotLast : Nat := packRows (fun _ => 2 ^ 63 - 1) 64

/-- The board whose cell `(x, y)` is the cell `(x, y + 1)` of `n`, rows wrapping. -/
def rowUp (n : Nat) : Nat := ((n >>> 64) % 2 ^ 4032) ||| ((n % 2 ^ 64) <<< 4032)

/-- The board whose cell `(x, y)` is the cell `(x, y - 1)` of `n`, rows wrapping. -/
def rowDown (n : Nat) : Nat := ((n % 2 ^ 4032) <<< 64) ||| ((n >>> 4032) % 2 ^ 64)

/-- The board whose cell `(x, y)` is the cell `(x + 1, y)` of `n`, columns wrapping. -/
def colUp (n : Nat) : Nat := ((n >>> 1) &&& maskNotLast) ||| ((n &&& maskFirst) <<< 63)

/-- The board whose cell `(x, y)` is the cell `(x - 1, y)` of `n`, columns wrapping. -/
def colDown (n : Nat) : Nat := ((n <<< 1) &&& maskNotFirst) ||| ((n >>> 63) &&& maskFirst)

/-- The rule of `Step` as a circuit over the cell `c` and its eight neighbours: the
neighbours are added with full and half adders into the bits `b0`, `b1` and the
carries `c5`, `c6` of weight four; the result is "count is 3, or count is 2 and the
cell is alive". -/
def lifeCircuit {α : Type} (and or xor : α → α → α) (c n1 n2 n3 n4 n5 n6 n7 n8 : α) : α :=
  let x12 := xor n1 n2
  let s1 := xor x12 n3
  let c1 := or (and n1 n2) (and n3 x12)
  let x45 := xor n4 n5
  let s2 := xor x45 n6
  let c2 := or (and n4 n5) (and n6 x45)
  let s3 := xor n7 n8
  let c3 := and n7 n8
  let x123 := xor s1 s2
  let b0 := xor x123 s3
  let c4 := or (and s1 s2) (and s3 x123)
  let y12 := xor c1 c2
  let t := xor y12 c3
  let c5 := or (and c1 c2) (and c3 y12)
  let b1 := xor t c4
  let c6 := and t c4
  let hi := or c5 c6
  let r := and b1 (or b0 c)
  xor r (and r hi)

/-- One generation on a bit-board. -/
def stepFast (n : Nat) : Nat :=
  let u := rowUp n
  let d := rowDown n
  lifeCircuit (fun a b => a &&& b) (fun a b => a ||| b) (fun a b => a ^^^ b)
    n (colDown d) d (colUp d) (colDown n) (colUp n) (colDown u) u (colUp u)

/-- The bit-board of the cells that the offsets `l`, placed at `(x, y)`, set alive. -/
def patternBits (l : List (Int × Int)) (x y : Int) : Nat :=
  l.foldl (fun n p => n ||| 2 ^ (64 * (y + p.2).toNat + (x + p.1).toNat)) 0

/-! ### The words of the specification -/

/-- The eight offsets `(dx, dy)` of `{-1, 0, 1}²` other than `(0, 0)`. -/
def neighbourOffsets : Finset (Int × Int) :=
  ((Finset.Icc (-1 : Int) 1) ×ˢ (Finset.Icc (-1 : Int) 1)).erase (0, 0)

/-- The number of live toroidal neighbours of `(x, y)` in the words of the
specification: the offsets `(dx, dy)` whose cell `((x + dx) mod 64, (y + dy) mod 64)`
is alive, `mod` being the mathematical remainder. -/
def liveNeighbours (g : Game) (x y : Int) : Nat :=
  (neighbourOffsets.filter
    (fun d => IsAlive g ((x + d.1) % 64) ((y + d.2) % 64) = true)).card

/-! ### Concrete boards -/

/-- The board whose alive cells are exactly the block `(1,1), (1,2), (2,1), (2,2)`. -/
def blockGame : Game :=
  setIfInside (setIfInside (setIfInside (setIfInside NewGame 1 1) 1 2) 2 1) 2 2

/-- The bit-board of the block. -/
def blockBits : Nat := 2 ^ 65 + 2 ^ 66 + 2 ^ 129 + 2 ^ 130

end gameoflife

namespace base64

/-- The alphabet of `base64.StdEncoding`. -/
def alphabet : List Char :=
  "ABCDEFGHIJKLMNOPQRSTUVWXYZabcdefghijklmnopqrstuvwxyz0123456789+/".data

/-- The character of a 6-bit value. -/
def encodeChar (v : Nat) : Char := alphabet.getD v 'A'

/-- `StdEncoding.Encode` on a slice of bytes: every three bytes give four characters;
a rest of one or two bytes gives two or three characters and the padding `=`. -/
def encode : List Nat → List Char
  | b0 :: b1 :: b2 :: rest =>
    let val := b0 * 65536 + b1 * 256 + b2
    encodeChar (val / 262144 % 64) :: encodeChar (val / 4096 % 64) ::
      encodeChar (val / 64 % 64) :: encodeChar (val % 64) :: encode rest
  | [b0, b1] =>
    let val := b0 * 65536 + b1 * 256
    [encodeChar (val / 262144 % 64), encodeChar (val / 4096 % 64),
      encodeChar (val / 64 % 64), '=']
  | [b0] =>
    let val := b0 * 65536
    [encodeChar (val / 262144 % 64), encodeChar (val / 4096 % 64), '=', '=']
  | [] => []

/-- `StdEncoding.EncodeToString`. -/
def EncodeToString (src : List Nat) : String := String.mk (encode src)

/-- The 6-bit value of a character of the alphabet. -/
def decodeChar (c : Char) : Option Nat :=
  if 'A' ≤ c ∧ c ≤ 'Z' then some (c.toNat - 65)
  else if 'a' ≤ c ∧ c ≤ 'z' then some (c.toNat - 97 + 26)
  else if '0' ≤ c ∧ c ≤ '9' then some (c.toNat - 48 + 52)
  else if c = '+' then some 62
  else if c = '/' then some 63
  else none

/-- Base64 decoding (RFC 4648, standard alphabet, with padding): every four characters
give three bytes; a last group ending in `=` or `==` gives two bytes or one. -/
def decode : List Char → Option (List Nat)
  | [] => some []
  | c0 :: c1 :: c2 :: c3 :: rest =>
    if rest = [] ∧ c3 = '=' then
      if c2 = '=' then
        (decodeChar c0).bind fun v0 => (decodeChar c1).bind fun v1 =>
          let val := v0 * 262144 + v1 * 4096
          some [val / 65536 % 256]
      else
        (decodeChar c0).bind fun v0 => (decodeChar c1).bind fun v1 =>
          (decodeChar c2).bind fun v2 =>
            let val := v0 * 262144 + v1 * 4096 + v2 * 64
            some [val / 65536 % 256, val / 256 % 256]
    else
      (decodeChar c0).bind fun v0 => (decodeChar c1).bind fun v1 =>
        (decodeChar c2).bind fun v2 => (decodeChar c3).bind fun v3 =>
          (decode rest).bind fun bs =>
            let val := v0 * 262144 + v1 * 4096 + v2 * 64 + v3
            some (val / 65536 % 256 :: val / 256 % 256 :: val % 256 :: bs)
  | _ => none

/-- Decoding of a string. -/
def DecodeString (s : String) : Option (List Nat) := decode s.data

end base64

namespace pixoo

/-! ### The standard library types the client uses -/

/-- The struct `image.Point`. -/
structure Point where
  X : Int
  Y : Int
deriving DecidableEq

/-- The struct `image.Rectangle`. -/
structure Rectangle where
  Min : Point
  Max : Point
deriving DecidableEq

/-- The method `Rectangle.Dx`. -/
def Rectangle.Dx (r : Rectangle) : Int := r.Max.X - r.Min.X

/-- The method `Rectangle.Dy`. -/
def Rectangle.Dy (r : Rectangle) : Int := r.Max.Y - r.Min.Y

/-- The method `Point.In`. -/
def Point.In (p : Point) (r : Rectangle) : Bool :=
  decide (r.Min.X ≤ p.X ∧ p.X < r.Max.X ∧ r.Min.Y ≤ p.Y ∧ p.Y < r.Max.Y)

/-- The struct `color.RGBA`: four `uint8`. -/
structure Color where
  R : Fin 256
  G : Fin 256
  B : Fin 256
  A : Fin 256
deriving DecidableEq

/-- The four `uint32` that the method `RGBA()` of a colour returns. -/
structure RGBA32 where
  r : Nat
  g : Nat
  b : Nat
  a : Nat
deriving DecidableEq

/-- The method `color.RGBA.RGBA`: each channel `c` becomes `c | c << 8`. -/
def Color.RGBA (c : Color) : RGBA32 :=
  { r := c.R.val * 256 + c.R.val, g := c.G.val * 256 + c.G.val,
    b := c.B.val * 256 + c.B.val, a := c.A.val * 256 + c.A.val }

/-- The interface `image.Image`, as `DrawImage` uses it: `Bounds()` and
`At(x, y).RGBA()`. -/
structure Image where
  Bounds : Rectangle
  At : Int → Int → RGBA32

/-- The struct `image.RGBA`: the stored pixel of every point, and the bounds. -/
structure ImageRGBA where
  Pix : Int → Int → Color
  Rect : Rectangle

/-- The method `(*image.RGBA).At`: the zero colour outside the bounds. -/
def ImageRGBA.At (p : ImageRGBA) (x y : Int) : Color :=
  if Point.In ⟨x, y⟩ p.Rect then p.Pix x y else ⟨0, 0, 0, 0⟩

/-- The method `(*image.RGBA).Set` with a `color.RGBA`: nothing outside the bounds. -/
def ImageRGBA.Set (p : ImageRGBA) (x y : Int) (c : Color) : ImageRGBA :=
  if Point.In ⟨x, y⟩ p.Rect then
    { p with Pix := fun x' y' => if x' = x ∧ y' = y then c else p.Pix x' y' }
  else p

/-- An `*image.RGBA` passed as an `image.Image`. -/
def ImageRGBA.toImage (p : ImageRGBA) : Image :=
  { Bounds := p.Rect, At := fun x y => (p.At x y).RGBA }

/-- The function `CreateImage`: `image.NewRGBA(image.Rect(0, 0, 64, 64))`. -/
def CreateImage : ImageRGBA :=
  { Pix := fun _ _ => ⟨0, 0, 0, 0⟩, Rect := ⟨⟨0, 0⟩, ⟨64, 64⟩⟩ }

/-! ### The client -/

/-- A value of a command field. -/
inductive Value where
  | int (n : Int)
  | str (s : String)
  | ints (l : List Int)
deriving DecidableEq

/-- A command `map[string]interface{}`: its fields, in source order. -/
abbrev Command := List (String × Value)

/-- What the HTTP exchange of one post gives: a transport failure, or a response
with its status code. -/
inductive Reply where
  | failed (cause : String)
  | status (code : Int)
deriving DecidableEq

/-- The errors the client returns. -/
inductive Error where
  | brightness
  | imageSize
  | postRequest (cause : String)
  | statusCode (code : Int)
  | resetGif (err : Error)
  | curlCommand (cause : String)
deriving DecidableEq

/-- The device and the network as the client sees them: the commands posted so far,
oldest first, and the reply to a post given all commands posted up to it. -/
structure Net where
  sent : List Command
  reply : List Command → Reply

/-- The method `post`: `nil` is `none`. Marshalling a map of strings and integers
does not fail. -/
def post (command : Command) (net : Net) : Option Error × Net :=
  let net1 : Net := { net with sent := net.sent ++ [command] }
  match net.reply (net.sent ++ [command]) with
  | Reply.failed cause => (some (Error.postRequest cause), net1)
  | Reply.status code =>
    if code ≠ 200 then (some (Error.statusCode code), net1) else (none, net1)

/-- The method `SetBrightness`. -/
def SetBrightness (brightness : Int) (net : Net) : Option Error × Net :=
  if brightness < 0 ∨ brightness > 100 then (some Error.brightness, net)
  else
    post [("Command", Value.str "Channel/SetBrightness"),
          ("Brightness", Value.int brightness)] net

/-- The method `SetChannel`. -/
def SetChannel (channel : Int) (net : Net) : Option Error × Net :=
  post [("Command", Value.str "Channel/SetIndex"), ("SelectIndex", Value.int channel)] net

/-- The method `ClearScreen`. -/
def ClearScreen (net : Net) : Option Error × Net :=
  post [("Command", Value.str "Draw/ResetHttpGifId")] net

/-- The conversion `byte(v >> 8)` of a `uint32`. -/
def highByte (v : Nat) : Nat := v / 256 % 256

/-- The loops of `DrawImage` that fill `pixelBytes`: the state is the slice and `idx`.
The slice has 12288 elements and `idx` runs over 0, 3, ..., 12285. -/
def fillPixelBytes (img : Image) : List Nat × Nat :=
  (List.range 64).foldl (fun (s : List Nat × Nat) (y : Nat) =>
    (List.range 64).foldl (fun (s : List Nat × Nat) (x : Nat) =>
      let c := img.At x y
      let p0 := s.1.set s.2 (highByte c.r)
      let p1 := p0.set (s.2 + 1) (highByte c.g)
      let p2 := p1.set (s.2 + 2) (highByte c.b)
      (p2, s.2 + 3)) s) (List.replicate (64 * 64 * 3) 0, 0)

/-- The command `Draw/SendHttpGif` of `DrawImage`. -/
def sendGifCommand (encodedData : String) : Command :=
  [("Command", Value.str "Draw/SendHttpGif"), ("PicID", Value.int 1),
   ("PicNum", Value.int 1), ("PicOffset", Value.int 0), ("PicWidth", Value.int 64),
   ("PicSpeed", Value.int 1000), ("PicData", Value.str encodedData)]

/-- The command `Draw/ResetHttpGifId` of `DrawImage`. -/
def resetCmd : Command := [("Command", Value.str "Draw/ResetHttpGifId")]

/-- The method `DrawImage`. -/
def DrawImage (img : Image) (net : Net) : Option Error × Net :=
  let bounds := img.Bounds
  if bounds.Dx ≠ 64 ∨ bounds.Dy ≠ 64 then (some Error.imageSize, net)
  else
    match post resetCmd net with
    | (some err, net1) => (some (Error.resetGif err), net1)
    | (none, net1) =>
      let pixelBytes := (fillPixelBytes img).1
      let encodedData := base64.EncodeToString pixelBytes
      post (sendGifCommand encodedData) net1

/-- The value of a field of a command. -/
def Command.field (c : Command) (name : String) : Option Value :=
  (c.find? (fun f => f.1 = name)).map (fun f => f.2)

/-! ### The payload in closed form -/

/-- The three bytes that `DrawImage` stores for the point `(x, y)`. -/
def pixelTriple (img : Image) (y x : Nat) : List Nat :=
  [highByte (img.At x y).r, highByte (img.At x y).g, highByte (img.At x y).b]

/-- The slice `pixelBytes` after the loops of `DrawImage`, in closed form. -/
def rowMajorBytes (img : Image) : List Nat :=
  (List.range 64).flatMap fun y => (List.range 64).flatMap fun x => pixelTriple img y x

/-! ### Concrete images and devices -/

/-- A 64x64 buffer with origin `(0, 0)` whose pixels are all white. -/
def whiteImage : ImageRGBA :=
  { Pix := fun _ _ => ⟨255, 255, 255, 255⟩, Rect := ⟨⟨0, 0⟩, ⟨64, 64⟩⟩ }

/-- A device that answers every post with the status 200; nothing posted yet. -/
def okNet : Net := { sent := [], reply := fun _ => Reply.status 200 }

/-- A device that cannot be reached; nothing posted yet. -/
def deadNet : Net := { sent := [], reply := fun _ => Reply.failed "connection refused" }

/-- An image of 32x32 points, all of the zero colour. -/
def smallImage : Image :=
  { Bounds := ⟨⟨0, 0⟩, ⟨32, 32⟩⟩, At := fun _ _ => ⟨0, 0, 0, 0⟩ }

/-! ### The bitmap font -/

/-- The function `getCharPattern`: the rows of the glyph, one byte each. -/
def getCharPattern (ch : Char) : List Nat :=
  if ch = '0' then [0x0E, 0x11, 0x13, 0x15, 0x19, 0x11, 0x0E]
  else if ch = '1' then [0x04, 0x0C, 0x04, 0x04, 0x04, 0x04, 0x0E]
  else if ch = '2' then [0x0E, 0x11, 0x01, 0x02, 0x04, 0x08, 0x1F]
  else if ch = '3' then [0x1F, 0x02, 0x04, 0x02, 0x01, 0x11, 0x0E]
  else if ch = '4' then [0x02, 0x06, 0x0A, 0x12, 0x1F, 0x02, 0x02]
  else if ch = '5' then [0x1F, 0x10, 0x1E, 0x01, 0x01, 0x11, 0x0E]
  else if ch = '6' then [0x06, 0x08, 0x10, 0x1E, 0x11, 0x11, 0x0E]
  else if ch = '7' then [0x1F, 0x01, 0x02, 0x04, 0x08, 0x08, 0x08]
  else if ch = '8' then [0x0E, 0x11, 0x11, 0x0E, 0x11, 0x11, 0x0E]
  else if ch = '9' then [0x0E, 0x11, 0x11, 0x0F, 0x01, 0x02, 0x0C]
  else if ch = '%' then [0x18, 0x19, 0x02, 0x04, 0x08, 0x13, 0x03]
  else if ch = ':' then [0x00, 0x00, 0x0C, 0x0C, 0x00, 0x0C, 0x0C]
  else if ch = ' ' then [0x00, 0x00, 0x00, 0x00, 0x00, 0x00, 0x00]
  else if ch = 'C' then [0x0E, 0x11, 0x10, 0x10, 0x10, 0x11, 0x0E]
  else if ch = 'P' then [0x1E, 0x11, 0x11, 0x1E, 0x10, 0x10, 0x10]
  else if ch = 'U' then [0x11, 0x11, 0x11, 0x11, 0x11, 0x11, 0x0E]
  else if ch = 'M' then [0x11, 0x1B, 0x15, 0x15, 0x11, 0x11, 0x11]
  else if ch = 'E' then [0x1F, 0x10, 0x10, 0x1E, 0x10, 0x10, 0x1F]
  else if ch = 'G' then [0x0E, 0x11, 0x10, 0x17, 0x11, 0x11, 0x0F]
  else if ch = 'B' then [0x1E, 0x11, 0x11, 0x1E, 0x11, 0x11, 0x1E]
  else [0x00, 0x00, 0x00, 0x00, 0x00, 0x00, 0x00]

/-- The guarded call of `drawChar`: `if x+col < 64 && y+row < 64 && x+col >= 0 &&
y+row >= 0 { img.Set(x+col, y+row, c) }`. -/
def setInFrame (img : ImageRGBA) (px py : Int) (c : Color) : ImageRGBA :=
  if px < 64 ∧ py < 64 ∧ px ≥ 0 ∧ py ≥ 0 then img.Set px py c else img

/-- The function `drawChar`; the colour is given as the `color.RGBA` that `Set`
stores for it. -/
def drawChar (img : ImageRGBA) (ch : Char) (x y : Int) (c : Color) : ImageRGBA :=
  let patterns := getCharPattern ch
  (List.finRange patterns.length).foldl (fun (img : ImageRGBA) row =>
    (List.range 5).foldl (fun (img : ImageRGBA) (col : Nat) =>
      if patterns.get row &&& (1 <<< (4 - col)) ≠ 0 then
        setInFrame img (x + (col : Int)) (y + (row.val : Int)) c
      else img) img) img

/-- The function `DrawTextOnImage`.  The text is a valid UTF-8 string; the loop
`for i, ch := range text` gives each character `ch` with the index `i` of its first
byte, which is the second component of the state. -/
def DrawTextOnImage (img : ImageRGBA) (text : String) (x y : Int) (c : Color) :
    ImageRGBA :=
  (text.data.foldl (fun (s : ImageRGBA × Nat) ch =>
    (drawChar s.1 ch (x + (s.2 : Int) * 6) y c, s.2 + ch.utf8Size)) (img, 0)).1

/-- The characters that the specification lists as having a glyph. -/
def glyphChars : List Char :=
  ['0', '1', '2', '3', '4', '5', '6', '7', '8', '9', '%', ':',
   'C', 'P', 'U', 'M', 'E', 'G', 'B']

/-! ### The font in closed form, and the words of the specification -/

/-- The points that `drawChar` paints, in closed form: `(px, py)` is painted when,
for some row and some column `col < 5` of the glyph whose bit `4 - col` is set, it is
the point `(x + col, y + row)`, lies in the 64x64 frame and in the bounds `rect` of
the image. -/
def paints (patterns : List Nat) (x y : Int) (rect : Rectangle) (px py : Int) : Bool :=
  (List.finRange patterns.length).any fun row =>
    (List.range 5).any fun col =>
      decide (patterns.get row &&& (1 <<< (4 - col)) ≠ 0) &&
        (decide (px = x + (col : Int) ∧ py = y + (row.val : Int)) &&
          (decide (px < 64 ∧ py < 64 ∧ px ≥ 0 ∧ py ≥ 0) && Point.In ⟨px, py⟩ rect))

/-- The words of the specification for `DrawTextOnImage`: the `k`-th character of the
text, counted in characters from `k`, is drawn with its left column at `x + 6 * k`. -/
def drawTextPerChar (img : ImageRGBA) (chars : List Char) (x y : Int) (c : Color)
    (k : Nat) : ImageRGBA :=
  match chars with
  | [] => img
  | ch :: rest => drawTextPerChar (drawChar img ch (x + 6 * (k : Int)) y c) rest x y c (k + 1)

/-- The colour white. -/
def white : Color := ⟨255, 255, 255, 255⟩

/-- A buffer of 32x32 pixels with origin `(0, 0)`, all of the zero colour:
`image.NewRGBA(image.Rect(0, 0, 32, 32))`. -/
def smallBuffer : ImageRGBA :=
  { Pix := fun _ _ => ⟨0, 0, 0, 0⟩, Rect := ⟨⟨0, 0⟩, ⟨32, 32⟩⟩ }

end pixoo

namespace main

open gameoflife pixoo

/-! ### Colours

The only float64 values that reach `hueToRGB` are the hues `k / 64` with `k` an
integer; on them every operation of `hueToRGB`, `abs` and `mod` is exact in float64,
so the float64 values are modelled by the rational numbers they are. -/

/-- The conversion `int(f)` of a float64: truncation toward zero. -/
def truncToInt (q : ℚ) : Int := Int.tdiv q.num q.den

/-- The conversion `uint8(f)` of a float64 (truncation; the values converted by
`hueToRGB` lie in `0..255` whenever the hue lies in `[0, 1)`). -/
def toUint8 (q : ℚ) : Fin 256 := Fin.ofNat (truncToInt q % 256).toNat

/-- The function `abs`. -/
def abs (x : ℚ) : ℚ := if x < 0 then -x else x

/-- The function `mod`. -/
def mod (a b : ℚ) : ℚ := a - b * (truncToInt (a / b) : ℚ)

/-- The function `hueToRGB`. -/
def hueToRGB (hue : ℚ) : Color :=
  let h := hue * 6
  let c : ℚ := 1
  let x := c * (1 - abs (mod h 2 - 1))
  let rgb : ℚ × ℚ × ℚ :=
    if truncToInt h = 0 then (c, x, 0)
    else if truncToInt h = 1 then (x, c, 0)
    else if truncToInt h = 2 then (0, c, x)
    else if truncToInt h = 3 then (0, x, c)
    else if truncToInt h = 4 then (x, 0, c)
    else if truncToInt h = 5 then (c, 0, x)
    else (0, 0, 0)
  ⟨toUint8 (rgb.1 * 255), toUint8 (rgb.2.1 * 255), toUint8 (rgb.2.2 * 255), 255⟩

/-- The value of a Go `int` (64 bits, two's complement) after an addition whose exact
result is `i`: the result wraps around. -/
def wrapInt (i : Int) : Int := (i + 2 ^ 63) % 2 ^ 64 - 2 ^ 63

/-- The function `getCellColor`; `%` is Go's truncated remainder, and `x + y` is an
addition of `int`. -/
def getCellColor (age : Int) (mode : String) (x y : Int) : Color :=
  if mode = "age" then
    if age < 5 then ⟨0, 255, 0, 255⟩
    else if age < 15 then ⟨0, 200, 50, 255⟩
    else if age < 30 then ⟨200, 200, 0, 255⟩
    else ⟨255, 100, 0, 255⟩
  else if mode = "rainbow" then
    let hue : ℚ := (((wrapInt (x + y)).tmod 64 : Int) : ℚ) / 64
    hueToRGB hue
  else if mode = "fire" then
    if age < 3 then ⟨255, 255, 0, 255⟩
    else if age < 10 then ⟨255, 150, 0, 255⟩
    else ⟨255, 50, 0, 255⟩
  else if mode = "ocean" then
    if age < 5 then ⟨0, 255, 255, 255⟩
    else if age < 15 then ⟨0, 150, 255, 255⟩
    else ⟨0, 50, 200, 255⟩
  else if mode = "matrix" then
    if age < 3 then ⟨0, 255, 0, 255⟩
    else if age < 10 then ⟨0, 180, 0, 255⟩
    else ⟨0, 100, 0, 255⟩
  else ⟨0, 255, 0, 255⟩

/-! ### The tick of the simulation loop -/

/-- The matrix `cellAges`, 64 rows of 64 `int`, indexed `[y][x]`. -/
abbrev Ages := Fin Size → Fin Size → Int

/-- The assignment `cellAges[y][x] = v`. -/
def Ages.set (a : Ages) (y x : Fin Size) (v : Int) : Ages :=
  fun y' x' => if y' = y ∧ x' = x then v else a y' x'

/-- The state of the loop of `main`: the game, the ages, the generation counter of
the driver, the random source and the device. -/
structure Driver where
  game : Game
  cellAges : Ages
  generation : Int
  rand : Rand
  net : Net

/-- The loops "Update cell ages" of a tick. -/
def updateAges (game : Game) (cellAges : Ages) : Ages :=
  (List.finRange Size).foldl (fun (a : Ages) y =>
    (List.finRange Size).foldl (fun (a : Ages) x =>
      if IsAlive game x.val y.val then a.set y x (a y x + 1) else a.set y x 0) a) cellAges

/-- The loops "Render to image" of a tick. -/
def renderFrame (game : Game) (cellAges : Ages) (colorMode : String) : ImageRGBA :=
  (List.finRange Size).foldl (fun (img : ImageRGBA) y =>
    (List.finRange Size).foldl (fun (img : ImageRGBA) x =>
      if IsAlive game x.val y.val then
        img.Set x.val y.val (getCellColor (cellAges y x) colorMode x.val y.val)
      else img.Set x.val y.val ⟨0, 0, 0, 255⟩) img) CreateImage

/-- The loops of the reseed branches that set every age to zero. -/
def zeroAges (cellAges : Ages) : Ages :=
  (List.finRange Size).foldl (fun (a : Ages) i =>
    (List.finRange Size).foldl (fun (a : Ages) j => a.set i j 0) a) cellAges

/-- One tick of the loop of `main` (the case `<-ticker.C`), for the flags `pattern`
and `colorMode`.  The error of `DrawImage` is only logged; `none` is a panic of
`Step`. -/
def tick (pattern colorMode : String) (d : Driver) : Option Driver :=
  let cellAges := updateAges d.game d.cellAges
  let img := renderFrame d.game cellAges colorMode
  let drawn := DrawImage img.toImage d.net
  (Step d.game).bind fun game =>
    let generation := d.generation + 1
    let alive := CountAlive game
    if alive < 10 then
      let s := LoadPattern game pattern d.rand
      some { game := s.1, cellAges := zeroAges cellAges, generation := 0,
             rand := s.2, net := drawn.2 }
    else if alive > 3500 then
      let s := LoadPattern game pattern d.rand
      some { game := s.1, cellAges := zeroAges cellAges, generation := 0,
             rand := s.2, net := drawn.2 }
    else
      some { game := game, cellAges := cellAges, generation := generation,
             rand := d.rand, net := drawn.2 }

/-! ### Concrete driver states and boards -/

/-- A driver state at start-up with the given game: ages and generation zero, the
random source and the device fixed. -/
def driverOf (game : Game) : Driver :=
  { game := game, cellAges := fun _ _ => 0, generation := 0, rand := fun _ => 0,
    net := okNet }

/-- A board of 3520 alive cells: every cell outside the square `x < 24 ∧ y < 24`. -/
def crowdedGame : Game :=
  { cells := fun y x => decide (24 ≤ y.val ∨ 24 ≤ x.val),
    nextCells := fun _ _ => false, generation := 0 }

/-- The bit-board of `crowdedGame`. -/
def crowdedBits : Nat :=
  packRows (fun y => if y < 24 then 2 ^ 64 - 2 ^ 24 else 2 ^ 64 - 1) 64

/-- A board of vertical lines, every third column alive; one `Step` fills it almost
completely. -/
def stripedGame : Game :=
  { cells := fun _ x => decide (x.val % 3 = 0),
    nextCells := fun _ _ => false, generation := 0 }

/-- The bit-board of `stripedGame`. -/
def stripedBits : Nat := packRows (fun _ => 0x9249249249249249) 64

/-! ### Sequences of ticks -/

/-- The state after `n` ticks, `none` if one of them panics. -/
def ticks (pattern colorMode : String) : Nat → Driver → Option Driver
  | 0, d => some d
  | n + 1, d => (tick pattern colorMode d).bind (ticks pattern colorMode n)

/-! ### The words of the specification: HSV to RGB -/

/-- The conversion of a colour of hue `h` (in turns, `0 ≤ h < 1`), saturation `s` and
value `v` to red, green and blue in `[0, 1]`: with the chroma `c = v * s`, the sector
coordinate `h6 = 6 * h`, `x = c * (1 - |h6 mod 2 - 1|)` and `m = v - c`. -/
def hsvToRGB (h s v : ℚ) : ℚ × ℚ × ℚ :=
  let c := v * s
  let h6 := h * 6
  let x := c * (1 - |h6 - 2 * (⌊h6 / 2⌋ : ℚ) - 1|)
  let m := v - c
  let rgb : ℚ × ℚ × ℚ :=
    if h6 < 1 then (c, x, 0)
    else if h6 < 2 then (x, c, 0)
    else if h6 < 3 then (0, c, x)
    else if h6 < 4 then (0, x, c)
    else if h6 < 5 then (x, 0, c)
    else (c, 0, x)
  (rgb.1 + m, rgb.2.1 + m, rgb.2.2 + m)

/-- A channel in `[0, 1]` scaled to `0..255` and truncated. -/
def channel255 (q : ℚ) : Fin 256 := Fin.ofNat (⌊q * 255⌋ % 256).toNat

/-- The opaque colour of hue `h` with `S = V = 1`. -/
def hueColor (h : ℚ) : Color :=
  let rgb := hsvToRGB h 1 1
  ⟨channel255 rgb.1, channel255 rgb.2.1, channel255 rgb.2.2, 255⟩

/-! ### The frame in closed form -/

/-- The pixel that the loops "Render to image" store at `(x, y)`, in closed form: a
point of the frame holds black for a dead cell and the colour of its age for an alive
cell; a point outside the frame holds the zero colour of the fresh buffer. -/
def framePixel (game : Game) (cellAges : Ages) (colorMode : String) (x y : Int) : Color :=
  if h : (0 ≤ x ∧ x < 64) ∧ (0 ≤ y ∧ y < 64) then
    if IsAlive game x y then getCellColor (cellAges (toIdx y h.2) (toIdx x h.1)) colorMode x y
    else ⟨0, 0, 0, 255⟩
  else ⟨0, 0, 0, 0⟩

end main

namespace pixoo

/-! ### The text command, and the client that posts through curl -/

/-- One digit of the verb `%02x`. -/
def hexDigit (d : Nat) : Char := "0123456789abcdef".data.getD d '0'

/-- The verb `%02x` on a `uint8`. -/
def hex2 (v : Fin 256) : String := String.mk [hexDigit (v.val / 16), hexDigit (v.val % 16)]

/-- The string `fmt.Sprintf("#%02x%02x%02x", r, g, b)`. -/
def colorString (r g b : Fin 256) : String := "#" ++ hex2 r ++ hex2 g ++ hex2 b

/-- The method `DrawText` of `Client`. -/
def DrawText (text : String) (r g b : Fin 256) (net : Net) : Option Error × Net :=
  post [("Command", Value.str "Draw/SendHttpText"), ("TextId", Value.int 1),
        ("x", Value.int 0), ("y", Value.int 24), ("dir", Value.int 0),
        ("font", Value.int 2), ("TextWidth", Value.int 64), ("speed", Value.int 0),
        ("TextString", Value.str text), ("color", Value.str (colorString r g b)),
        ("align", Value.int 2)] net

/-- What `cmd.CombinedOutput()` gives for a run of `curl -s` with the command as its
body: curl exits with an error when the exchange fails, and with success on any
response, whatever its status code. The command is logged as posted. -/
def CurlClient.run (command : Command) (net : Net) : Option Error × Net :=
  let net1 : Net := { net with sent := net.sent ++ [command] }
  match net.reply (net.sent ++ [command]) with
  | Reply.failed cause => (some (Error.curlCommand cause), net1)
  | Reply.status _ => (none, net1)

/-- The method `post` of `CurlClient`. Marshalling a map of strings and integers does
not fail. -/
def CurlClient.post (command : Command) (net : Net) : Option Error × Net :=
  CurlClient.run command net

/-- The method `SetBrightness` of `CurlClient`. -/
def CurlClient.SetBrightness (brightness : Int) (net : Net) : Option Error × Net :=
  if brightness < 0 ∨ brightness > 100 then (some Error.brightness, net)
  else
    CurlClient.post [("Command", Value.str "Channel/SetBrightness"),
                     ("Brightness", Value.int brightness)] net

/-- The method `ClearScreen` of `CurlClient`. -/
def CurlClient.ClearScreen (net : Net) : Option Error × Net :=
  CurlClient.post [("Command", Value.str "Draw/ResetHttpGifId")] net

/-- The expression `int((r>>8)<<16 | (g>>8)<<8 | (b >> 8))` on `uint32` channels. -/
def CurlClient.packPixel (c : RGBA32) : Int :=
  ((((c.r / 256) * 65536 % 2 ^ 32) ||| ((c.g / 256) * 256 % 2 ^ 32) ||| (c.b / 256) : Nat) : Int)

/-- The loops of `DrawImage` of `CurlClient` that fill `pixels`, a slice of 4096
integers. -/
def CurlClient.fillPixels (img : Image) : List Int :=
  (List.range 64).foldl (fun (s : List Int) (y : Nat) =>
    (List.range 64).foldl (fun (s : List Int) (x : Nat) =>
      s.set (y * 64 + x) (CurlClient.packPixel (img.At x y))) s) (List.replicate (64 * 64) 0)

/-- The command `Draw/SendHttpGif` of `DrawImage` of `CurlClient`. -/
def CurlClient.sendGifCommand (pixels : List Int) : Command :=
  [("Command", Value.str "Draw/SendHttpGif"), ("PicNum", Value.int 1),
   ("PicWidth", Value.int 64), ("PicOffset", Value.int 0), ("PicID", Value.int 0),
   ("PicSpeed", Value.int 1000), ("PicData", Value.ints pixels)]

/-- The method `DrawImage` of `CurlClient`. -/
def CurlClient.DrawImage (img : Image) (net : Net) : Option Error × Net :=
  let bounds := img.Bounds
  if bounds.Dx ≠ 64 ∨ bounds.Dy ≠ 64 then (some Error.imageSize, net)
  else
    let pixels := CurlClient.fillPixels img
    CurlClient.run (CurlClient.sendGifCommand pixels) net

/-- The method `DrawText` of `CurlClient`. -/
def CurlClient.DrawText (text : String) (r g b : Fin 256) (net : Net) :
    Option Error × Net :=
  CurlClient.post [("Command", Value.str "Draw/SendHttpText"), ("TextId", Value.int 1),
        ("x", Value.int 0), ("y", Value.int 0), ("dir", Value.int 0),
        ("font", Value.int 2), ("TextWidth", Value.int 64), ("speed", Value.int 50),
        ("TextString", Value.str text), ("color", Value.str (colorString r g b)),
        ("align", Value.int 1)] net

/-- A 64x64 buffer whose bounds start at `(10, 10)` and whose pixels are all white:
`image.NewRGBA(image.Rect(10, 10, 74, 74))` filled with white. -/
def shiftedWhite : ImageRGBA :=
  { Pix := fun _ _ => ⟨255, 255, 255, 255⟩, Rect := ⟨⟨10, 10⟩, ⟨74, 74⟩⟩ }

/-- The pixel of the image in column `i` and row `j` of its bounds. -/
def Image.pixelOfBounds (img : Image) (i j : Nat) : RGBA32 :=
  img.At (img.Bounds.Min.X + i) (img.Bounds.Min.Y + j)

end pixoo

namespace gameoflife

/-- A glider placed at `(5, 5)` on the empty board. -/
def gliderAt55 : Game := Glider NewGame 5 5

/-- The glider of `gliderAt55` three columns to the right and two rows up. -/
def gliderAt83 : Game := Glider NewGame 8 3

end gameoflife

/-! ## Proofs -/

namespace gameoflife

/-! ### The game: closed forms of the loops, the bit-board evaluator -/

theorem at?_wrap (c : Grid) (y x : Fin 64) (dy dx : Int) (hy : -1 ≤ dy ∧ dy ≤ 1) (hx : -1 ≤ dx ∧ dx ≤ 1) :
    c.at? (((y.val : Int) + dy + 64).tmod 64) (((x.val : Int) + dx + 64).tmod 64)
      = some (c (Fin.ofNat ((y.val : Int) + dy + 64).toNat) (Fin.ofNat ((x.val : Int) + dx + 64).toNat)) := by
  have hy' := y.isLt
  have hx' := x.isLt
  have e1 : ((y.val : Int) + dy + 64).tmod 64 = ((y.val : Int) + dy + 64) % 64 :=
    Int.tmod_eq_emod (by omega) (by omega)
  have e2 : ((x.val : Int) + dx + 64).tmod 64 = ((x.val : Int) + dx + 64) % 64 :=
    Int.tmod_eq_emod (by omega) (by omega)
  rw [e1, e2]
  unfold Grid.at?
  rw [dif_pos (by omega)]
  congr 2 <;> (apply Fin.ext; simp [toIdx, Fin.ofNat]; omega)

theorem wrap_m1 (i : Fin 64) : (Fin.ofNat ((i.val : Int) + -1 + 64).toNat : Fin 64) = i - 1 := by
  apply Fin.ext
  have := i.isLt
  simp [Fin.ofNat, Fin.sub_def]
  omega

theorem wrap_0 (i : Fin 64) : (Fin.ofNat ((i.val : Int) + 0 + 64).toNat : Fin 64) = i := by
  apply Fin.ext
  have := i.isLt
  simp [Fin.ofNat]
  omega

theorem wrap_p1 (i : Fin 64) : (Fin.ofNat ((i.val : Int) + 1 + 64).toNat : Fin 64) = i + 1 := by
  apply Fin.ext
  have := i.isLt
  simp [Fin.ofNat, Fin.add_def]
  omega

theorem ite_succ_toNat (b : Bool) (n : Int) :
    (if b = true then n + 1 else n) = n + (b.toNat : Int) := by
  cases b <;> simp

theorem CountNeighbors_eq (g : Game) (y x : Fin 64) :
    CountNeighbors g x.val y.val = some (nbrs g.cells y x : Int) := by
  unfold CountNeighbors deltas
  simp only [List.foldlM_cons, List.foldlM_nil,
    at?_wrap g.cells y x (-1) (-1) (by decide) (by decide),
    at?_wrap g.cells y x (-1) 0 (by decide) (by decide),
    at?_wrap g.cells y x (-1) 1 (by decide) (by decide),
    at?_wrap g.cells y x 0 (-1) (by decide) (by decide),
    at?_wrap g.cells y x 0 1 (by decide) (by decide),
    at?_wrap g.cells y x 1 (-1) (by decide) (by decide),
    at?_wrap g.cells y x 1 0 (by decide) (by decide),
    at?_wrap g.cells y x 1 1 (by decide) (by decide),
    wrap_m1, wrap_0, wrap_p1, ite_succ_toNat]
  simp [nbrs]

theorem stepCell_eq (g : Game) (y x : Fin 64) :
    stepCell g y x = some { g with nextCells := g.nextCells.set y x (next g.cells y x) } := by
  unfold stepCell
  rw [CountNeighbors_eq]
  simp only [Option.some_bind, next, lifeRule]
  cases g.cells y x <;> simp <;> norm_cast

theorem foldlM_some {α β : Type} (f : β → α → Option β) (h : β → α → β)
    (hf : ∀ b a, f b a = some (h b a)) (l : List α) (b : β) :
    l.foldlM f b = some (l.foldl h b) := by
  induction l generalizing b with
  | nil => rfl
  | cons a l ih => simp [List.foldlM_cons, hf, ih]

theorem row_fold (y : Fin 64) (l : List (Fin 64)) (g : Game) :
    l.foldl (fun (g : Game) x => { g with nextCells := g.nextCells.set y x (next g.cells y x) }) g
      = { g with nextCells := fun y' x' =>
            if y' = y ∧ x' ∈ l then next g.cells y' x' else g.nextCells y' x' } := by
  induction l generalizing g with
  | nil => simp
  | cons a l ih =>
    rw [List.foldl_cons, ih]
    congr 1
    funext y' x'
    simp only [Grid.set, List.mem_cons]
    by_cases h1 : y' = y <;> by_cases h2 : x' ∈ l <;> by_cases h3 : x' = a <;> simp [h1, h2, h3]

theorem rows_fold (l : List (Fin 64)) (g : Game) :
    l.foldl (fun (g : Game) y => { g with nextCells := fun y' x' =>
            if y' = y ∧ x' ∈ List.finRange 64 then next g.cells y' x' else g.nextCells y' x' }) g
      = { g with nextCells := fun y' x' =>
            if y' ∈ l then next g.cells y' x' else g.nextCells y' x' } := by
  induction l generalizing g with
  | nil => simp
  | cons a l ih =>
    rw [List.foldl_cons, ih]
    congr 1
    funext y' x'
    simp only [List.mem_cons, List.mem_finRange, and_true]
    by_cases h1 : y' = a <;> by_cases h2 : y' ∈ l <;> simp [h1, h2]

theorem Step_eq (g : Game) :
    Step g = some { cells := next g.cells, nextCells := next g.cells,
                    generation := g.generation + 1 } := by
  unfold Step
  have inner : ∀ (g : Game) (y : Fin 64),
      (List.finRange Size).foldlM (fun (g : Game) x => stepCell g y x) g
        = some { g with nextCells := fun y' x' =>
            if y' = y ∧ x' ∈ List.finRange 64 then next g.cells y' x' else g.nextCells y' x' } := by
    intro g y
    rw [foldlM_some _ _ (fun g x => stepCell_eq g y x), row_fold]
  rw [foldlM_some _ _ inner, rows_fold]
  simp

theorem packRows_lt (r : Nat → Nat) (hr : ∀ y, r y < 2 ^ 64) (k : Nat) :
    packRows r k < 2 ^ (64 * k) := by
  induction k with
  | zero => simp [packRows]
  | succ k ih =>
    have h1 := hr k
    have e : 2 ^ (64 * (k + 1)) = 2 ^ (64 * k) * 2 ^ 64 := by
      rw [Nat.mul_add, Nat.pow_add, Nat.mul_one]
    rw [packRows, e]
    have h2 : r k + 1 ≤ 2 ^ 64 := h1
    calc 2 ^ (64 * k) * r k + packRows r k
        < 2 ^ (64 * k) * r k + 2 ^ (64 * k) := by omega
      _ = 2 ^ (64 * k) * (r k + 1) := by ring
      _ ≤ 2 ^ (64 * k) * 2 ^ 64 := Nat.mul_le_mul_left _ h2

theorem testBit_packRows (r : Nat → Nat) (hr : ∀ y, r y < 2 ^ 64) (k j : Nat) :
    (packRows r k).testBit j = (decide (j / 64 < k) && (r (j / 64)).testBit (j % 64)) := by
  induction k with
  | zero => simp [packRows]
  | succ k ih =>
    rw [packRows, Nat.testBit_mul_pow_two_add _ (packRows_lt r hr k)]
    by_cases h : j < 64 * k
    · rw [if_pos h, ih]
      have h1 : j / 64 < k := by omega
      have h2 : j / 64 < k + 1 := by omega
      simp [h1, h2]
    · rw [if_neg h]
      by_cases h3 : j / 64 = k
      · have h4 : j - 64 * k = j % 64 := by omega
        rw [h4, h3]
        simp
      · have h5 : ¬ (j / 64 < k + 1) := by omega
        have h6 : 64 ≤ j - 64 * k := by omega
        have h7 : r k < 2 ^ (j - 64 * k) :=
          Nat.lt_of_lt_of_le (hr k) (Nat.pow_le_pow_right (by decide) h6)
        rw [Nat.testBit_lt_two_pow h7]
        simp [h5]

theorem testBit_maskFirst (j : Nat) :
    maskFirst.testBit j = (decide (j < 4096) && decide (j % 64 = 0)) := by
  unfold maskFirst
  rw [testBit_packRows _ (fun _ => by decide)]
  have e : (Nat.testBit 1 (j % 64)) = decide (j % 64 = 0) := by
    have : ∀ i < 64, Nat.testBit 1 i = decide (i = 0) := by decide
    exact this _ (Nat.mod_lt _ (by decide))
  rw [e]
  congr 1
  simp only [decide_eq_decide]
  omega

theorem testBit_maskNotFirst (j : Nat) :
    maskNotFirst.testBit j = (decide (j < 4096) && decide (j % 64 ≠ 0)) := by
  unfold maskNotFirst
  rw [testBit_packRows _ (fun _ => by decide)]
  have e : (Nat.testBit (2 ^ 64 - 2) (j % 64)) = decide (j % 64 ≠ 0) := by
    have : ∀ i < 64, Nat.testBit (2 ^ 64 - 2) i = decide (i ≠ 0) := by decide
    exact this _ (Nat.mod_lt _ (by decide))
  rw [e]
  congr 1
  simp only [decide_eq_decide]
  omega

theorem testBit_maskNotLast (j : Nat) :
    maskNotLast.testBit j = (decide (j < 4096) && decide (j % 64 ≠ 63)) := by
  unfold maskNotLast
  rw [testBit_packRows _ (fun _ => by decide)]
  have e : (Nat.testBit (2 ^ 63 - 1) (j % 64)) = decide (j % 64 ≠ 63) := by
    have : ∀ i < 64, Nat.testBit (2 ^ 63 - 1) i = decide (i ≠ 63) := by decide
    exact this _ (Nat.mod_lt _ (by decide))
  rw [e]
  congr 1
  simp only [decide_eq_decide]
  omega

theorem fin_succ_val (y : Fin 64) : (y + 1).val = if y.val = 63 then 0 else y.val + 1 := by
  have := y.isLt
  have e : ((1 : Fin 64).val) = 1 := rfl
  rw [Fin.val_add, e]
  split <;> omega

theorem fin_pred_val (y : Fin 64) : (y - 1).val = if y.val = 0 then 63 else y.val - 1 := by
  have := y.isLt
  have e : ((1 : Fin 64).val) = 1 := rfl
  rw [Fin.sub_def]
  simp only [e]
  split <;> omega

theorem bitGrid_rowUp (n : Nat) (y x : Fin 64) :
    bitGrid (rowUp n) y x = bitGrid n (y + 1) x := by
  have hy := y.isLt
  have hx := x.isLt
  simp only [bitGrid, rowUp, Nat.testBit_or, Nat.testBit_mod_two_pow, Nat.testBit_shiftRight,
    Nat.testBit_shiftLeft, fin_succ_val]
  by_cases h : y.val = 63
  · rw [if_pos h]
    have e1 : ¬ (64 * y.val + x.val < 4032) := by omega
    have e2 : 64 * y.val + x.val ≥ 4032 := by omega
    have e3 : 64 * y.val + x.val - 4032 < 64 := by omega
    have e4 : 64 * y.val + x.val - 4032 = 64 * 0 + x.val := by omega
    simp only [e1, e2, e3, decide_True, decide_False, Bool.false_and,
      Bool.true_and, Bool.false_or]
    rw [e4]
  · rw [if_neg h]
    have e1 : 64 * y.val + x.val < 4032 := by omega
    have e2 : ¬ (64 * y.val + x.val ≥ 4032) := by omega
    have e4 : 64 + (64 * y.val + x.val) = 64 * (y.val + 1) + x.val := by omega
    simp only [e1, e2, decide_True, decide_False, Bool.false_and,
      Bool.true_and, Bool.or_false]
    rw [e4]

theorem bitGrid_rowDown (n : Nat) (y x : Fin 64) :
    bitGrid (rowDown n) y x = bitGrid n (y - 1) x := by
  have hy := y.isLt
  have hx := x.isLt
  simp only [bitGrid, rowDown, Nat.testBit_or, Nat.testBit_mod_two_pow, Nat.testBit_shiftRight,
    Nat.testBit_shiftLeft, fin_pred_val]
  by_cases h : y.val = 0
  · rw [if_pos h]
    have e1 : ¬ (64 * y.val + x.val ≥ 64) := by omega
    have e2 : 64 * y.val + x.val < 64 := by omega
    have e4 : 4032 + (64 * y.val + x.val) = 64 * 63 + x.val := by omega
    simp only [e1, e2, decide_True, decide_False, Bool.false_and,
      Bool.true_and, Bool.false_or]
    rw [e4]
  · rw [if_neg h]
    have e1 : 64 * y.val + x.val ≥ 64 := by omega
    have e2 : ¬ (64 * y.val + x.val < 64) := by omega
    have e3 : 64 * y.val + x.val - 64 < 4032 := by omega
    have e4 : 64 * y.val + x.val - 64 = 64 * (y.val - 1) + x.val := by omega
    simp only [e1, e2, e3, decide_True, decide_False, Bool.false_and,
      Bool.true_and, Bool.or_false]
    rw [e4]

theorem bitGrid_colUp (n : Nat) (y x : Fin 64) :
    bitGrid (colUp n) y x = bitGrid n y (x + 1) := by
  have hy := y.isLt
  have hx := x.isLt
  simp only [bitGrid, colUp, Nat.testBit_or, Nat.testBit_and, Nat.testBit_shiftRight,
    Nat.testBit_shiftLeft, fin_succ_val, testBit_maskFirst, testBit_maskNotLast]
  have e0 : 64 * y.val + x.val < 4096 := by omega
  by_cases h : x.val = 63
  · rw [if_pos h]
    have e1 : ¬ ((64 * y.val + x.val) % 64 ≠ 63) := by omega
    have e2 : 64 * y.val + x.val ≥ 63 := by omega
    have e3 : 64 * y.val + x.val - 63 < 4096 := by omega
    have e4 : (64 * y.val + x.val - 63) % 64 = 0 := by omega
    have e5 : 64 * y.val + x.val - 63 = 64 * y.val + 0 := by omega
    simp only [e0, e1, e2, e3, e4, decide_True, decide_False, Bool.false_and,
      Bool.true_and, Bool.false_or, Bool.and_false, Bool.and_true]
    rw [e5]
  · rw [if_neg h]
    have e1 : (64 * y.val + x.val) % 64 ≠ 63 := by omega
    have e4 : ¬ (64 * y.val + x.val ≥ 63 ∧ (64 * y.val + x.val - 63) % 64 = 0) := by omega
    have e5 : 1 + (64 * y.val + x.val) = 64 * y.val + (x.val + 1) := by omega
    have e6 : (decide (64 * y.val + x.val ≥ 63) &&
        (n.testBit (64 * y.val + x.val - 63) &&
          (decide (64 * y.val + x.val - 63 < 4096) &&
            decide ((64 * y.val + x.val - 63) % 64 = 0)))) = false := by
      by_cases h1 : 64 * y.val + x.val ≥ 63
      · have h2 : ¬ ((64 * y.val + x.val - 63) % 64 = 0) := fun h3 => e4 ⟨h1, h3⟩
        simp only [h2, decide_False, Bool.and_false]
      · simp only [h1, decide_False, Bool.false_and]
    rw [e6, e5]
    simp only [e0, e1, decide_True, Bool.and_true, Bool.or_false, ne_eq, not_false_eq_true]

theorem bitGrid_colDown (n : Nat) (y x : Fin 64) :
    bitGrid (colDown n) y x = bitGrid n y (x - 1) := by
  have hy := y.isLt
  have hx := x.isLt
  simp only [bitGrid, colDown, Nat.testBit_or, Nat.testBit_and, Nat.testBit_shiftRight,
    Nat.testBit_shiftLeft, fin_pred_val, testBit_maskFirst, testBit_maskNotFirst]
  have e0 : 64 * y.val + x.val < 4096 := by omega
  by_cases h : x.val = 0
  · rw [if_pos h]
    have e1 : ¬ ((64 * y.val + x.val) % 64 ≠ 0) := by omega
    have e4 : (64 * y.val + x.val) % 64 = 0 := by omega
    have e5 : 63 + (64 * y.val + x.val) = 64 * y.val + 63 := by omega
    simp only [e0, e4, ne_eq, not_true_eq_false, decide_True, decide_False, Bool.false_and,
      Bool.true_and, Bool.false_or, Bool.and_false, Bool.and_true]
    rw [e5]
  · rw [if_neg h]
    have e1 : (64 * y.val + x.val) % 64 ≠ 0 := by omega
    have e2 : 64 * y.val + x.val ≥ 1 := by omega
    have e4 : ¬ ((64 * y.val + x.val) % 64 = 0) := by omega
    have e5 : 64 * y.val + x.val - 1 = 64 * y.val + (x.val - 1) := by omega
    simp only [e0, e1, e2, e4, decide_True, decide_False, Bool.false_and,
      Bool.true_and, Bool.or_false, Bool.and_false, Bool.and_true, ne_eq, not_false_eq_true]
    rw [e5]

theorem lifeCircuit_bool : ∀ c n1 n2 n3 n4 n5 n6 n7 n8 : Bool,
    lifeCircuit and or xor c n1 n2 n3 n4 n5 n6 n7 n8
      = lifeRule c (n1.toNat + n2.toNat + n3.toNat + n4.toNat + n5.toNat
          + n6.toNat + n7.toNat + n8.toNat) := by
  decide

theorem testBit_lifeCircuit (c n1 n2 n3 n4 n5 n6 n7 n8 j : Nat) :
    (lifeCircuit (fun a b => a &&& b) (fun a b => a ||| b) (fun a b => a ^^^ b)
        c n1 n2 n3 n4 n5 n6 n7 n8).testBit j
      = lifeCircuit and or xor (c.testBit j) (n1.testBit j) (n2.testBit j) (n3.testBit j)
          (n4.testBit j) (n5.testBit j) (n6.testBit j) (n7.testBit j) (n8.testBit j) := by
  simp only [lifeCircuit, Nat.testBit_and, Nat.testBit_or, Nat.testBit_xor]

theorem next_bitGrid (n : Nat) : next (bitGrid n) = bitGrid (stepFast n) := by
  funext y x
  have h := testBit_lifeCircuit n (colDown (rowDown n)) (rowDown n) (colUp (rowDown n))
    (colDown n) (colUp n) (colDown (rowUp n)) (rowUp n) (colUp (rowUp n)) (64 * y.val + x.val)
  have e : bitGrid (stepFast n) y x = (stepFast n).testBit (64 * y.val + x.val) := rfl
  rw [e]
  unfold stepFast
  simp only []
  rw [h, lifeCircuit_bool]
  have f : ∀ m, m.testBit (64 * y.val + x.val) = bitGrid m y x := fun _ => rfl
  simp only [f, bitGrid_colDown, bitGrid_colUp, bitGrid_rowDown, bitGrid_rowUp]
  rfl

theorem IsAlive_fin (g : Game) (x y : Fin 64) : IsAlive g x.val y.val = g.cells y x := by
  have hx := x.isLt
  have hy := y.isLt
  unfold IsAlive
  rw [dif_neg (by omega)]
  congr 1

theorem toIdx_val (i : Int) (h : 0 ≤ i ∧ i < 64) : ((toIdx i h).val : Int) = i := by
  simp [toIdx]; omega

theorem emod_pred (i : Fin 64) : ((i.val : Int) + -1) % 64 = ((i - 1 : Fin 64).val : Int) := by
  have := i.isLt
  rw [fin_pred_val]
  split <;> omega

theorem emod_zero (i : Fin 64) : ((i.val : Int) + 0) % 64 = ((i : Fin 64).val : Int) := by
  have := i.isLt
  omega

theorem emod_succ (i : Fin 64) : ((i.val : Int) + 1) % 64 = ((i + 1 : Fin 64).val : Int) := by
  have := i.isLt
  rw [fin_succ_val]
  split <;> omega

theorem neighbourOffsets_eq : neighbourOffsets =
    {(-1, -1), (0, -1), (1, -1), (-1, 0), (1, 0), (-1, 1), (0, 1), (1, 1)} := by
  decide

theorem ite_one_zero (b : Bool) : (if b = true then 1 else 0) = b.toNat := by
  cases b <;> rfl

theorem liveNeighbours_fin (g : Game) (x y : Fin 64) :
    liveNeighbours g x.val y.val = nbrs g.cells y x := by
  unfold liveNeighbours
  rw [neighbourOffsets_eq, Finset.card_filter]
  rw [Finset.sum_insert (by decide), Finset.sum_insert (by decide),
    Finset.sum_insert (by decide), Finset.sum_insert (by decide),
    Finset.sum_insert (by decide), Finset.sum_insert (by decide),
    Finset.sum_insert (by decide), Finset.sum_singleton]
  simp only [emod_pred, emod_zero, emod_succ, IsAlive_fin, ite_one_zero, nbrs]
  omega

theorem Step_stepped (g : Game) : Step g = some (stepped g) := Step_eq g

theorem nbrs_le (c : Grid) (y x : Fin 64) : nbrs c y x ≤ 8 := by
  unfold nbrs
  have h : ∀ b : Bool, b.toNat ≤ 1 := by decide
  have h1 := h (c (y - 1) (x - 1))
  have h2 := h (c (y - 1) x)
  have h3 := h (c (y - 1) (x + 1))
  have h4 := h (c y (x - 1))
  have h5 := h (c y (x + 1))
  have h6 := h (c (y + 1) (x - 1))
  have h7 := h (c (y + 1) x)
  have h8 := h (c (y + 1) (x + 1))
  omega

theorem CountNeighbors_live (g : Game) (x y : Int) (hx : 0 ≤ x ∧ x < 64) (hy : 0 ≤ y ∧ y < 64) :
    CountNeighbors g x y = some (liveNeighbours g x y : Int) := by
  rw [← toIdx_val x hx, ← toIdx_val y hy, CountNeighbors_eq, liveNeighbours_fin]

theorem liveNeighbours_le (g : Game) (x y : Int) (hx : 0 ≤ x ∧ x < 64) (hy : 0 ≤ y ∧ y < 64) :
    liveNeighbours g x y ≤ 8 := by
  rw [← toIdx_val x hx, ← toIdx_val y hy, liveNeighbours_fin]
  exact nbrs_le _ _ _

theorem cells_of_only_origin (g : Game)
    (h : ∀ a b : Int, IsAlive g a b = true ↔ (a = 0 ∧ b = 0)) (y x : Fin 64) :
    g.cells y x = decide (x = 0 ∧ y = 0) := by
  have h1 := h x.val y.val
  rw [IsAlive_fin] at h1
  have e : ((x.val : Int) = 0 ∧ (y.val : Int) = 0) ↔ (x = 0 ∧ y = 0) := by
    constructor
    · rintro ⟨a, b⟩
      exact ⟨Fin.ext (by simpa using a), Fin.ext (by simpa using b)⟩
    · rintro ⟨a, b⟩
      subst a; subst b
      exact ⟨rfl, rfl⟩
  rw [e] at h1
  cases hc : g.cells y x
  · rw [hc] at h1
    simp at h1
    simp
    exact h1
  · rw [hc] at h1
    simp at h1
    simp [h1]

theorem bit_index_inj (y x y' x' : Fin 64) :
    64 * y.val + x.val = 64 * y'.val + x'.val ↔ (y' = y ∧ x' = x) := by
  have h1 := y.isLt
  have h2 := x.isLt
  have h3 := y'.isLt
  have h4 := x'.isLt
  constructor
  · intro h
    exact ⟨Fin.ext (by omega), Fin.ext (by omega)⟩
  · rintro ⟨a, b⟩
    subst a; subst b; rfl

theorem set_true_bitGrid (n : Nat) (y x : Fin 64) :
    (bitGrid n).set y x true = bitGrid (n ||| 2 ^ (64 * y.val + x.val)) := by
  funext y' x'
  simp only [Grid.set, bitGrid, Nat.testBit_or, Nat.testBit_two_pow, bit_index_inj]
  by_cases h : y' = y ∧ x' = x <;> simp [h]

theorem bitGrid_zero : bitGrid 0 = fun _ _ => false := by
  funext y x
  simp [bitGrid]

theorem clear_row_fold (y : Fin 64) (l : List (Fin 64)) (g : Game) :
    l.foldl (fun (g : Game) x => { g with cells := g.cells.set y x false }) g
      = { g with cells := fun y' x' => if y' = y ∧ x' ∈ l then false else g.cells y' x' } := by
  induction l generalizing g with
  | nil => simp
  | cons a l ih =>
    rw [List.foldl_cons, ih]
    congr 1
    funext y' x'
    simp only [Grid.set, List.mem_cons]
    by_cases h1 : y' = y <;> by_cases h2 : x' ∈ l <;> by_cases h3 : x' = a <;> simp [h1, h2, h3]

theorem clear_rows_fold (l : List (Fin 64)) (g : Game) :
    l.foldl (fun (g : Game) y => { g with cells := fun y' x' =>
            if y' = y ∧ x' ∈ List.finRange 64 then false else g.cells y' x' }) g
      = { g with cells := fun y' x' => if y' ∈ l then false else g.cells y' x' } := by
  induction l generalizing g with
  | nil => simp
  | cons a l ih =>
    rw [List.foldl_cons, ih]
    congr 1
    funext y' x'
    simp only [List.mem_cons, List.mem_finRange, and_true]
    by_cases h1 : y' = a <;> by_cases h2 : y' ∈ l <;> simp [h1, h2]

theorem Clear_eq (g : Game) :
    Clear g = { cells := fun _ _ => false, nextCells := g.nextCells, generation := 0 } := by
  unfold Clear
  have inner : ∀ (g : Game) (y : Fin 64),
      (List.finRange Size).foldl (fun (g : Game) x => { g with cells := g.cells.set y x false }) g
        = { g with cells := fun y' x' =>
            if y' = y ∧ x' ∈ List.finRange 64 then false else g.cells y' x' } :=
    fun g y => clear_row_fold y _ g
  simp only [inner, clear_rows_fold]
  simp

theorem setIfInside_fold_bits (x y : Int) (l : List (Int × Int))
    (hl : ∀ p ∈ l, (0 ≤ x + p.1 ∧ x + p.1 < 64) ∧ (0 ≤ y + p.2 ∧ y + p.2 < 64))
    (g : Game) (n : Nat) (hg : g.cells = bitGrid n) :
    l.foldl (fun g p => setIfInside g (x + p.1) (y + p.2)) g
      = { g with
          cells := bitGrid (l.foldl
            (fun n p => n ||| 2 ^ (64 * (y + p.2).toNat + (x + p.1).toNat)) n) } := by
  induction l generalizing g n with
  | nil => simp [hg.symm]
  | cons a l ih =>
    have ha := hl a (List.mem_cons_self _ _)
    have hl' : ∀ p ∈ l, (0 ≤ x + p.1 ∧ x + p.1 < 64) ∧ (0 ≤ y + p.2 ∧ y + p.2 < 64) :=
      fun p hp => hl p (List.mem_cons_of_mem _ hp)
    have e : setIfInside g (x + a.1) (y + a.2)
        = { g with cells := bitGrid (n ||| 2 ^ (64 * (y + a.2).toNat + (x + a.1).toNat)) } := by
      unfold setIfInside
      rw [dif_pos ⟨⟨ha.1.1, ha.1.2⟩, ⟨ha.2.1, ha.2.2⟩⟩, hg, set_true_bitGrid]
      rfl
    rw [List.foldl_cons, List.foldl_cons, e, ih hl' _ _ rfl]

theorem CountAlive_congr (g h : Game) (e : g.cells = h.cells) : CountAlive g = CountAlive h := by
  unfold CountAlive
  rw [e]

theorem IsAlive_congr (g h : Game) (e : g.cells = h.cells) (x y : Int) :
    IsAlive g x y = IsAlive h x y := by
  unfold IsAlive
  rw [e]

theorem IsAlive_bits (g : Game) (n : Nat) (e : g.cells = bitGrid n) (x y : Fin 64) :
    IsAlive g x.val y.val = n.testBit (64 * y.val + x.val) := by
  rw [IsAlive_fin, e]
  rfl

theorem stepped_bits (g : Game) (n : Nat) (e : g.cells = bitGrid n) :
    (stepped g).cells = bitGrid (stepFast n) := by
  show next g.cells = _
  rw [e, next_bitGrid]

theorem Glider_bits (x y : Int)
    (hl : ∀ p ∈ gliderPattern, (0 ≤ x + p.1 ∧ x + p.1 < 64) ∧ (0 ≤ y + p.2 ∧ y + p.2 < 64)) :
    (Glider NewGame x y).cells = bitGrid (patternBits gliderPattern x y) := by
  unfold Glider
  rw [setIfInside_fold_bits x y gliderPattern hl NewGame 0 bitGrid_zero.symm]
  rfl

theorem LoadPattern_pulsar (g : Game) (r : Rand) :
    (LoadPattern g "pulsar" r).1.cells = bitGrid (patternBits pulsarPattern 26 26) := by
  have hs : LoadPattern g "pulsar" r
      = ({ (pulsarPattern.foldl (fun g p => setIfInside g (26 + p.1) (26 + p.2)) (Clear g))
            with generation := 0 }, r) := by
    unfold LoadPattern
    simp only [String.reduceEq, if_false, if_true]
    rfl
  rw [hs, setIfInside_fold_bits 26 26 pulsarPattern (by decide) (Clear g) 0
    (by rw [Clear_eq, bitGrid_zero])]
  rfl

theorem count_row_fold (p : Fin 64 → Bool) (l : List (Fin 64)) (count : Int) :
    l.foldl (fun (count : Int) x => if p x then count + 1 else count) count
      = count + (l.countP p : Nat) := by
  induction l generalizing count with
  | nil => simp
  | cons a l ih =>
    rw [List.foldl_cons, ih, List.countP_cons]
    cases p a
    · simp
    · simp; omega

theorem count_rows_fold (c : Grid) (l : List (Fin 64)) (count : Int) :
    l.foldl (fun (count : Int) y =>
        (List.finRange Size).foldl (fun (count : Int) x =>
          if c y x then count + 1 else count) count) count
      = count + ((l.map fun y => (List.finRange 64).countP (c y)).sum : Nat) := by
  induction l generalizing count with
  | nil => simp
  | cons a l ih =>
    rw [List.foldl_cons, ih, count_row_fold (c a)]
    simp only [List.map_cons, List.sum_cons, Nat.cast_add, Size]
    omega

theorem CountAlive_eq (g : Game) :
    CountAlive g
      = (((List.finRange 64).map fun y => (List.finRange 64).countP (g.cells y)).sum : Nat) := by
  unfold CountAlive
  rw [count_rows_fold]
  simp

theorem CountAlive_zero_iff (g : Game) :
    CountAlive g = 0 ↔ ∀ y x, g.cells y x = false := by
  rw [CountAlive_eq]
  constructor
  · intro h y x
    have h0 : ((List.finRange 64).map fun y => (List.finRange 64).countP (g.cells y)).sum = 0 := by
      exact_mod_cast h
    rw [List.sum_eq_zero_iff] at h0
    have h1 := h0 ((List.finRange 64).countP (g.cells y))
      (List.mem_map.2 ⟨y, List.mem_finRange y, rfl⟩)
    rw [List.countP_eq_zero] at h1
    have h2 := h1 x (List.mem_finRange x)
    simpa using h2
  · intro h
    have e : (fun y => (List.finRange 64).countP (g.cells y)) = fun _ => 0 := by
      funext y
      rw [List.countP_eq_zero]
      intro x _
      simp [h y x]
    rw [e]
    simp

theorem CountAlive_stepped_of_empty (g : Game) (h : CountAlive g = 0) :
    CountAlive (stepped g) = 0 := by
  rw [CountAlive_zero_iff] at h ⊢
  intro y x
  simp [stepped, next, nbrs, lifeRule, h]

theorem Steps_fixed (n : Nat) (hfix : stepFast n = n) (k : Nat) (g : Game)
    (e : g.cells = bitGrid n) : ∃ g1, Steps k g = some g1 ∧ g1.cells = bitGrid n := by
  induction k generalizing g with
  | zero => exact ⟨g, rfl, e⟩
  | succ k ih =>
    have h := stepped_bits g n e
    rw [hfix] at h
    obtain ⟨g1, h1, h2⟩ := ih (stepped g) h
    refine ⟨g1, ?_, h2⟩
    rw [Steps, Step_stepped, Option.some_bind, h1]

theorem block_table : ∀ y x : Fin 64,
    decide ((((x.val : Nat) : Int), ((y.val : Nat) : Int)) ∈
      ([(1, 1), (1, 2), (2, 1), (2, 2)] : List (Int × Int)))
      = blockBits.testBit (64 * y.val + x.val) := by
  decide!

theorem cells_of_block (g : Game)
    (hg : ∀ x y : Int, IsAlive g x y = true ↔
      (x, y) ∈ ([(1, 1), (1, 2), (2, 1), (2, 2)] : List (Int × Int))) :
    g.cells = bitGrid blockBits := by
  funext y x
  have h := hg x.val y.val
  rw [IsAlive_fin] at h
  show g.cells y x = blockBits.testBit (64 * y.val + x.val)
  rw [← block_table y x]
  cases hc : g.cells y x
  · rw [hc] at h
    simp only [Bool.false_eq_true, false_iff] at h
    exact (decide_eq_false h).symm
  · rw [hc] at h
    exact (decide_eq_true (h.1 rfl)).symm

theorem stepFast_block : stepFast blockBits = blockBits := by decide!

theorem blockGame_cells : blockGame.cells = bitGrid blockBits := by
  have h := setIfInside_fold_bits 0 0 [(1, 1), (1, 2), (2, 1), (2, 2)] (by decide) NewGame 0
    bitGrid_zero.symm
  have e : blockGame.cells
      = (List.foldl (fun g (p : Int × Int) => setIfInside g (0 + p.1) (0 + p.2)) NewGame
          [(1, 1), (1, 2), (2, 1), (2, 2)]).cells := rfl
  rw [e, h]
  show bitGrid _ = bitGrid blockBits
  congr 1

theorem IsAlive_outside (g : Game) (x y : Int) (h : x < 0 ∨ x ≥ 64 ∨ y < 0 ∨ y ≥ 64) :
    IsAlive g x y = false := by
  unfold IsAlive
  rw [dif_pos h]

theorem blockGame_alive (x y : Int) : IsAlive blockGame x y = true ↔
    (x, y) ∈ ([(1, 1), (1, 2), (2, 1), (2, 2)] : List (Int × Int)) := by
  by_cases hr : x < 0 ∨ x ≥ 64 ∨ y < 0 ∨ y ≥ 64
  · rw [IsAlive_outside _ _ _ hr]
    simp only [Bool.false_eq_true, false_iff, List.mem_cons, Prod.mk.injEq,
      List.mem_singleton, List.not_mem_nil, or_false]
    omega
  · have hx : 0 ≤ x ∧ x < 64 := by omega
    have hy : 0 ≤ y ∧ y < 64 := by omega
    rw [← toIdx_val x hx, ← toIdx_val y hy, IsAlive_bits _ _ blockGame_cells,
      ← block_table]
    simp only [decide_eq_true_eq]

theorem Clear_cells (g : Game) (y x : Fin 64) : (Clear g).cells y x = false := by
  rw [Clear_eq]

/-! ### Translations of the torus -/

theorem IsAlive_shift (g : Game) (x y a b : Fin 64) (dx dy : Int)
    (ha : (a.val : Int) = dx % 64) (hb : (b.val : Int) = dy % 64) :
    IsAlive g ((((x.val : Nat) : Int) + dx) % 64) ((((y.val : Nat) : Int) + dy) % 64)
      = g.cells (y + b) (x + a) := by
  have e1 : ((((x.val : Nat) : Int) + dx) % 64) = (((x + a : Fin 64).val : Nat) : Int) := by
    have := x.isLt
    have := a.isLt
    rw [Fin.val_add]
    omega
  have e2 : ((((y.val : Nat) : Int) + dy) % 64) = (((y + b : Fin 64).val : Nat) : Int) := by
    have := y.isLt
    have := b.isLt
    rw [Fin.val_add]
    omega
  rw [e1, e2, IsAlive_fin]

theorem nbrs_shift (c c' : Grid) (a b : Fin 64)
    (h : ∀ y x : Fin 64, c' (y + b) (x + a) = c y x) (y x : Fin 64) :
    nbrs c' (y + b) (x + a) = nbrs c y x := by
  unfold nbrs
  have e1 : y + b - 1 = (y - 1) + b := by ring
  have e2 : y + b + 1 = (y + 1) + b := by ring
  have e3 : x + a - 1 = (x - 1) + a := by ring
  have e4 : x + a + 1 = (x + 1) + a := by ring
  rw [e1, e2, e3, e4]
  simp only [h]

theorem next_shift (c c' : Grid) (a b : Fin 64)
    (h : ∀ y x : Fin 64, c' (y + b) (x + a) = c y x) (y x : Fin 64) :
    next c' (y + b) (x + a) = next c y x := by
  unfold next
  rw [nbrs_shift c c' a b h, h]

theorem shift_exists (d : Int) : ∃ a : Fin 64, (a.val : Int) = d % 64 :=
  ⟨toIdx (d % 64) (by omega), toIdx_val _ _⟩

end gameoflife

namespace base64

/-! ### Base64: decoding inverts encoding -/

theorem decodeChar_encodeChar : ∀ v, v < 64 → decodeChar (encodeChar v) = some v := by
  decide

theorem encodeChar_ne_pad : ∀ v, v < 64 → encodeChar v ≠ '=' := by
  decide

theorem decode_encode (bs : List Nat) (h : ∀ b ∈ bs, b < 256) :
    decode (encode bs) = some bs := by
  induction bs using encode.induct with
  | case1 b0 b1 b2 rest ih =>
    have h0 : b0 < 256 := h b0 (by simp)
    have h1 : b1 < 256 := h b1 (by simp)
    have h2 : b2 < 256 := h b2 (by simp)
    have hr : ∀ b ∈ rest, b < 256 := fun b hb => h b (by simp [hb])
    rw [encode]
    simp only [decode]
    rw [if_neg (fun hc => encodeChar_ne_pad _ (Nat.mod_lt _ (by decide : 64 > 0)) hc.2)]
    simp only [decodeChar_encodeChar _ (Nat.mod_lt _ (by decide : 64 > 0)), Option.some_bind,
      ih hr]
    simp only [Option.some.injEq, List.cons.injEq, and_true]
    refine ⟨?_, ?_, ?_⟩ <;> omega
  | case2 b0 b1 =>
    have h0 : b0 < 256 := h b0 (by simp)
    have h1 : b1 < 256 := h b1 (by simp)
    rw [encode]
    simp only [decode, true_and, if_true]
    rw [if_neg (encodeChar_ne_pad _ (Nat.mod_lt _ (by decide : 64 > 0)))]
    simp only [decodeChar_encodeChar _ (Nat.mod_lt _ (by decide : 64 > 0)), Option.some_bind]
    simp only [Option.some.injEq, List.cons.injEq, and_true]
    refine ⟨?_, ?_⟩ <;> omega
  | case3 b0 =>
    have h0 : b0 < 256 := h b0 (by simp)
    rw [encode]
    simp only [decode, true_and, if_true]
    simp only [decodeChar_encodeChar _ (Nat.mod_lt _ (by decide : 64 > 0)), Option.some_bind]
    simp only [Option.some.injEq, List.cons.injEq, and_true]
    omega
  | case4 => rfl

end base64

namespace pixoo

/-! ### The client: the payload and the branches of `DrawImage` -/

theorem set_three (pre tail : List Nat) (a b c : Nat) :
    (((pre ++ 0 :: 0 :: 0 :: tail).set pre.length a).set (pre.length + 1) b).set
      (pre.length + 2) c = pre ++ a :: b :: c :: tail := by
  induction pre with
  | nil => rfl
  | cons p pre ih => simp [ih]

theorem fill_row (img : Image) (y : Nat) (xs : List Nat) (pre : List Nat) (m : Nat) :
    xs.foldl (fun (s : List Nat × Nat) (x : Nat) =>
      let c := img.At x y
      let p0 := s.1.set s.2 (highByte c.r)
      let p1 := p0.set (s.2 + 1) (highByte c.g)
      let p2 := p1.set (s.2 + 2) (highByte c.b)
      (p2, s.2 + 3)) (pre ++ List.replicate (3 * xs.length + m) 0, pre.length)
    = (pre ++ (xs.flatMap fun x => pixelTriple img y x) ++ List.replicate m 0,
        pre.length + 3 * xs.length) := by
  induction xs generalizing pre with
  | nil => simp
  | cons x xs ih =>
    have e : 3 * (x :: xs).length + m = (3 * xs.length + m) + 3 := by
      simp only [List.length_cons]; omega
    rw [List.foldl_cons, e]
    simp only [List.replicate_succ]
    rw [set_three]
    have ih' := ih (pre ++ pixelTriple img y x)
    simp only [pixelTriple, List.length_append, List.length_cons, List.length_nil,
      List.append_assoc, List.cons_append, List.nil_append, Nat.zero_add] at ih'
    simp only [List.append_assoc, List.cons_append, List.nil_append, List.flatMap_cons,
      pixelTriple, List.length_cons]
    rw [ih']
    congr 1
    omega

theorem pixelRow_length (img : Image) (y : Nat) (xs : List Nat) :
    (xs.flatMap fun x => pixelTriple img y x).length = 3 * xs.length := by
  induction xs with
  | nil => rfl
  | cons x xs ih =>
    rw [List.flatMap_cons, List.length_append, ih]
    simp only [pixelTriple, List.length_cons, List.length_nil]
    omega

theorem fill_rows (img : Image) (ys : List Nat) (pre : List Nat) (m : Nat) :
    ys.foldl (fun (s : List Nat × Nat) (y : Nat) =>
      (List.range 64).foldl (fun (s : List Nat × Nat) (x : Nat) =>
        let c := img.At x y
        let p0 := s.1.set s.2 (highByte c.r)
        let p1 := p0.set (s.2 + 1) (highByte c.g)
        let p2 := p1.set (s.2 + 2) (highByte c.b)
        (p2, s.2 + 3)) s) (pre ++ List.replicate (192 * ys.length + m) 0, pre.length)
    = (pre ++ (ys.flatMap fun y => (List.range 64).flatMap fun x => pixelTriple img y x)
          ++ List.replicate m 0,
        pre.length + 192 * ys.length) := by
  induction ys generalizing pre with
  | nil => simp
  | cons y ys ih =>
    have e : 192 * (y :: ys).length + m = 3 * (List.range 64).length + (192 * ys.length + m) := by
      simp only [List.length_cons, List.length_range]; omega
    rw [List.foldl_cons, e, fill_row]
    have ih' := ih (pre ++ (List.range 64).flatMap fun x => pixelTriple img y x)
    simp only [List.length_append, pixelRow_length, List.length_range] at ih'
    simp only [List.length_range]
    rw [ih']
    simp only [List.flatMap_cons, List.append_assoc, List.length_cons]
    congr 1
    omega

theorem fillPixelBytes_eq (img : Image) : (fillPixelBytes img).1 = rowMajorBytes img := by
  unfold fillPixelBytes rowMajorBytes
  have h := fill_rows img (List.range 64) [] 0
  simp only [List.length_range, List.nil_append, List.length_nil, List.replicate_zero,
    List.append_nil, Nat.add_zero] at h
  have e : 64 * 64 * 3 = 192 * 64 := by decide
  rw [e, h]

theorem getElem?_flatMap_uniform {α β : Type} (l : List α) (f : α → List β) (k : Nat)
    (hk : ∀ a, (f a).length = k) (i j : Nat) (hj : j < k) :
    (l.flatMap f)[k * i + j]? = (l[i]?).bind fun a => (f a)[j]? := by
  induction l generalizing i with
  | nil => simp
  | cons a l ih =>
    rw [List.flatMap_cons]
    cases i with
    | zero =>
      simp only [Nat.mul_zero, Nat.zero_add, List.getElem?_cons_zero, Option.some_bind]
      exact List.getElem?_append_left (by rw [hk]; exact hj)
    | succ i =>
      have e : k * (i + 1) + j = (f a).length + (k * i + j) := by
        rw [hk, Nat.mul_succ]; omega
      rw [e, List.getElem?_append_right (Nat.le_add_right _ _), Nat.add_sub_cancel_left, ih]
      simp

theorem rowMajorBytes_length (img : Image) : (rowMajorBytes img).length = 12288 := by
  have h : ∀ ys : List Nat,
      (ys.flatMap fun y => (List.range 64).flatMap fun x => pixelTriple img y x).length
        = 192 * ys.length := by
    intro ys
    induction ys with
    | nil => rfl
    | cons y ys ih =>
      rw [List.flatMap_cons, List.length_append, ih, pixelRow_length, List.length_range,
        List.length_cons]
      omega
  unfold rowMajorBytes
  rw [h, List.length_range]

theorem rowMajorBytes_get (img : Image) (x y c : Nat) (hx : x < 64) (hy : y < 64) (hc : c < 3) :
    (rowMajorBytes img)[3 * (64 * y + x) + c]? = (pixelTriple img y x)[c]? := by
  have e : 3 * (64 * y + x) + c = 192 * y + (3 * x + c) := by omega
  unfold rowMajorBytes
  rw [e, getElem?_flatMap_uniform _ _ 192
    (fun y => by rw [pixelRow_length, List.length_range]) y (3 * x + c) (by omega)]
  rw [List.getElem?_range hy, Option.some_bind,
    getElem?_flatMap_uniform _ (fun x => pixelTriple img y x) 3 (fun x => rfl) x c hc, List.getElem?_range hx,
    Option.some_bind]

theorem highByte_RGBA (v : Fin 256) : highByte (v.val * 256 + v.val) = v.val := by
  have h := v.isLt
  unfold highByte
  have e : (v.val * 256 + v.val) / 256 = v.val := by
    rw [Nat.mul_comm, Nat.mul_add_div (by decide), Nat.div_eq_of_lt h, Nat.add_zero]
  rw [e, Nat.mod_eq_of_lt h]

theorem highByte_lt (v : Nat) : highByte v < 256 := Nat.mod_lt _ (by decide)

theorem rowMajorBytes_lt (img : Image) : ∀ b ∈ rowMajorBytes img, b < 256 := by
  intro b hb
  simp only [rowMajorBytes, List.mem_flatMap, pixelTriple, List.mem_cons,
    List.mem_singleton, List.not_mem_nil, or_false] at hb
  obtain ⟨y, _, x, _, h⟩ := hb
  rcases h with h | h | h <;> rw [h] <;> exact highByte_lt _

theorem post_sent (c : Command) (net : Net) : (post c net).2.sent = net.sent ++ [c] := by
  unfold post
  split
  · rfl
  · split <;> rfl

theorem DrawImage_ok (img : Image) (net : Net)
    (hb : img.Bounds.Dx = 64 ∧ img.Bounds.Dy = 64) (hr : (post resetCmd net).1 = none) :
    DrawImage img net
      = post (sendGifCommand (base64.EncodeToString (rowMajorBytes img)))
          (post resetCmd net).2 := by
  unfold DrawImage
  simp only []
  rw [if_neg (by simp [hb.1, hb.2])]
  generalize post resetCmd net = r at hr
  obtain ⟨e, n1⟩ := r
  simp only at hr
  subst hr
  simp only [fillPixelBytes_eq]

theorem DrawImage_resetFailed (img : Image) (net : Net)
    (hb : img.Bounds.Dx = 64 ∧ img.Bounds.Dy = 64) (e : Error)
    (hr : (post resetCmd net).1 = some e) :
    DrawImage img net = (some (Error.resetGif e), (post resetCmd net).2) := by
  unfold DrawImage
  simp only []
  rw [if_neg (by simp [hb.1, hb.2])]
  generalize post resetCmd net = r at hr
  obtain ⟨e', n1⟩ := r
  simp only at hr
  subst hr
  rfl

theorem DrawImage_rejected (img : Image) (net : Net)
    (hb : img.Bounds.Dx ≠ 64 ∨ img.Bounds.Dy ≠ 64) :
    DrawImage img net = (some Error.imageSize, net) := by
  unfold DrawImage
  simp only []
  rw [if_pos hb]

theorem toImage_pixelTriple (m : ImageRGBA) (hrect : m.Rect = ⟨⟨0, 0⟩, ⟨64, 64⟩⟩)
    (x y : Nat) (hx : x < 64) (hy : y < 64) :
    pixelTriple m.toImage y x
      = [(m.Pix x y).R.val, (m.Pix x y).G.val, (m.Pix x y).B.val] := by
  have hin : Point.In ⟨(x : Int), (y : Int)⟩ m.Rect = true := by
    rw [hrect]
    simp only [Point.In, decide_eq_true_eq]
    omega
  simp only [pixelTriple, ImageRGBA.toImage, ImageRGBA.At, hin, if_true, Color.RGBA,
    highByte_RGBA]

theorem payload_decodes (img : Image) :
    base64.DecodeString (base64.EncodeToString (rowMajorBytes img))
      = some (rowMajorBytes img) :=
  base64.decode_encode _ (rowMajorBytes_lt img)

theorem paint_fold {α : Type} (c : Color) (R : Rectangle) (P : α → Int → Int → Bool)
    (body : ImageRGBA → α → ImageRGBA)
    (hbody : ∀ (img : ImageRGBA) (a : α), img.Rect = R →
      body img a
        = { img with Pix := fun px py => if P a px py then c else img.Pix px py })
    (l : List α) (img : ImageRGBA) (hr : img.Rect = R) :
    l.foldl body img
      = { img with Pix := fun px py =>
            if l.any (fun a => P a px py) then c else img.Pix px py } := by
  induction l generalizing img with
  | nil => simp
  | cons a l ih =>
    rw [List.foldl_cons, hbody img a hr, ih]
    · congr 1
      funext px py
      simp only [List.any_cons]
      by_cases h : P a px py = true <;> simp [h]
    · exact hr

theorem paint_one (img : ImageRGBA) (b : Bool) (px py : Int) (c : Color) :
    (if b then setInFrame img px py c else img)
      = { img with Pix := fun qx qy =>
            if (b && (decide (qx = px ∧ qy = py) &&
                (decide (qx < 64 ∧ qy < 64 ∧ qx ≥ 0 ∧ qy ≥ 0) && Point.In ⟨qx, qy⟩ img.Rect)))
            then c else img.Pix qx qy } := by
  obtain ⟨pix, rect⟩ := img
  cases b
  · simp
  · simp only [if_true, Bool.true_and, setInFrame, ImageRGBA.Set]
    by_cases h1 : px < 64 ∧ py < 64 ∧ px ≥ 0 ∧ py ≥ 0
    · rw [if_pos h1]
      by_cases h2 : Point.In ⟨px, py⟩ rect = true
      · rw [if_pos h2]
        congr 1
        funext qx qy
        by_cases h3 : qx = px ∧ qy = py
        · obtain ⟨rfl, rfl⟩ := h3
          simp [h1, h2]
        · simp [h3]
      · rw [if_neg h2]
        congr 1
        funext qx qy
        by_cases h3 : qx = px ∧ qy = py
        · obtain ⟨rfl, rfl⟩ := h3
          simp [h2]
        · simp [h3]
    · rw [if_neg h1]
      congr 1
      funext qx qy
      by_cases h3 : qx = px ∧ qy = py
      · obtain ⟨rfl, rfl⟩ := h3
        simp [h1]
      · simp [h3]

theorem drawChar_eq (img : ImageRGBA) (ch : Char) (x y : Int) (c : Color) :
    drawChar img ch x y c
      = { img with Pix := fun px py =>
            if paints (getCharPattern ch) x y img.Rect px py then c else img.Pix px py } := by
  unfold drawChar paints
  simp only []
  generalize getCharPattern ch = patterns
  have inner : ∀ (row : Fin patterns.length) (im : ImageRGBA), im.Rect = img.Rect →
      (List.range 5).foldl (fun (im : ImageRGBA) (col : Nat) =>
          if patterns.get row &&& (1 <<< (4 - col)) ≠ 0 then
            setInFrame im (x + (col : Int)) (y + (row.val : Int)) c
          else im) im
        = { im with Pix := fun px py =>
              if (List.range 5).any (fun col =>
                  decide (patterns.get row &&& (1 <<< (4 - col)) ≠ 0) &&
                    (decide (px = x + (col : Int) ∧ py = y + (row.val : Int)) &&
                      (decide (px < 64 ∧ py < 64 ∧ px ≥ 0 ∧ py ≥ 0) &&
                        Point.In ⟨px, py⟩ img.Rect))) then c
              else im.Pix px py } := by
    intro row im him
    apply paint_fold c img.Rect
      (fun (col : Nat) px py =>
        decide (patterns.get row &&& (1 <<< (4 - col)) ≠ 0) &&
          (decide (px = x + (col : Int) ∧ py = y + (row.val : Int)) &&
            (decide (px < 64 ∧ py < 64 ∧ px ≥ 0 ∧ py ≥ 0) && Point.In ⟨px, py⟩ img.Rect)))
    · intro im2 col h2
      have h := paint_one im2 (decide (patterns.get row &&& (1 <<< (4 - col)) ≠ 0))
        (x + (col : Int)) (y + (row.val : Int)) c
      simp only [decide_eq_true_eq] at h
      rw [h, h2]
    · exact him
  exact paint_fold c img.Rect _ _ (fun im row h => inner row im h) _ img rfl

theorem paints_box (patterns : List Nat) (x y : Int) (rect : Rectangle) (px py : Int)
    (h : paints patterns x y rect px py = true) :
    (0 ≤ px - x ∧ px - x < 5) ∧ (0 ≤ py - y ∧ py - y < patterns.length) ∧
    (0 ≤ px ∧ px < 64 ∧ 0 ≤ py ∧ py < 64) ∧ Point.In ⟨px, py⟩ rect = true := by
  unfold paints at h
  simp only [List.any_eq_true, List.mem_finRange, List.mem_range, true_and,
    Bool.and_eq_true, decide_eq_true_eq] at h
  obtain ⟨row, col, hcol, _, ⟨hx, hy⟩, hf, hin⟩ := h
  have hrow := row.isLt
  refine ⟨?_, ?_, ?_, hin⟩ <;> omega

theorem paints_zero (patterns : List Nat) (hz : ∀ r ∈ patterns, r = 0) (x y : Int)
    (rect : Rectangle) (px py : Int) : paints patterns x y rect px py = false := by
  unfold paints
  rw [List.any_eq_false]
  intro row _
  rw [Bool.not_eq_true, List.any_eq_false]
  intro col _
  have h0 : patterns.get row = 0 := hz _ (List.get_mem _ _ _)
  rw [h0, Nat.zero_and]
  simp

theorem ite_prop {α : Type} (P : α → Prop) (c : Prop) [Decidable c] (a b : α)
    (ha : P a) (hb : P b) : P (if c then a else b) := by
  split
  · exact ha
  · exact hb

theorem getCharPattern_length (ch : Char) : (getCharPattern ch).length = 7 := by
  unfold getCharPattern
  repeat (refine ite_prop (fun l => List.length l = 7) _ _ _ rfl ?_)
  rfl

theorem getCharPattern_lt (ch : Char) : ∀ r ∈ getCharPattern ch, r < 32 := by
  unfold getCharPattern
  repeat (refine ite_prop (fun l => ∀ r ∈ l, r < 32) _ _ _ (by decide) ?_)
  decide

theorem getCharPattern_unknown (ch : Char) (h : ch ∉ glyphChars) :
    getCharPattern ch = [0, 0, 0, 0, 0, 0, 0] := by
  simp only [glyphChars, List.mem_cons, List.mem_singleton, List.not_mem_nil, or_false,
    not_or] at h
  obtain ⟨h0, h1, h2, h3, h4, h5, h6, h7, h8, h9, ha, hb, hc, hd, he, hf, hg, hh, hi⟩ := h
  unfold getCharPattern
  simp only [h0, h1, h2, h3, h4, h5, h6, h7, h8, h9, ha, hb, hc, hd, he, hf, hg, hh, hi,
    if_false]
  split <;> rfl

theorem drawChar_unknown (img : ImageRGBA) (ch : Char) (h : ch ∉ glyphChars)
    (x y : Int) (c : Color) : drawChar img ch x y c = img := by
  rw [drawChar_eq]
  have hz : ∀ r ∈ getCharPattern ch, r = 0 := by
    rw [getCharPattern_unknown ch h]
    decide
  simp only [paints_zero _ hz]
  rfl

theorem drawText_fold_unknown (l : List Char) (h : ∀ ch ∈ l, ch ∉ glyphChars)
    (x y : Int) (c : Color) (img : ImageRGBA) (i : Nat) :
    (l.foldl (fun (s : ImageRGBA × Nat) ch =>
      (drawChar s.1 ch (x + (s.2 : Int) * 6) y c, s.2 + ch.utf8Size)) (img, i)).1 = img := by
  induction l generalizing i with
  | nil => rfl
  | cons a l ih =>
    rw [List.foldl_cons]
    simp only []
    rw [drawChar_unknown img a (h a (List.mem_cons_self _ _))]
    exact ih (fun ch hch => h ch (List.mem_cons_of_mem _ hch)) _

theorem glyphs_not_blank : ∀ ch ∈ glyphChars, ∃ r ∈ getCharPattern ch, r ≠ 0 := by
  decide

theorem drawText_fold_ascii (l : List Char) (h : ∀ ch ∈ l, ch.utf8Size = 1)
    (x y : Int) (c : Color) (img : ImageRGBA) (k : Nat) :
    (l.foldl (fun (s : ImageRGBA × Nat) ch =>
      (drawChar s.1 ch (x + (s.2 : Int) * 6) y c, s.2 + ch.utf8Size)) (img, k)).1
      = drawTextPerChar img l x y c k := by
  induction l generalizing img k with
  | nil => rfl
  | cons a l ih =>
    rw [List.foldl_cons]
    simp only []
    rw [h a (List.mem_cons_self _ _), ih (fun ch hch => h ch (List.mem_cons_of_mem _ hch)),
      drawTextPerChar, Int.mul_comm]

theorem DrawTextOnImage_ascii (img : ImageRGBA) (text : String)
    (h : ∀ ch ∈ text.data, ch.utf8Size = 1) (x y : Int) (c : Color) :
    DrawTextOnImage img text x y c = drawTextPerChar img text.data x y c 0 :=
  drawText_fold_ascii text.data h x y c img 0

/-! ### The client that posts through curl; the glyph bits; absolute points -/

theorem curl_run_sent (c : Command) (net : Net) :
    (CurlClient.run c net).2.sent = net.sent ++ [c] := by
  unfold CurlClient.run
  split <;> rfl

theorem curl_fillPixels_length (img : Image) :
    (CurlClient.fillPixels img).length = 4096 := by
  unfold CurlClient.fillPixels
  have inner : ∀ (y : Nat) (l : List Nat) (s : List Int), s.length = 4096 →
      (l.foldl (fun (s : List Int) (x : Nat) =>
        s.set (y * 64 + x) (CurlClient.packPixel (img.At x y))) s).length = 4096 := by
    intro y l
    induction l with
    | nil => intro s hs; exact hs
    | cons x l ih =>
      intro s hs
      rw [List.foldl_cons]
      exact ih _ (by rw [List.length_set]; exact hs)
  have outer : ∀ (l : List Nat) (s : List Int), s.length = 4096 →
      (l.foldl (fun (s : List Int) (y : Nat) =>
        (List.range 64).foldl (fun (s : List Int) (x : Nat) =>
          s.set (y * 64 + x) (CurlClient.packPixel (img.At x y))) s) s).length = 4096 := by
    intro l
    induction l with
    | nil => intro s hs; exact hs
    | cons y l ih =>
      intro s hs
      rw [List.foldl_cons]
      exact ih _ (inner y _ s hs)
  exact outer _ _ (by rw [List.length_replicate])

theorem curl_SetBrightness_sent (brightness : Int) (net : Net) :
    (CurlClient.SetBrightness brightness net).2.sent = (SetBrightness brightness net).2.sent := by
  unfold CurlClient.SetBrightness SetBrightness
  split
  · rfl
  · rw [post_sent, CurlClient.post, curl_run_sent]

theorem curl_SetBrightness_rejects (brightness : Int) (net : Net) :
    (CurlClient.SetBrightness brightness net).1 = some Error.brightness
      ↔ (SetBrightness brightness net).1 = some Error.brightness := by
  unfold CurlClient.SetBrightness SetBrightness
  split
  · simp
  · unfold CurlClient.post CurlClient.run post
    constructor
    · intro h
      split at h <;> cases h
    · intro h
      split at h
      · cases h
      · split at h <;> cases h

theorem curl_ClearScreen_sent (net : Net) :
    (CurlClient.ClearScreen net).2.sent = (ClearScreen net).2.sent := by
  unfold CurlClient.ClearScreen ClearScreen
  rw [post_sent, CurlClient.post, curl_run_sent]

theorem curl_DrawImage_rejects (img : Image) (net : Net) :
    (CurlClient.DrawImage img net).1 = some Error.imageSize
      ↔ (img.Bounds.Dx ≠ 64 ∨ img.Bounds.Dy ≠ 64) := by
  unfold CurlClient.DrawImage
  simp only []
  split
  · simp [*]
  · rename_i hb
    unfold CurlClient.run
    constructor
    · intro h
      split at h <;> cases h
    · intro h
      exact absurd h hb

theorem curl_DrawImage_ok (img : Image) (net : Net)
    (hb : img.Bounds.Dx = 64 ∧ img.Bounds.Dy = 64) :
    CurlClient.DrawImage img net
      = CurlClient.run (CurlClient.sendGifCommand (CurlClient.fillPixels img)) net := by
  unfold CurlClient.DrawImage
  simp only []
  rw [if_neg (by simp [hb.1, hb.2])]

theorem and_shift_testBit (r k : Nat) : (r &&& (1 <<< k) ≠ 0) ↔ r.testBit k = true := by
  rw [Nat.one_shiftLeft, Nat.and_two_pow]
  cases r.testBit k <;> simp

theorem paints_iff (patterns : List Nat) (x y : Int) (rect : Rectangle) (px py : Int) :
    paints patterns x y rect px py = true ↔
      Point.In ⟨px, py⟩ rect = true ∧ (0 ≤ px ∧ px < 64 ∧ 0 ≤ py ∧ py < 64) ∧
      (0 ≤ px - x ∧ px - x < 5) ∧ (0 ≤ py - y ∧ py - y < patterns.length) ∧
      (patterns.getD (py - y).toNat 0).testBit (4 - (px - x).toNat) = true := by
  constructor
  · intro h
    have hb := paints_box patterns x y rect px py h
    unfold paints at h
    simp only [List.any_eq_true, List.mem_finRange, List.mem_range, true_and,
      Bool.and_eq_true, decide_eq_true_eq] at h
    obtain ⟨row, col, hcol, hbit, ⟨hx, hy⟩, hf, hin⟩ := h
    refine ⟨hb.2.2.2, hb.2.2.1, hb.1, hb.2.1, ?_⟩
    have e1 : (py - y).toNat = row.val := by omega
    have e2 : (px - x).toNat = col := by omega
    rw [e1, e2, List.getD_eq_getElem _ _ row.isLt]
    exact (and_shift_testBit _ _).1 hbit
  · rintro ⟨hin, hf, hx, hy, hbit⟩
    unfold paints
    simp only [List.any_eq_true, List.mem_finRange, List.mem_range, true_and,
      Bool.and_eq_true, decide_eq_true_eq]
    have hr : (py - y).toNat < patterns.length := by omega
    refine ⟨⟨(py - y).toNat, hr⟩, (px - x).toNat, by omega, ?_, ⟨by omega, by simp only []; omega⟩,
      by omega, hin⟩
    rw [List.getD_eq_getElem _ _ hr] at hbit
    exact (and_shift_testBit _ _).2 hbit

theorem drawChar_At (img : ImageRGBA) (ch : Char) (x y : Int) (c : Color) (px py : Int) :
    (drawChar img ch x y c).At px py
      = if paints (getCharPattern ch) x y img.Rect px py then c else img.At px py := by
  rw [drawChar_eq]
  unfold ImageRGBA.At
  simp only []
  by_cases hp : paints (getCharPattern ch) x y img.Rect px py = true
  · have hin := (paints_box _ _ _ _ _ _ hp).2.2.2
    simp only [hp, hin, if_true]
  · simp only [hp, if_false]
    rfl

theorem DrawImage_payload_absolute (img : Image) (net : Net)
    (hb : img.Bounds.Dx = 64 ∧ img.Bounds.Dy = 64) (hr : (post resetCmd net).1 = none) :
    ∃ (data : String) (bytes : List Nat),
      (DrawImage img net).2.sent = net.sent ++ [resetCmd, sendGifCommand data] ∧
      base64.DecodeString data = some bytes ∧
      ∀ i j : Nat, i < 64 → j < 64 →
        bytes[3 * (64 * j + i)]? = some (highByte (img.At i j).r) ∧
        bytes[3 * (64 * j + i) + 1]? = some (highByte (img.At i j).g) ∧
        bytes[3 * (64 * j + i) + 2]? = some (highByte (img.At i j).b) := by
  refine ⟨base64.EncodeToString (rowMajorBytes img), rowMajorBytes img, ?_,
    payload_decodes _, ?_⟩
  · rw [DrawImage_ok _ _ hb hr, post_sent, post_sent]
    simp
  · intro i j hi hj
    exact ⟨rowMajorBytes_get img i j 0 hi hj (by decide),
      rowMajorBytes_get img i j 1 hi hj (by decide),
      rowMajorBytes_get img i j 2 hi hj (by decide)⟩

end pixoo

namespace main

open gameoflife pixoo

/-! ### The driver: the branches of a tick, concrete boards -/

theorem zero_row_fold (i : Fin 64) (l : List (Fin 64)) (a : Ages) :
    l.foldl (fun (a : Ages) j => a.set i j 0) a
      = fun y x => if y = i ∧ x ∈ l then 0 else a y x := by
  induction l generalizing a with
  | nil => simp
  | cons b l ih =>
    rw [List.foldl_cons, ih]
    funext y x
    simp only [Ages.set, List.mem_cons]
    by_cases h1 : y = i <;> by_cases h2 : x ∈ l <;> by_cases h3 : x = b <;> simp [h1, h2, h3]

theorem zero_rows_fold (l : List (Fin 64)) (a : Ages) :
    l.foldl (fun (a : Ages) i =>
        (fun y x => if y = i ∧ x ∈ List.finRange 64 then 0 else a y x : Ages)) a
      = fun y x => if y ∈ l then 0 else a y x := by
  induction l generalizing a with
  | nil => simp
  | cons b l ih =>
    rw [List.foldl_cons, ih]
    funext y x
    simp only [List.mem_cons, List.mem_finRange, and_true]
    by_cases h1 : y = b <;> by_cases h2 : y ∈ l <;> simp [h1, h2]

theorem zeroAges_eq (a : Ages) : zeroAges a = fun _ _ => 0 := by
  unfold zeroAges
  have inner : ∀ (a : Ages) (i : Fin 64),
      (List.finRange Size).foldl (fun (a : Ages) j => a.set i j 0) a
        = fun y x => if y = i ∧ x ∈ List.finRange 64 then 0 else a y x :=
    fun a i => zero_row_fold i _ a
  simp only [inner, zero_rows_fold]
  simp

theorem tick_reseed (pattern colorMode : String) (d : Driver)
    (h : CountAlive (stepped d.game) < 10 ∨ CountAlive (stepped d.game) > 3500) :
    tick pattern colorMode d = some
      { game := (LoadPattern (stepped d.game) pattern d.rand).1,
        cellAges := zeroAges (updateAges d.game d.cellAges),
        generation := 0,
        rand := (LoadPattern (stepped d.game) pattern d.rand).2,
        net := (DrawImage (renderFrame d.game (updateAges d.game d.cellAges)
                  colorMode).toImage d.net).2 } := by
  unfold tick
  simp only [Step_stepped, Option.some_bind]
  by_cases h1 : CountAlive (stepped d.game) < 10
  · rw [if_pos h1]
  · have h2 : CountAlive (stepped d.game) > 3500 := by omega
    rw [if_neg h1, if_pos h2]

theorem tick_keep (pattern colorMode : String) (d : Driver)
    (h : 10 ≤ CountAlive (stepped d.game) ∧ CountAlive (stepped d.game) ≤ 3500) :
    tick pattern colorMode d = some
      { game := stepped d.game,
        cellAges := updateAges d.game d.cellAges,
        generation := d.generation + 1,
        rand := d.rand,
        net := (DrawImage (renderFrame d.game (updateAges d.game d.cellAges)
                  colorMode).toImage d.net).2 } := by
  unfold tick
  simp only [Step_stepped, Option.some_bind]
  rw [if_neg (by omega), if_neg (by omega)]

theorem crowded_cells : crowdedGame.cells = bitGrid crowdedBits := by
  funext y x
  revert y x
  decide!

theorem striped_cells : stripedGame.cells = bitGrid stripedBits := by
  funext y x
  revert y x
  decide!

theorem CountAlive_crowded : CountAlive crowdedGame = 3520 := by
  have e : CountAlive ⟨bitGrid crowdedBits, bitGrid 0, 0⟩ = 3520 := by decide!
  rw [← e]
  exact CountAlive_congr _ _ crowded_cells

theorem CountAlive_stepped_crowded : CountAlive (stepped crowdedGame) = 88 := by
  have e : CountAlive ⟨bitGrid (stepFast crowdedBits), bitGrid 0, 0⟩ = 88 := by decide!
  rw [← e]
  exact CountAlive_congr _ _ (stepped_bits _ _ crowded_cells)

theorem CountAlive_stepped_striped : CountAlive (stepped stripedGame) = 3968 := by
  have e : CountAlive ⟨bitGrid (stepFast stripedBits), bitGrid 0, 0⟩ = 3968 := by decide!
  rw [← e]
  exact CountAlive_congr _ _ (stepped_bits _ _ striped_cells)

theorem CountAlive_new : CountAlive NewGame = 0 :=
  (CountAlive_zero_iff _).2 (fun _ _ => rfl)

theorem LoadPattern_gliders_alive (g : Game) (r : Rand) :
    IsAlive (LoadPattern g "gliders" r).1 6 5 = true := by
  have hs : (LoadPattern g "gliders" r).1.cells
      = (Glider (Glider (Glider (Glider (Clear g) 5 5) 15 20) 30 10) 45 35).cells := by
    unfold LoadPattern
    simp only [if_true]
  rw [IsAlive_congr _ _ hs]
  rfl

theorem stepped_crowded_dead : IsAlive (stepped crowdedGame) 6 5 = false := by
  have h := IsAlive_bits _ _ (stepped_bits _ _ crowded_cells) 6 5
  rw [show ((6 : Fin 64).val : Int) = 6 from rfl,
    show ((5 : Fin 64).val : Int) = 5 from rfl] at h
  rw [h]
  decide!

theorem hueToRGB_table : ∀ k : Fin 64,
    hueToRGB (((k.val : Nat) : Int) / 64 : ℚ) = hueColor (((k.val : Nat) : Int) / 64 : ℚ) := by
  decide!

theorem wrapInt_eq (i : Int) (h : -(2 ^ 63) ≤ i ∧ i < 2 ^ 63) : wrapInt i = i := by
  unfold wrapInt
  omega

theorem getCellColor_rainbow_unfold (age x y : Int) :
    getCellColor age "rainbow" x y
      = hueToRGB ((((wrapInt (x + y)).tmod 64 : Int) : ℚ) / 64) := by
  unfold getCellColor
  simp only [String.reduceEq, if_false, if_true]

theorem getCellColor_rainbow (age x y : Int) (h : 0 ≤ x + y ∧ x + y < 2 ^ 63) :
    getCellColor age "rainbow" x y = hueColor ((((x + y) % 64 : Int) : ℚ) / 64) := by
  have e : getCellColor age "rainbow" x y
      = hueToRGB ((((x + y).tmod 64 : Int) : ℚ) / 64) := by
    rw [getCellColor_rainbow_unfold, wrapInt_eq _ ⟨by omega, h.2⟩]
  rw [e, Int.tmod_eq_emod h.1 (by decide)]
  have hk : ((x + y) % 64).toNat < 64 := by omega
  have hv : (x + y) % 64 = (((⟨((x + y) % 64).toNat, hk⟩ : Fin 64).val : Nat) : Int) := by
    simp only []
    omega
  rw [hv]
  exact hueToRGB_table _

theorem hueColor_zero : hueColor (((0 : Int) : ℚ) / 64) = ⟨255, 0, 0, 255⟩ := by
  decide!

theorem ages_row_fold (game : Game) (y : Fin 64) (l : List (Fin 64)) (hl : l.Nodup)
    (a : Ages) :
    l.foldl (fun (a : Ages) x =>
        if IsAlive game x.val y.val then a.set y x (a y x + 1) else a.set y x 0) a
      = fun y' x' => if y' = y ∧ x' ∈ l then
          (if IsAlive game x'.val y'.val then a y' x' + 1 else 0) else a y' x' := by
  induction l generalizing a with
  | nil => simp
  | cons b l ih =>
    have hb : b ∉ l := (List.nodup_cons.1 hl).1
    rw [List.foldl_cons, ih (List.nodup_cons.1 hl).2]
    funext y' x'
    simp only [List.mem_cons]
    by_cases h1 : y' = y
    · subst h1
      by_cases h2 : x' ∈ l
      · have h3 : x' ≠ b := fun h => hb (h ▸ h2)
        cases hc : IsAlive game b.val y'.val <;> simp [Ages.set, h2, h3]
      · by_cases h3 : x' = b
        · subst h3
          cases hc : IsAlive game x'.val y'.val <;> simp [Ages.set, h2, hc]
        · cases hc : IsAlive game b.val y'.val <;> simp [Ages.set, h2, h3]
    · cases hc : IsAlive game b.val y.val <;> simp [Ages.set, h1]

theorem ages_rows_fold (game : Game) (l : List (Fin 64)) (hl : l.Nodup) (a : Ages) :
    l.foldl (fun (a : Ages) y => (fun y' x' => if y' = y ∧ x' ∈ List.finRange 64 then
          (if IsAlive game x'.val y'.val then a y' x' + 1 else 0) else a y' x' : Ages)) a
      = fun y' x' => if y' ∈ l then
          (if IsAlive game x'.val y'.val then a y' x' + 1 else 0) else a y' x' := by
  induction l generalizing a with
  | nil => simp
  | cons b l ih =>
    have hb : b ∉ l := (List.nodup_cons.1 hl).1
    rw [List.foldl_cons, ih (List.nodup_cons.1 hl).2]
    funext y' x'
    simp only [List.mem_cons, List.mem_finRange, and_true]
    by_cases h2 : y' ∈ l
    · have h3 : y' ≠ b := fun h => hb (h ▸ h2)
      simp [h2, h3]
    · by_cases h3 : y' = b
      · subst h3
        simp [h2]
      · simp [h2, h3]

theorem updateAges_eq (game : Game) (a : Ages) :
    updateAges game a
      = fun y x => if IsAlive game x.val y.val then a y x + 1 else 0 := by
  unfold updateAges
  have inner : ∀ (a : Ages) (y : Fin 64),
      (List.finRange Size).foldl (fun (a : Ages) x =>
        if IsAlive game x.val y.val then a.set y x (a y x + 1) else a.set y x 0) a
        = fun y' x' => if y' = y ∧ x' ∈ List.finRange 64 then
          (if IsAlive game x'.val y'.val then a y' x' + 1 else 0) else a y' x' :=
    fun a y => ages_row_fold game y _ (List.nodup_finRange 64) a
  simp only [inner]
  rw [ages_rows_fold game _ (List.nodup_finRange 64)]
  simp

theorem Set_inside (img : ImageRGBA) (x y : Int) (c : Color)
    (hr : img.Rect = ⟨⟨0, 0⟩, ⟨64, 64⟩⟩) (hx : 0 ≤ x ∧ x < 64) (hy : 0 ≤ y ∧ y < 64) :
    img.Set x y c
      = { img with Pix := fun x' y' => if x' = x ∧ y' = y then c else img.Pix x' y' } := by
  unfold ImageRGBA.Set
  have hin : Point.In ⟨x, y⟩ img.Rect = true := by
    rw [hr]
    simp only [Point.In, decide_eq_true_eq]
    omega
  rw [if_pos hin]

theorem frame_row_fold (F : Int → Int → Color) (y : Fin 64) (l : List (Fin 64))
    (img : ImageRGBA) (hr : img.Rect = ⟨⟨0, 0⟩, ⟨64, 64⟩⟩) :
    l.foldl (fun (img : ImageRGBA) x => img.Set x.val y.val (F x.val y.val)) img
      = { img with Pix := fun x' y' =>
            if y' = (y.val : Int) ∧ x' ∈ l.map (fun x => ((x.val : Nat) : Int)) then F x' y'
            else img.Pix x' y' } := by
  induction l generalizing img with
  | nil => simp
  | cons b l ih =>
    have hb := b.isLt
    have hy := y.isLt
    rw [List.foldl_cons, Set_inside img _ _ _ hr (by omega) (by omega), ih]
    · congr 1
      funext x' y'
      simp only [List.map_cons, List.mem_cons]
      by_cases h1 : y' = (y.val : Int)
      · by_cases h2 : x' ∈ l.map (fun x => ((x.val : Nat) : Int))
        · simp [h1, h2]
        · by_cases h3 : x' = (b.val : Int)
          · simp [h1, h2, h3]
          · simp [h1, h2, h3]
      · simp [h1]
    · exact hr

theorem frame_rows_fold (F : Int → Int → Color) (l : List (Fin 64))
    (img : ImageRGBA) (hr : img.Rect = ⟨⟨0, 0⟩, ⟨64, 64⟩⟩) :
    l.foldl (fun (img : ImageRGBA) y =>
        (List.finRange Size).foldl (fun (img : ImageRGBA) x =>
          img.Set x.val y.val (F x.val y.val)) img) img
      = { img with Pix := fun x' y' =>
            if y' ∈ l.map (fun y => ((y.val : Nat) : Int)) ∧
                x' ∈ (List.finRange 64).map (fun x => ((x.val : Nat) : Int)) then F x' y'
            else img.Pix x' y' } := by
  induction l generalizing img with
  | nil => simp
  | cons b l ih =>
    rw [List.foldl_cons, frame_row_fold F b _ img hr, ih]
    · congr 1
      funext x' y'
      simp only [List.map_cons, List.mem_cons]
      by_cases h1 : y' = (b.val : Int)
      · by_cases h2 : x' ∈ (List.finRange 64).map (fun x => ((x.val : Nat) : Int))
        · simp [h1, h2]
        · simp [h1, h2]
      · simp [h1]
    · exact hr

theorem mem_map_finRange (x : Int) :
    x ∈ (List.finRange 64).map (fun i => ((i.val : Nat) : Int)) ↔ 0 ≤ x ∧ x < 64 := by
  simp only [List.mem_map, List.mem_finRange, true_and]
  constructor
  · rintro ⟨i, rfl⟩
    have := i.isLt
    omega
  · intro h
    exact ⟨toIdx x h, toIdx_val x h⟩

theorem toIdx_cast (i : Fin 64) (h : 0 ≤ ((i.val : Nat) : Int) ∧ ((i.val : Nat) : Int) < 64) :
    toIdx (i.val : Int) h = i := by
  apply Fin.ext
  simp [toIdx]

theorem framePixel_fin (game : Game) (a : Ages) (mode : String) (x y : Fin 64) :
    framePixel game a mode x.val y.val
      = if IsAlive game x.val y.val then getCellColor (a y x) mode x.val y.val
        else ⟨0, 0, 0, 255⟩ := by
  have hx := x.isLt
  have hy := y.isLt
  unfold framePixel
  rw [dif_pos ⟨by omega, by omega⟩]
  simp only [toIdx_cast]

theorem renderFrame_eq (game : Game) (a : Ages) (mode : String) :
    renderFrame game a mode
      = { Pix := framePixel game a mode, Rect := ⟨⟨0, 0⟩, ⟨64, 64⟩⟩ } := by
  unfold renderFrame
  have body : ∀ (img : ImageRGBA) (y x : Fin 64),
      (if IsAlive game x.val y.val then
          img.Set x.val y.val (getCellColor (a y x) mode x.val y.val)
        else img.Set x.val y.val ⟨0, 0, 0, 255⟩)
      = img.Set x.val y.val (framePixel game a mode x.val y.val) := by
    intro img y x
    rw [framePixel_fin]
    split <;> rfl
  simp only [body]
  rw [frame_rows_fold (framePixel game a mode) _ CreateImage rfl]
  simp only [CreateImage]
  congr 1
  funext x' y'
  simp only [mem_map_finRange]
  by_cases h : (0 ≤ y' ∧ y' < 64) ∧ (0 ≤ x' ∧ x' < 64)
  · rw [if_pos h]
  · rw [if_neg h]
    unfold framePixel
    rw [dif_neg (by tauto)]

theorem tick_total (pattern colorMode : String) (d : Driver) :
    ∃ d1, tick pattern colorMode d = some d1 ∧
      d1.net = (DrawImage (renderFrame d.game (updateAges d.game d.cellAges)
                  colorMode).toImage d.net).2 ∧
      (d1.cellAges = zeroAges (updateAges d.game d.cellAges) ∨
        d1.cellAges = updateAges d.game d.cellAges) := by
  by_cases h : CountAlive (stepped d.game) < 10 ∨ CountAlive (stepped d.game) > 3500
  · exact ⟨_, tick_reseed pattern colorMode d h, rfl, Or.inl rfl⟩
  · exact ⟨_, tick_keep pattern colorMode d (by omega), rfl, Or.inr rfl⟩

theorem getCellColor_alpha (age : Int) (mode : String) (x y : Int) :
    (getCellColor age mode x y).A = 255 := by
  unfold getCellColor hueToRGB
  repeat' split
  all_goals rfl

theorem updateAges_nonneg (game : Game) (a : Ages) (h : ∀ y x, 0 ≤ a y x) (y x : Fin 64) :
    0 ≤ updateAges game a y x := by
  rw [updateAges_eq]
  have := h y x
  simp only []
  split <;> omega

theorem updateAges_zero_iff (game : Game) (a : Ages) (h : ∀ y x, 0 ≤ a y x) (y x : Fin 64) :
    updateAges game a y x = 0 ↔ IsAlive game x.val y.val = false := by
  rw [updateAges_eq]
  have := h y x
  simp only []
  cases hc : IsAlive game x.val y.val
  · simp
  · simp only [if_true, Bool.true_eq_false, iff_false]
    omega

theorem tick_ages_nonneg (pattern colorMode : String) (d d1 : Driver)
    (h : ∀ y x, 0 ≤ d.cellAges y x) (ht : tick pattern colorMode d = some d1) :
    ∀ y x, 0 ≤ d1.cellAges y x := by
  obtain ⟨d2, h2, _, ha⟩ := tick_total pattern colorMode d
  rw [ht] at h2
  have e : d1 = d2 := Option.some.inj h2
  subst e
  intro y x
  rcases ha with ha | ha
  · rw [ha, zeroAges_eq]
  · rw [ha]
    exact updateAges_nonneg d.game d.cellAges h y x

theorem ticks_ages_nonneg (pattern colorMode : String) (n : Nat) (d : Driver)
    (h : ∀ y x, 0 ≤ d.cellAges y x) :
    ∃ dn, ticks pattern colorMode n d = some dn ∧ ∀ y x, 0 ≤ dn.cellAges y x := by
  induction n generalizing d with
  | zero => exact ⟨d, rfl, h⟩
  | succ n ih =>
    obtain ⟨d1, h1, _, _⟩ := tick_total pattern colorMode d
    obtain ⟨dn, h2, h3⟩ := ih d1 (tick_ages_nonneg pattern colorMode d d1 h h1)
    refine ⟨dn, ?_, h3⟩
    rw [ticks, h1, Option.some_bind, h2]

/-! ### No colour of an alive cell is black -/

theorem hueToRGB_extremes : ∀ k : Fin 64,
    let c := hueToRGB (((k.val : Nat) : Int) / 64 : ℚ)
    max c.R.val (max c.G.val c.B.val) = 255 ∧ min c.R.val (min c.G.val c.B.val) = 0 := by
  decide!

theorem getCellColor_rainbow_extremes (age x y : Int) (h : 0 ≤ x + y ∧ x + y < 2 ^ 63) :
    max (getCellColor age "rainbow" x y).R.val
        (max (getCellColor age "rainbow" x y).G.val (getCellColor age "rainbow" x y).B.val) = 255
    ∧ min (getCellColor age "rainbow" x y).R.val
        (min (getCellColor age "rainbow" x y).G.val (getCellColor age "rainbow" x y).B.val) = 0 := by
  have e : getCellColor age "rainbow" x y
      = hueToRGB ((((x + y).tmod 64 : Int) : ℚ) / 64) := by
    rw [getCellColor_rainbow_unfold, wrapInt_eq _ ⟨by omega, h.2⟩]
  rw [e, Int.tmod_eq_emod h.1 (by decide)]
  have hk : ((x + y) % 64).toNat < 64 := by omega
  have hv : (x + y) % 64 = (((⟨((x + y) % 64).toNat, hk⟩ : Fin 64).val : Nat) : Int) := by
    simp only []
    omega
  rw [hv]
  exact hueToRGB_extremes _

theorem getCellColor_not_black (age : Int) (mode : String) (x y : Int)
    (h : 0 ≤ x + y ∧ x + y < 2 ^ 63) :
    ¬ ((getCellColor age mode x y).R = 0 ∧ (getCellColor age mode x y).G = 0 ∧
        (getCellColor age mode x y).B = 0) := by
  by_cases hm : mode = "rainbow"
  · subst hm
    have := (getCellColor_rainbow_extremes age x y h).1
    rintro ⟨h1, h2, h3⟩
    rw [h1, h2, h3] at this
    exact absurd this (by decide)
  · unfold getCellColor
    rw [if_neg hm]
    repeat' split
    all_goals (intro hh; exact absurd hh (by decide))

theorem renderFrame_At (game : Game) (a : Ages) (mode : String) (x y : Int)
    (hx : 0 ≤ x ∧ x < 64) (hy : 0 ≤ y ∧ y < 64) :
    (renderFrame game a mode).At x y
      = if IsAlive game x y then getCellColor (a (toIdx y hy) (toIdx x hx)) mode x y
        else ⟨0, 0, 0, 255⟩ := by
  rw [renderFrame_eq]
  unfold ImageRGBA.At
  have hin : Point.In ⟨x, y⟩ ⟨⟨0, 0⟩, ⟨64, 64⟩⟩ = true := by
    simp only [Point.In, decide_eq_true_eq]
    omega
  simp only [hin, if_true]
  unfold framePixel
  rw [dif_pos ⟨hx, hy⟩]

end main

/-! ## The claims -/

section Claims

open gameoflife pixoo main

/-- C1: for every game state and every cell `(x, y)` of the board, `Step` returns a
state in which the cell is alive exactly when, before the step, it was alive with 2
or 3 live toroidal neighbours or dead with exactly 3, the neighbours being counted
on the board before the step; and the generation is one higher. -/
theorem step_applies_life_rule (g : Game) (x y : Int)
    (hx : 0 ≤ x ∧ x < 64) (hy : 0 ≤ y ∧ y < 64) :
    ∃ g1, Step g = some g1 ∧
      (IsAlive g1 x y = true ↔
        (IsAlive g x y = true ∧ (liveNeighbours g x y = 2 ∨ liveNeighbours g x y = 3)) ∨
        (IsAlive g x y = false ∧ liveNeighbours g x y = 3)) ∧
      Generation g1 = Generation g + 1 := by
  refine ⟨stepped g, Step_stepped g, ?_, rfl⟩
  rw [← toIdx_val x hx, ← toIdx_val y hy]
  simp only [IsAlive_fin, liveNeighbours_fin, stepped, next, lifeRule]
  cases g.cells (toIdx y hy) (toIdx x hx) <;> simp

/-- Witness of C1 at the cell `(3, 4)` of the board holding one glider. -/
theorem step_applies_life_rule_witness :
    ∃ g1, Step (Glider NewGame 1 1) = some g1 ∧
      (IsAlive g1 3 4 = true ↔
        (IsAlive (Glider NewGame 1 1) 3 4 = true ∧
          (liveNeighbours (Glider NewGame 1 1) 3 4 = 2 ∨
            liveNeighbours (Glider NewGame 1 1) 3 4 = 3)) ∨
        (IsAlive (Glider NewGame 1 1) 3 4 = false ∧
          liveNeighbours (Glider NewGame 1 1) 3 4 = 3)) ∧
      Generation g1 = Generation (Glider NewGame 1 1) + 1 :=
  step_applies_life_rule (Glider NewGame 1 1) 3 4 (by decide) (by decide)

/-- C2: for every board and every cell `(x, y)` of it, `CountNeighbors(x, y)` returns
the number of the eight offsets `(dx, dy)` of `{-1, 0, 1}²` other than `(0, 0)` whose
cell `((x + dx) mod 64, (y + dy) mod 64)` is alive, a number between 0 and 8; on a
board whose only live cell is `(0, 0)` it returns 1 at `(63, 63)`, `(63, 0)` and
`(0, 63)`. -/
theorem countNeighbors_counts_torus (g : Game) (x y : Int)
    (hx : 0 ≤ x ∧ x < 64) (hy : 0 ≤ y ∧ y < 64) :
    (∃ n : Int, CountNeighbors g x y = some n ∧ n = liveNeighbours g x y ∧ 0 ≤ n ∧ n ≤ 8) ∧
    ((∀ a b : Int, IsAlive g a b = true ↔ (a = 0 ∧ b = 0)) →
      CountNeighbors g 63 63 = some 1 ∧ CountNeighbors g 63 0 = some 1 ∧
      CountNeighbors g 0 63 = some 1) := by
  refine ⟨⟨liveNeighbours g x y, CountNeighbors_live g x y hx hy, rfl, by omega, ?_⟩, ?_⟩
  · have := liveNeighbours_le g x y hx hy
    omega
  · intro h
    have hc := cells_of_only_origin g h
    have e1 := CountNeighbors_eq g 63 63
    have e2 := CountNeighbors_eq g 0 63
    have e3 := CountNeighbors_eq g 63 0
    simp only [nbrs, hc] at e1 e2 e3
    exact ⟨e1, e2, e3⟩

/-- Witness of C2 on the board whose only live cell is `(0, 0)`, at `(63, 63)`. -/
theorem countNeighbors_counts_torus_witness :
    (∃ n : Int, CountNeighbors (setIfInside NewGame 0 0) 63 63 = some n ∧
        n = liveNeighbours (setIfInside NewGame 0 0) 63 63 ∧ 0 ≤ n ∧ n ≤ 8) ∧
    (CountNeighbors (setIfInside NewGame 0 0) 63 63 = some 1 ∧
      CountNeighbors (setIfInside NewGame 0 0) 63 0 = some 1 ∧
      CountNeighbors (setIfInside NewGame 0 0) 0 63 = some 1) := by
  have h := countNeighbors_counts_torus (setIfInside NewGame 0 0) 63 63 (by decide) (by decide)
  refine ⟨h.1, h.2 ?_⟩
  intro a b
  unfold IsAlive
  by_cases hr : a < 0 ∨ a ≥ 64 ∨ b < 0 ∨ b ≥ 64
  · rw [dif_pos hr]
    constructor
    · intro hf
      cases hf
    · rintro ⟨ha, hb⟩
      omega
  · rw [dif_neg hr]
    have e : (setIfInside NewGame 0 0).cells
        = Grid.set (fun _ _ => false) (toIdx 0 (by decide)) (toIdx 0 (by decide)) true := rfl
    rw [e]
    simp only [Grid.set, toIdx, Fin.mk.injEq]
    have ha : a.toNat = (0 : Int).toNat ↔ a = 0 := by
      simp only [Int.toNat_zero]; omega
    have hb : b.toNat = (0 : Int).toNat ↔ b = 0 := by
      simp only [Int.toNat_zero]; omega
    simp only [ha, hb]
    by_cases h1 : a = 0 <;> by_cases h2 : b = 0 <;> simp [h1, h2]

/-- C3: for every 64x64 `image.RGBA` buffer with origin `(0, 0)`, when the reset post
succeeds `DrawImage` posts a `Draw/SendHttpGif` command whose `PicData` string
base64-decodes to exactly 12288 bytes; the bytes at `3 * (64 * y + x)`, `+ 1`, `+ 2`
are the stored R, G, B of the pixel `(x, y)`; for a buffer whose pixels are all
white every byte is `0xFF`. -/
theorem drawImage_payload_is_row_major_rgb (m : ImageRGBA) (net : Net)
    (hrect : m.Rect = ⟨⟨0, 0⟩, ⟨64, 64⟩⟩) (hreset : (post resetCmd net).1 = none) :
    ∃ (data : String) (bytes : List Nat),
      (DrawImage m.toImage net).2.sent = net.sent ++ [resetCmd, sendGifCommand data] ∧
      Command.field (sendGifCommand data) "PicData" = some (Value.str data) ∧
      base64.DecodeString data = some bytes ∧
      bytes.length = 12288 ∧
      (∀ x y : Nat, x < 64 → y < 64 →
        bytes[3 * (64 * y + x)]? = some (m.Pix x y).R.val ∧
        bytes[3 * (64 * y + x) + 1]? = some (m.Pix x y).G.val ∧
        bytes[3 * (64 * y + x) + 2]? = some (m.Pix x y).B.val) ∧
      ((∀ x y : Int, 0 ≤ x ∧ x < 64 → 0 ≤ y ∧ y < 64 →
          (m.Pix x y).R = 255 ∧ (m.Pix x y).G = 255 ∧ (m.Pix x y).B = 255) →
        ∀ i : Nat, i < 12288 → bytes[i]? = some 255) := by
  have hb : m.toImage.Bounds.Dx = 64 ∧ m.toImage.Bounds.Dy = 64 := by
    simp only [ImageRGBA.toImage, hrect, Rectangle.Dx, Rectangle.Dy]
    decide
  have hget : ∀ x y : Nat, x < 64 → y < 64 →
      (rowMajorBytes m.toImage)[3 * (64 * y + x)]? = some (m.Pix x y).R.val ∧
      (rowMajorBytes m.toImage)[3 * (64 * y + x) + 1]? = some (m.Pix x y).G.val ∧
      (rowMajorBytes m.toImage)[3 * (64 * y + x) + 2]? = some (m.Pix x y).B.val := by
    intro x y hx hy
    have h0 := rowMajorBytes_get m.toImage x y 0 hx hy (by decide)
    have h1 := rowMajorBytes_get m.toImage x y 1 hx hy (by decide)
    have h2 := rowMajorBytes_get m.toImage x y 2 hx hy (by decide)
    rw [toImage_pixelTriple m hrect x y hx hy] at h0 h1 h2
    exact ⟨h0, h1, h2⟩
  refine ⟨base64.EncodeToString (rowMajorBytes m.toImage), rowMajorBytes m.toImage,
    ?_, rfl, payload_decodes _, rowMajorBytes_length _, hget, ?_⟩
  · rw [DrawImage_ok _ _ hb hreset, post_sent, post_sent]
    simp
  · intro hw i hi
    have hx : i % 192 / 3 < 64 := by omega
    have hy : i / 192 < 64 := by omega
    have h := hget (i % 192 / 3) (i / 192) hx hy
    have w := hw ((i % 192 / 3 : Nat) : Int) ((i / 192 : Nat) : Int) (by omega) (by omega)
    rw [w.1, w.2.1, w.2.2] at h
    have hc : i % 3 = 0 ∨ i % 3 = 1 ∨ i % 3 = 2 := by omega
    rcases hc with hc | hc | hc
    · have e : i = 3 * (64 * (i / 192) + i % 192 / 3) := by omega
      rw [e]; exact h.1
    · have e : i = 3 * (64 * (i / 192) + i % 192 / 3) + 1 := by omega
      rw [e]; exact h.2.1
    · have e : i = 3 * (64 * (i / 192) + i % 192 / 3) + 2 := by omega
      rw [e]; exact h.2.2

/-- Witness of C3: the all-white buffer sent to a device that answers 200. -/
theorem drawImage_payload_is_row_major_rgb_witness :
    ∃ (data : String) (bytes : List Nat),
      (DrawImage whiteImage.toImage okNet).2.sent
        = okNet.sent ++ [resetCmd, sendGifCommand data] ∧
      base64.DecodeString data = some bytes ∧
      bytes.length = 12288 ∧
      ∀ i : Nat, i < 12288 → bytes[i]? = some 255 := by
  obtain ⟨data, bytes, h1, _, h3, h4, _, h6⟩ :=
    drawImage_payload_is_row_major_rgb whiteImage okNet rfl rfl
  exact ⟨data, bytes, h1, h3, h4, h6 (fun _ _ _ _ => ⟨rfl, rfl, rfl⟩)⟩

/-- C4: `DrawImage` on an image whose bounds are not 64 wide and 64 tall returns the
size error and leaves the network untouched (no command is posted, not even the
reset); on an image whose bounds are 64 wide and 64 tall it does not return the
size error. -/
theorem drawImage_validates_size (img : Image) (net : Net) :
    ((img.Bounds.Dx ≠ 64 ∨ img.Bounds.Dy ≠ 64) →
      (DrawImage img net).1 = some Error.imageSize ∧ (DrawImage img net).2 = net ∧
      (DrawImage img net).2.sent = net.sent) ∧
    ((img.Bounds.Dx = 64 ∧ img.Bounds.Dy = 64) →
      (DrawImage img net).1 ≠ some Error.imageSize) := by
  constructor
  · intro hb
    rw [DrawImage_rejected img net hb]
    exact ⟨rfl, rfl, rfl⟩
  · intro hb
    cases hr : (post resetCmd net).1 with
    | some e =>
      rw [DrawImage_resetFailed img net hb e hr]
      intro h
      cases h
    | none =>
      rw [DrawImage_ok img net hb hr]
      generalize (post resetCmd net).2 = n1
      unfold post
      split
      · intro h; cases h
      · split
        · intro h; cases h
        · intro h; cases h

/-- Witness of C4: a 32x32 image is refused with nothing posted, the 64x64 white
buffer is not refused. -/
theorem drawImage_validates_size_witness :
    ((DrawImage smallImage okNet).1 = some Error.imageSize ∧
      (DrawImage smallImage okNet).2 = okNet ∧
      (DrawImage smallImage okNet).2.sent = okNet.sent) ∧
    (DrawImage whiteImage.toImage okNet).1 ≠ some Error.imageSize :=
  ⟨(drawImage_validates_size smallImage okNet).1 (by decide),
   (drawImage_validates_size whiteImage.toImage okNet).2 (by decide)⟩

/-- C5: `SetBrightness(level)` returns an error and posts nothing exactly when
`level < 0` or `level > 100`; for `0 ≤ level ≤ 100` it posts exactly one command,
with `Command = "Channel/SetBrightness"` and `Brightness = level`, and returns the
result of that post. -/
theorem setBrightness_validates_range (level : Int) (net : Net) :
    (((∃ e, (SetBrightness level net).1 = some e) ∧
        (SetBrightness level net).2.sent = net.sent) ↔ (level < 0 ∨ level > 100)) ∧
    ((level < 0 ∨ level > 100) → SetBrightness level net = (some Error.brightness, net)) ∧
    ((0 ≤ level ∧ level ≤ 100) →
      ∃ c : Command,
        Command.field c "Command" = some (Value.str "Channel/SetBrightness") ∧
        Command.field c "Brightness" = some (Value.int level) ∧
        SetBrightness level net = post c net ∧
        (SetBrightness level net).2.sent = net.sent ++ [c]) := by
  have hbad : (level < 0 ∨ level > 100) →
      SetBrightness level net = (some Error.brightness, net) := by
    intro h
    unfold SetBrightness
    rw [if_pos h]
  have hgood : ¬ (level < 0 ∨ level > 100) →
      SetBrightness level net
        = post [("Command", Value.str "Channel/SetBrightness"),
                ("Brightness", Value.int level)] net := by
    intro h
    unfold SetBrightness
    rw [if_neg h]
  refine ⟨⟨?_, ?_⟩, hbad, ?_⟩
  · rintro ⟨_, hs⟩
    by_contra hn
    rw [hgood hn, post_sent] at hs
    simp at hs
  · intro h
    rw [hbad h]
    exact ⟨⟨_, rfl⟩, rfl⟩
  · intro h
    have hn : ¬ (level < 0 ∨ level > 100) := by omega
    refine ⟨_, ?_, ?_, hgood hn, ?_⟩
    · rfl
    · rfl
    · rw [hgood hn, post_sent]

/-- Witness of C5 at the two ends of the range and just outside of it. -/
theorem setBrightness_validates_range_witness :
    SetBrightness 101 okNet = (some Error.brightness, okNet) ∧
    SetBrightness (-1) okNet = (some Error.brightness, okNet) ∧
    (∃ c : Command,
        Command.field c "Command" = some (Value.str "Channel/SetBrightness") ∧
        Command.field c "Brightness" = some (Value.int 0) ∧
        SetBrightness 0 okNet = post c okNet ∧
        (SetBrightness 0 okNet).2.sent = okNet.sent ++ [c]) ∧
    (∃ c : Command,
        Command.field c "Command" = some (Value.str "Channel/SetBrightness") ∧
        Command.field c "Brightness" = some (Value.int 100) ∧
        SetBrightness 100 okNet = post c okNet ∧
        (SetBrightness 100 okNet).2.sent = okNet.sent ++ [c]) :=
  ⟨(setBrightness_validates_range 101 okNet).2.1 (by decide),
   (setBrightness_validates_range (-1) okNet).2.1 (by decide),
   (setBrightness_validates_range 0 okNet).2.2 (by decide),
   (setBrightness_validates_range 100 okNet).2.2 (by decide)⟩

/-- C6: for every image of 64x64 bounds, `DrawImage` posts `Draw/ResetHttpGifId`
first.  When that post succeeds it posts second a `Draw/SendHttpGif` command with
`PicID = 1`, `PicNum = 1`, `PicOffset = 0`, `PicWidth = 64`, `PicSpeed = 1000`, and
returns the result of that post; when the reset post fails it returns the wrapped
error and posts nothing further. -/
theorem drawImage_resets_then_sends (img : Image) (net : Net)
    (hb : img.Bounds.Dx = 64 ∧ img.Bounds.Dy = 64) :
    Command.field resetCmd "Command" = some (Value.str "Draw/ResetHttpGifId") ∧
    ((post resetCmd net).1 = none →
      ∃ c : Command,
        DrawImage img net = post c (post resetCmd net).2 ∧
        (DrawImage img net).2.sent = net.sent ++ [resetCmd, c] ∧
        Command.field c "Command" = some (Value.str "Draw/SendHttpGif") ∧
        Command.field c "PicID" = some (Value.int 1) ∧
        Command.field c "PicNum" = some (Value.int 1) ∧
        Command.field c "PicOffset" = some (Value.int 0) ∧
        Command.field c "PicWidth" = some (Value.int 64) ∧
        Command.field c "PicSpeed" = some (Value.int 1000)) ∧
    (∀ e, (post resetCmd net).1 = some e →
      (DrawImage img net).1 = some (Error.resetGif e) ∧
      (DrawImage img net).2.sent = net.sent ++ [resetCmd]) := by
  refine ⟨rfl, ?_, ?_⟩
  · intro hr
    refine ⟨_, DrawImage_ok img net hb hr, ?_, rfl, rfl, rfl, rfl, rfl, rfl⟩
    rw [DrawImage_ok img net hb hr, post_sent, post_sent]
    simp
  · intro e hr
    rw [DrawImage_resetFailed img net hb e hr, post_sent]
    exact ⟨rfl, rfl⟩

/-- Witness of C6: the white buffer on a device that answers 200, and on a device
that cannot be reached. -/
theorem drawImage_resets_then_sends_witness :
    (∃ c : Command,
        DrawImage whiteImage.toImage okNet = post c (post resetCmd okNet).2 ∧
        (DrawImage whiteImage.toImage okNet).2.sent = okNet.sent ++ [resetCmd, c] ∧
        Command.field c "Command" = some (Value.str "Draw/SendHttpGif") ∧
        Command.field c "PicID" = some (Value.int 1) ∧
        Command.field c "PicNum" = some (Value.int 1) ∧
        Command.field c "PicOffset" = some (Value.int 0) ∧
        Command.field c "PicWidth" = some (Value.int 64) ∧
        Command.field c "PicSpeed" = some (Value.int 1000)) ∧
    ((DrawImage whiteImage.toImage deadNet).1
        = some (Error.resetGif (Error.postRequest "connection refused")) ∧
      (DrawImage whiteImage.toImage deadNet).2.sent = deadNet.sent ++ [resetCmd]) :=
  ⟨(drawImage_resets_then_sends whiteImage.toImage okNet (by decide)).2.1 rfl,
   (drawImage_resets_then_sends whiteImage.toImage deadNet (by decide)).2.2 _ rfl⟩

/-- C7: in one tick, let `a` be `CountAlive()` of the board that the tick's `Step`
returns.  If `a < 10` or `a > 3500` the tick ends with the game equal to the result of
`LoadPattern(pattern)` on the stepped game, the generation counter of the driver 0
and every age 0.  If `10 ≤ a ≤ 3500` the tick ends with the stepped game, the
generation counter one higher and the ages as updated at the start of the tick. -/
theorem tick_reseeds_outside_thresholds (pattern colorMode : String) (d : Driver) :
    ∃ g1 : Game, Step d.game = some g1 ∧
      ((CountAlive g1 < 10 ∨ CountAlive g1 > 3500) →
        ∃ d1, tick pattern colorMode d = some d1 ∧
          d1.game = (LoadPattern g1 pattern d.rand).1 ∧ d1.generation = 0 ∧
          ∀ y x, d1.cellAges y x = 0) ∧
      ((10 ≤ CountAlive g1 ∧ CountAlive g1 ≤ 3500) →
        ∃ d1, tick pattern colorMode d = some d1 ∧
          d1.game = g1 ∧ d1.generation = d.generation + 1 ∧
          d1.cellAges = updateAges d.game d.cellAges) := by
  refine ⟨stepped d.game, Step_stepped _, ?_, ?_⟩
  · intro h
    refine ⟨_, tick_reseed pattern colorMode d h, rfl, rfl, ?_⟩
    intro y x
    simp only [zeroAges_eq]
  · intro h
    exact ⟨_, tick_keep pattern colorMode d h, rfl, rfl, rfl⟩

/-- Witness of C7: the empty board takes the reseed branch, the crowded board, which
has 88 alive cells after its `Step`, is kept. -/
theorem tick_reseeds_outside_thresholds_witness :
    (∃ d1, tick "gliders" "age" (driverOf NewGame) = some d1 ∧
        d1.game = (LoadPattern (stepped NewGame) "gliders" (driverOf NewGame).rand).1 ∧
        d1.generation = 0 ∧ ∀ y x, d1.cellAges y x = 0) ∧
    (∃ d1, tick "gliders" "age" (driverOf crowdedGame) = some d1 ∧
        d1.game = stepped crowdedGame ∧ d1.generation = 0 + 1 ∧
        d1.cellAges = updateAges crowdedGame (fun _ _ => 0)) := by
  obtain ⟨g1, hs1, hr1, _⟩ := tick_reseeds_outside_thresholds "gliders" "age" (driverOf NewGame)
  obtain ⟨g2, hs2, _, hk2⟩ :=
    tick_reseeds_outside_thresholds "gliders" "age" (driverOf crowdedGame)
  have e1 : g1 = stepped NewGame := by
    have h := hs1
    rw [show (driverOf NewGame).game = NewGame from rfl, Step_stepped] at h
    exact (Option.some.inj h).symm
  have e2 : g2 = stepped crowdedGame := by
    have h := hs2
    rw [show (driverOf crowdedGame).game = crowdedGame from rfl, Step_stepped] at h
    exact (Option.some.inj h).symm
  subst e1
  subst e2
  refine ⟨hr1 (Or.inl ?_), hk2 ?_⟩
  · rw [CountAlive_stepped_of_empty _ CountAlive_new]
    decide
  · rw [CountAlive_stepped_crowded]
    decide

/-- C8, as stated, fails: the crowded board has 3520 alive cells when the tick starts,
yet the tick keeps the stepped board (88 alive cells, the cell `(6, 5)` dead) instead
of the reloaded pattern (whose cell `(6, 5)` is alive), and ends with the generation
counter 1, not 0. -/
theorem tick_crowded_start_not_reseeded :
    CountAlive (driverOf crowdedGame).game > 3500 ∧
    ∃ d1, tick "gliders" "age" (driverOf crowdedGame) = some d1 ∧
      d1.game = stepped crowdedGame ∧ CountAlive d1.game = 88 ∧
      d1.game ≠ (LoadPattern (stepped crowdedGame) "gliders" (driverOf crowdedGame).rand).1 ∧
      d1.generation = 1 ∧ d1.generation ≠ 0 := by
  refine ⟨?_, _, tick_keep "gliders" "age" (driverOf crowdedGame) ?_, rfl,
    CountAlive_stepped_crowded, ?_, rfl, by decide⟩
  · show CountAlive crowdedGame > 3500
    rw [CountAlive_crowded]
    decide
  · show 10 ≤ CountAlive (stepped crowdedGame) ∧ CountAlive (stepped crowdedGame) ≤ 3500
    rw [CountAlive_stepped_crowded]
    decide
  · intro h
    have h0 : stepped crowdedGame
        = (LoadPattern (stepped crowdedGame) "gliders" (driverOf crowdedGame).rand).1 := h
    have h1 := LoadPattern_gliders_alive (stepped crowdedGame) (driverOf crowdedGame).rand
    rw [← h0, stepped_crowded_dead] at h1
    cases h1

/-- C8, amended: a tick that starts on a board with 0 alive cells, and a tick whose
`Step` returns a board with more than 3500 alive cells, takes the reseed branch: it
ends with the game reloaded by `LoadPattern(pattern)` and the generation counter 0. -/
theorem tick_reseeds_empty_or_crowded_after_step (pattern colorMode : String) (d : Driver)
    (h : CountAlive d.game = 0 ∨ ∃ g1, Step d.game = some g1 ∧ CountAlive g1 > 3500) :
    ∃ g1 d1, Step d.game = some g1 ∧ tick pattern colorMode d = some d1 ∧
      d1.game = (LoadPattern g1 pattern d.rand).1 ∧ d1.generation = 0 := by
  have hc : CountAlive (stepped d.game) < 10 ∨ CountAlive (stepped d.game) > 3500 := by
    rcases h with h | ⟨g1, hs, hg⟩
    · left
      rw [CountAlive_stepped_of_empty _ h]
      decide
    · right
      rw [Step_stepped] at hs
      rw [Option.some.inj hs]
      exact hg
  exact ⟨stepped d.game, _, Step_stepped _, tick_reseed pattern colorMode d hc, rfl, rfl⟩

/-- Witness of the amended C8: the empty board, and the striped board whose `Step`
returns 3968 alive cells. -/
theorem tick_reseeds_empty_or_crowded_after_step_witness :
    (∃ g1 d1, Step (driverOf NewGame).game = some g1 ∧
        tick "pulsar" "fire" (driverOf NewGame) = some d1 ∧
        d1.game = (LoadPattern g1 "pulsar" (driverOf NewGame).rand).1 ∧ d1.generation = 0) ∧
    (∃ g1 d1, Step (driverOf stripedGame).game = some g1 ∧
        tick "pulsar" "fire" (driverOf stripedGame) = some d1 ∧
        d1.game = (LoadPattern g1 "pulsar" (driverOf stripedGame).rand).1 ∧
        d1.generation = 0) :=
  ⟨tick_reseeds_empty_or_crowded_after_step "pulsar" "fire" (driverOf NewGame)
      (Or.inl CountAlive_new),
   tick_reseeds_empty_or_crowded_after_step "pulsar" "fire" (driverOf stripedGame)
      (Or.inr ⟨stepped stripedGame, Step_stepped _, by
        rw [CountAlive_stepped_striped]; decide⟩)⟩

set_option maxRecDepth 100000 in
/-- C9: on the empty board with `Glider(5, 5)` placed, four calls of `Step` succeed
and leave exactly the alive cells of `Glider(6, 6)` placed on the empty board; after
one, two and three calls the alive cells are not those. -/
theorem glider_returns_after_four_steps :
    ∃ g1 g2 g3 g4 : Game,
      Step (Glider NewGame 5 5) = some g1 ∧ Step g1 = some g2 ∧
      Step g2 = some g3 ∧ Step g3 = some g4 ∧
      (∀ x y : Int, IsAlive g4 x y = IsAlive (Glider NewGame 6 6) x y) ∧
      ¬ (∀ x y : Int, IsAlive g1 x y = IsAlive (Glider NewGame 6 6) x y) ∧
      ¬ (∀ x y : Int, IsAlive g2 x y = IsAlive (Glider NewGame 6 6) x y) ∧
      ¬ (∀ x y : Int, IsAlive g3 x y = IsAlive (Glider NewGame 6 6) x y) := by
  have b0 := Glider_bits 5 5 (by decide)
  have t := Glider_bits 6 6 (by decide)
  have b1 := stepped_bits _ _ b0
  have b2 := stepped_bits _ _ b1
  have b3 := stepped_bits _ _ b2
  have b4 := stepped_bits _ _ b3
  refine ⟨_, _, _, _, Step_stepped _, Step_stepped _, Step_stepped _, Step_stepped _,
    ?_, ?_, ?_, ?_⟩
  · have e : stepFast (stepFast (stepFast (stepFast (patternBits gliderPattern 5 5))))
        = patternBits gliderPattern 6 6 := by decide!
    intro x y
    exact IsAlive_congr _ _ (by rw [b4, t, e]) x y
  · intro h
    have h1 := h (5 : Fin 64).val (6 : Fin 64).val
    rw [IsAlive_bits _ _ b1, IsAlive_bits _ _ t] at h1
    revert h1
    decide!
  · intro h
    have h1 := h (5 : Fin 64).val (7 : Fin 64).val
    rw [IsAlive_bits _ _ b2, IsAlive_bits _ _ t] at h1
    revert h1
    decide!
  · intro h
    have h1 := h (6 : Fin 64).val (6 : Fin 64).val
    rw [IsAlive_bits _ _ b3, IsAlive_bits _ _ t] at h1
    revert h1
    decide!

set_option maxRecDepth 100000 in
/-- C10: after `LoadPattern("pulsar")`, from any state, the board has exactly 48 alive
cells; three calls of `Step` succeed and give back exactly the loaded alive cells,
while after one call and after two calls the alive cells are different. -/
theorem pulsar_has_period_three (g : Game) (r : Rand) :
    CountAlive (LoadPattern g "pulsar" r).1 = 48 ∧
    ∃ g1 g2 g3 : Game,
      Step (LoadPattern g "pulsar" r).1 = some g1 ∧ Step g1 = some g2 ∧ Step g2 = some g3 ∧
      (∀ x y : Int, IsAlive g3 x y = IsAlive (LoadPattern g "pulsar" r).1 x y) ∧
      ¬ (∀ x y : Int, IsAlive g1 x y = IsAlive (LoadPattern g "pulsar" r).1 x y) ∧
      ¬ (∀ x y : Int, IsAlive g2 x y = IsAlive (LoadPattern g "pulsar" r).1 x y) := by
  have b0 := LoadPattern_pulsar g r
  have b1 := stepped_bits _ _ b0
  have b2 := stepped_bits _ _ b1
  have b3 := stepped_bits _ _ b2
  refine ⟨?_, _, _, _, Step_stepped _, Step_stepped _, Step_stepped _, ?_, ?_, ?_⟩
  · have e : CountAlive ⟨bitGrid (patternBits pulsarPattern 26 26), bitGrid 0, 0⟩ = 48 := by
      decide!
    rw [← e]
    exact CountAlive_congr _ _ b0
  · have e : stepFast (stepFast (stepFast (patternBits pulsarPattern 26 26)))
        = patternBits pulsarPattern 26 26 := by decide!
    intro x y
    exact IsAlive_congr _ _ (by rw [b3, b0, e]) x y
  · intro h
    have h1 := h (25 : Fin 64).val (29 : Fin 64).val
    rw [IsAlive_bits _ _ b1, IsAlive_bits _ _ b0] at h1
    revert h1
    decide!
  · intro h
    have h1 := h (26 : Fin 64).val (30 : Fin 64).val
    rw [IsAlive_bits _ _ b2, IsAlive_bits _ _ b0] at h1
    revert h1
    decide!

/-- C11: on every board whose alive cells are exactly `(1,1), (1,2), (2,1), (2,2)`,
`Step` returns a board with the same alive cells, and so does any number of calls of
`Step`. -/
theorem block_is_fixed_point (g : Game)
    (hg : ∀ x y : Int, IsAlive g x y = true ↔
      (x, y) ∈ ([(1, 1), (1, 2), (2, 1), (2, 2)] : List (Int × Int))) :
    (∃ g1, Step g = some g1 ∧ ∀ x y : Int, IsAlive g1 x y = IsAlive g x y) ∧
    ∀ n : Nat, ∃ gn, Steps n g = some gn ∧ ∀ x y : Int, IsAlive gn x y = IsAlive g x y := by
  have e := cells_of_block g hg
  constructor
  · refine ⟨stepped g, Step_stepped g, fun x y => IsAlive_congr _ _ ?_ x y⟩
    rw [stepped_bits g _ e, stepFast_block, e]
  · intro n
    obtain ⟨gn, h1, h2⟩ := Steps_fixed blockBits stepFast_block n g e
    exact ⟨gn, h1, fun x y => IsAlive_congr _ _ (by rw [h2, e]) x y⟩

/-- Witness of C11: the block placed on the empty board, one `Step` and 100 calls. -/
theorem block_is_fixed_point_witness :
    (∃ g1, Step blockGame = some g1 ∧
      ∀ x y : Int, IsAlive g1 x y = IsAlive blockGame x y) ∧
    ∃ gn, Steps 100 blockGame = some gn ∧
      ∀ x y : Int, IsAlive gn x y = IsAlive blockGame x y :=
  ⟨(block_is_fixed_point blockGame blockGame_alive).1,
   (block_is_fixed_point blockGame blockGame_alive).2 100⟩

/-- C12: after `Clear()`, from any state, `CountAlive()` is 0, `IsAlive(x, y)` is false
for every `(x, y)` and `Generation()` is 0. -/
theorem clear_empties_board (g : Game) :
    CountAlive (Clear g) = 0 ∧ (∀ x y : Int, IsAlive (Clear g) x y = false) ∧
    Generation (Clear g) = 0 := by
  refine ⟨(CountAlive_zero_iff _).2 (Clear_cells g), ?_, ?_⟩
  · intro x y
    unfold IsAlive
    split
    · rfl
    · exact Clear_cells g _ _
  · rw [Clear_eq]
    rfl

/-- C13: for every state and every name other than the six pattern names,
`LoadPattern(name)` returns (there is no error result), with `CountAlive() = 0` and
`Generation() = 0`; no cell is alive and the random source is not used. -/
theorem loadPattern_unknown_name_clears (g : Game) (name : String) (r : Rand)
    (hname : name ≠ "gliders" ∧ name ≠ "gosper-gun" ∧ name ≠ "random" ∧
      name ≠ "random-sparse" ∧ name ≠ "random-dense" ∧ name ≠ "pulsar") :
    CountAlive (LoadPattern g name r).1 = 0 ∧ Generation (LoadPattern g name r).1 = 0 ∧
    (∀ x y : Int, IsAlive (LoadPattern g name r).1 x y = false) ∧
    (LoadPattern g name r).2 = r := by
  have e : LoadPattern g name r = ({ Clear g with generation := 0 }, r) := by
    unfold LoadPattern
    simp only [hname.1, hname.2.1, hname.2.2.1, hname.2.2.2.1, hname.2.2.2.2.1,
      hname.2.2.2.2.2, if_false]
  rw [e]
  have hc : ∀ y x, ({ Clear g with generation := 0 } : Game).cells y x = false :=
    fun y x => Clear_cells g y x
  refine ⟨(CountAlive_zero_iff _).2 hc, ?_, ?_, ?_⟩
  · show ({ Clear g with generation := 0 } : Game).generation = 0
    exact rfl
  · intro x y
    show IsAlive ({ Clear g with generation := 0 } : Game) x y = false
    unfold IsAlive
    split
    · rfl
    · exact hc _ _
  · exact rfl

/-- Witness of C13: the empty name and the name `"glider"`, on the crowded board. -/
theorem loadPattern_unknown_name_clears_witness :
    (CountAlive (LoadPattern main.crowdedGame "" (fun _ => 0)).1 = 0 ∧
      Generation (LoadPattern main.crowdedGame "" (fun _ => 0)).1 = 0) ∧
    (CountAlive (LoadPattern main.crowdedGame "glider" (fun _ => 0)).1 = 0 ∧
      Generation (LoadPattern main.crowdedGame "glider" (fun _ => 0)).1 = 0) :=
  ⟨⟨(loadPattern_unknown_name_clears main.crowdedGame "" (fun _ => 0) (by decide)).1,
    (loadPattern_unknown_name_clears main.crowdedGame "" (fun _ => 0) (by decide)).2.1⟩,
   ⟨(loadPattern_unknown_name_clears main.crowdedGame "glider" (fun _ => 0) (by decide)).1,
    (loadPattern_unknown_name_clears main.crowdedGame "glider" (fun _ => 0)
      (by decide)).2.1⟩⟩

/-- C14: for every age and every `(x, y)`, `getCellColor` follows the table of the
modes `"age"`, `"fire"`, `"ocean"` and `"matrix"`, with alpha 255; every mode name
other than these four and `"rainbow"` gives `(0, 255, 0)`; in particular age 0 in
mode `"age"` is `(0, 255, 0)` whatever `(x, y)`. -/
theorem getCellColor_follows_table (age x y : Int) :
    ((age < 5 → getCellColor age "age" x y = ⟨0, 255, 0, 255⟩) ∧
     (5 ≤ age ∧ age < 15 → getCellColor age "age" x y = ⟨0, 200, 50, 255⟩) ∧
     (15 ≤ age ∧ age < 30 → getCellColor age "age" x y = ⟨200, 200, 0, 255⟩) ∧
     (30 ≤ age → getCellColor age "age" x y = ⟨255, 100, 0, 255⟩)) ∧
    ((age < 3 → getCellColor age "fire" x y = ⟨255, 255, 0, 255⟩) ∧
     (3 ≤ age ∧ age < 10 → getCellColor age "fire" x y = ⟨255, 150, 0, 255⟩) ∧
     (10 ≤ age → getCellColor age "fire" x y = ⟨255, 50, 0, 255⟩)) ∧
    ((age < 5 → getCellColor age "ocean" x y = ⟨0, 255, 255, 255⟩) ∧
     (5 ≤ age ∧ age < 15 → getCellColor age "ocean" x y = ⟨0, 150, 255, 255⟩) ∧
     (15 ≤ age → getCellColor age "ocean" x y = ⟨0, 50, 200, 255⟩)) ∧
    ((age < 3 → getCellColor age "matrix" x y = ⟨0, 255, 0, 255⟩) ∧
     (3 ≤ age ∧ age < 10 → getCellColor age "matrix" x y = ⟨0, 180, 0, 255⟩) ∧
     (10 ≤ age → getCellColor age "matrix" x y = ⟨0, 100, 0, 255⟩)) ∧
    (∀ mode : String, mode ≠ "age" ∧ mode ≠ "rainbow" ∧ mode ≠ "fire" ∧
        mode ≠ "ocean" ∧ mode ≠ "matrix" →
      getCellColor age mode x y = ⟨0, 255, 0, 255⟩) ∧
    getCellColor 0 "age" x y = ⟨0, 255, 0, 255⟩ := by
  refine ⟨⟨?_, ?_, ?_, ?_⟩, ⟨?_, ?_, ?_⟩, ⟨?_, ?_, ?_⟩, ⟨?_, ?_, ?_⟩, ?_, ?_⟩
  · intro h
    unfold getCellColor
    simp only [if_true, h]
  · intro h
    have h1 : ¬ age < 5 := by omega
    unfold getCellColor
    simp only [if_true, if_false, h1, h.2]
  · intro h
    have h1 : ¬ age < 5 := by omega
    have h2 : ¬ age < 15 := by omega
    unfold getCellColor
    simp only [if_true, if_false, h1, h2, h.2]
  · intro h
    have h1 : ¬ age < 5 := by omega
    have h2 : ¬ age < 15 := by omega
    have h3 : ¬ age < 30 := by omega
    unfold getCellColor
    simp only [if_true, if_false, h1, h2, h3]
  · intro h
    unfold getCellColor
    simp only [String.reduceEq, if_true, if_false, h]
  · intro h
    have h1 : ¬ age < 3 := by omega
    unfold getCellColor
    simp only [String.reduceEq, if_true, if_false, h1, h.2]
  · intro h
    have h1 : ¬ age < 3 := by omega
    have h2 : ¬ age < 10 := by omega
    unfold getCellColor
    simp only [String.reduceEq, if_true, if_false, h1, h2]
  · intro h
    unfold getCellColor
    simp only [String.reduceEq, if_true, if_false, h]
  · intro h
    have h1 : ¬ age < 5 := by omega
    unfold getCellColor
    simp only [String.reduceEq, if_true, if_false, h1, h.2]
  · intro h
    have h1 : ¬ age < 5 := by omega
    have h2 : ¬ age < 15 := by omega
    unfold getCellColor
    simp only [String.reduceEq, if_true, if_false, h1, h2]
  · intro h
    unfold getCellColor
    simp only [String.reduceEq, if_true, if_false, h]
  · intro h
    have h1 : ¬ age < 3 := by omega
    unfold getCellColor
    simp only [String.reduceEq, if_true, if_false, h1, h.2]
  · intro h
    have h1 : ¬ age < 3 := by omega
    have h2 : ¬ age < 10 := by omega
    unfold getCellColor
    simp only [String.reduceEq, if_true, if_false, h1, h2]
  · intro mode h
    unfold getCellColor
    simp only [h.1, h.2.1, h.2.2.1, h.2.2.2.1, h.2.2.2.2, if_false]
  · unfold getCellColor
    simp only [if_true]
    rfl

/-- Witness of C14: the thresholds of the mode `"age"` at the ages 4, 5, 14, 15, 29
and 30, and an unknown mode. -/
theorem getCellColor_follows_table_witness :
    getCellColor 4 "age" 7 9 = ⟨0, 255, 0, 255⟩ ∧
    getCellColor 5 "age" 7 9 = ⟨0, 200, 50, 255⟩ ∧
    getCellColor 14 "age" 7 9 = ⟨0, 200, 50, 255⟩ ∧
    getCellColor 15 "age" 7 9 = ⟨200, 200, 0, 255⟩ ∧
    getCellColor 29 "age" 7 9 = ⟨200, 200, 0, 255⟩ ∧
    getCellColor 30 "age" 7 9 = ⟨255, 100, 0, 255⟩ ∧
    getCellColor 30 "plasma" 7 9 = ⟨0, 255, 0, 255⟩ :=
  ⟨(getCellColor_follows_table 4 7 9).1.1 (by decide),
   (getCellColor_follows_table 5 7 9).1.2.1 (by decide),
   (getCellColor_follows_table 14 7 9).1.2.1 (by decide),
   (getCellColor_follows_table 15 7 9).1.2.2.1 (by decide),
   (getCellColor_follows_table 29 7 9).1.2.2.1 (by decide),
   (getCellColor_follows_table 30 7 9).1.2.2.2 (by decide),
   (getCellColor_follows_table 30 7 9).2.2.2.2.1 "plasma" (by decide)⟩

/-- C15, as stated, fails: the coordinates `(9223372036854775807, 2)` and `(1, 0)` are
non-negative and their sums are equal mod 64, yet the first cell is drawn black, since
the sum of its coordinates wraps around to a negative `int`, and the second is not. -/
theorem rainbow_sum_wraps_at_max_int :
    (0 : Int) ≤ 9223372036854775807 ∧ (0 : Int) ≤ 2 ∧
    ((9223372036854775807 : Int) + 2) % 64 = ((1 : Int) + 0) % 64 ∧
    getCellColor 0 "rainbow" 9223372036854775807 2 = ⟨0, 0, 0, 255⟩ ∧
    getCellColor 0 "rainbow" 1 0 = ⟨255, 23, 0, 255⟩ := by
  decide!

/-- C15, amended: in mode `"rainbow"`, for all ages and all non-negative coordinates
whose sums fit an `int` (are below `2 ^ 63`) and have the same `(x + y) mod 64`,
`getCellColor` gives the same colour; that colour is the HSV-to-RGB conversion of the
hue `((x + y) mod 64) / 64` with `S = V = 1`, each channel scaled to 255 and
truncated, alpha 255; it is `(255, 0, 0, 255)` when `(x + y) mod 64 = 0`. -/
theorem rainbow_is_hue_of_sum_mod_64 (a1 a2 x1 y1 x2 y2 : Int)
    (hx1 : 0 ≤ x1) (hy1 : 0 ≤ y1) (hx2 : 0 ≤ x2) (hy2 : 0 ≤ y2)
    (hs1 : x1 + y1 < 2 ^ 63) (hs2 : x2 + y2 < 2 ^ 63)
    (h : (x1 + y1) % 64 = (x2 + y2) % 64) :
    getCellColor a1 "rainbow" x1 y1 = getCellColor a2 "rainbow" x2 y2 ∧
    getCellColor a1 "rainbow" x1 y1 = hueColor ((((x1 + y1) % 64 : Int) : ℚ) / 64) ∧
    ((x1 + y1) % 64 = 0 → getCellColor a1 "rainbow" x1 y1 = ⟨255, 0, 0, 255⟩) := by
  have e1 := getCellColor_rainbow a1 x1 y1 ⟨by omega, hs1⟩
  have e2 := getCellColor_rainbow a2 x2 y2 ⟨by omega, hs2⟩
  refine ⟨?_, e1, ?_⟩
  · rw [e1, e2, h]
  · intro h0
    rw [e1, h0]
    exact hueColor_zero

/-- Witness of C15: the cells `(0, 0)` and `(63, 1)` at the ages 0 and 99. -/
theorem rainbow_is_hue_of_sum_mod_64_witness :
    getCellColor 0 "rainbow" 0 0 = getCellColor 99 "rainbow" 63 1 ∧
    getCellColor 0 "rainbow" 0 0 = ⟨255, 0, 0, 255⟩ :=
  ⟨(rainbow_is_hue_of_sum_mod_64 0 99 0 0 63 1 (by decide) (by decide) (by decide)
      (by decide) (by decide) (by decide) (by decide)).1,
   (rainbow_is_hue_of_sum_mod_64 0 99 0 0 63 1 (by decide) (by decide) (by decide)
      (by decide) (by decide) (by decide) (by decide)).2.2 (by decide)⟩

/-- C16: every tick returns, and the buffer it hands to `DrawImage` has the bounds
`(0,0)-(64,64)`; for every cell `(x, y)` its pixel is opaque black when the cell is
dead in the game at the start of the tick, whatever the colour mode, and
`getCellColor(age, mode, x, y)` with the just-updated age (the old age plus one)
when the cell is alive; no pixel is the zero colour of the fresh buffer. -/
theorem tick_hands_rasterized_board (pattern colorMode : String) (d : Driver) :
    ∃ (d1 : Driver) (img : ImageRGBA),
      tick pattern colorMode d = some d1 ∧
      img = renderFrame d.game (updateAges d.game d.cellAges) colorMode ∧
      d1.net = (DrawImage img.toImage d.net).2 ∧
      img.toImage.Bounds = ⟨⟨0, 0⟩, ⟨64, 64⟩⟩ ∧
      ∀ x y : Fin 64,
        (IsAlive d.game x.val y.val = false → img.At x.val y.val = ⟨0, 0, 0, 255⟩) ∧
        (IsAlive d.game x.val y.val = true →
          updateAges d.game d.cellAges y x = d.cellAges y x + 1 ∧
          img.At x.val y.val
            = getCellColor (updateAges d.game d.cellAges y x) colorMode x.val y.val) ∧
        img.At x.val y.val ≠ ⟨0, 0, 0, 0⟩ := by
  obtain ⟨d1, h1, h2, _⟩ := tick_total pattern colorMode d
  refine ⟨d1, _, h1, rfl, h2, ?_, ?_⟩
  · rw [renderFrame_eq]
    rfl
  · intro x y
    have hx := x.isLt
    have hy := y.isLt
    have hat : (renderFrame d.game (updateAges d.game d.cellAges) colorMode).At x.val y.val
        = if IsAlive d.game x.val y.val then
            getCellColor (updateAges d.game d.cellAges y x) colorMode x.val y.val
          else ⟨0, 0, 0, 255⟩ := by
      rw [renderFrame_eq]
      have hin : Point.In ⟨(x.val : Int), (y.val : Int)⟩ ⟨⟨0, 0⟩, ⟨64, 64⟩⟩ = true := by
        simp only [Point.In, decide_eq_true_eq]
        omega
      simp only [ImageRGBA.At, hin, if_true]
      exact framePixel_fin _ _ _ x y
    rw [hat]
    refine ⟨?_, ?_, ?_⟩
    · intro hd
      rw [hd]
      rfl
    · intro ha
      rw [ha]
      refine ⟨?_, rfl⟩
      rw [updateAges_eq]
      simp only [ha, if_true]
    · cases hc : IsAlive d.game x.val y.val
      · simp only [Bool.false_eq_true, if_false]
        decide
      · simp only [if_true]
        intro h0
        have ha := getCellColor_alpha (updateAges d.game d.cellAges y x) colorMode x.val y.val
        rw [h0] at ha
        revert ha
        decide

/-- Witness of C16 on the crowded board in mode `"age"`: the dead cell `(0, 0)` is
black and the alive cell `(30, 30)`, of age 1, is bright green. -/
theorem tick_hands_rasterized_board_witness :
    ∃ (d1 : Driver) (img : ImageRGBA),
      tick "gliders" "age" (driverOf crowdedGame) = some d1 ∧
      d1.net = (DrawImage img.toImage (driverOf crowdedGame).net).2 ∧
      img.At 0 0 = ⟨0, 0, 0, 255⟩ ∧ img.At 30 30 = ⟨0, 255, 0, 255⟩ := by
  obtain ⟨d1, img, h1, _, h3, _, h5⟩ :=
    tick_hands_rasterized_board "gliders" "age" (driverOf crowdedGame)
  refine ⟨d1, img, h1, h3, (h5 0 0).1 (by decide), ?_⟩
  have h := ((h5 30 30).2.1 (by decide)).2
  have e := ((h5 30 30).2.1 (by decide)).1
  rw [e] at h
  exact h

/-- C17: every tick returns, and its age update sets the age of a dead cell to 0 and
the age of an alive cell to its previous age plus 1: the frame the tick hands to
`DrawImage` is rendered with these updated ages, and the tick ends with them when it
keeps the stepped board and with all ages 0 when it reseeds.  From a driver state
whose ages are all zero, every number of ticks returns a state in which every age is
at least 0; in the tick that follows, the ages the frame is rendered with are at least
0, the age of a cell is 0 exactly when the cell is dead, and the tick ends with ages
at least 0. -/
theorem ages_track_alive_cells (pattern colorMode : String) (d : Driver)
    (h0 : ∀ y x, d.cellAges y x = 0) (n : Nat) :
    (∀ e : Driver, ∃ (e1 : Driver) (g1 : Game),
      tick pattern colorMode e = some e1 ∧ Step e.game = some g1 ∧
      (∀ y x : Fin 64, updateAges e.game e.cellAges y x
          = if IsAlive e.game x.val y.val then e.cellAges y x + 1 else 0) ∧
      e1.net = (DrawImage (renderFrame e.game (updateAges e.game e.cellAges)
                  colorMode).toImage e.net).2 ∧
      ((10 ≤ CountAlive g1 ∧ CountAlive g1 ≤ 3500) →
        e1.cellAges = updateAges e.game e.cellAges) ∧
      ((CountAlive g1 < 10 ∨ CountAlive g1 > 3500) → ∀ y x, e1.cellAges y x = 0)) ∧
    ∃ dn, ticks pattern colorMode n d = some dn ∧
      (∀ y x, 0 ≤ dn.cellAges y x) ∧
      ∃ d1, tick pattern colorMode dn = some d1 ∧
        d1.net = (DrawImage (renderFrame dn.game (updateAges dn.game dn.cellAges)
                    colorMode).toImage dn.net).2 ∧
        (∀ y x, 0 ≤ d1.cellAges y x) ∧
        ∀ y x : Fin 64,
          0 ≤ updateAges dn.game dn.cellAges y x ∧
          (updateAges dn.game dn.cellAges y x = 0 ↔ IsAlive dn.game x.val y.val = false) := by
  constructor
  · intro e
    by_cases h : CountAlive (stepped e.game) < 10 ∨ CountAlive (stepped e.game) > 3500
    · refine ⟨_, stepped e.game, tick_reseed pattern colorMode e h, Step_stepped _, ?_, rfl,
        ?_, ?_⟩
      · intro y x
        rw [updateAges_eq]
      · intro hk
        omega
      · intro _ y x
        simp only [zeroAges_eq]
    · refine ⟨_, stepped e.game, tick_keep pattern colorMode e (by omega), Step_stepped _,
        ?_, rfl, ?_, ?_⟩
      · intro y x
        rw [updateAges_eq]
      · intro _
        rfl
      · intro hr
        exact absurd hr h
  · obtain ⟨dn, h1, h2⟩ := ticks_ages_nonneg pattern colorMode n d
      (fun y x => by rw [h0 y x])
    obtain ⟨d1, t1, t2, _⟩ := tick_total pattern colorMode dn
    exact ⟨dn, h1, h2, d1, t1, t2, tick_ages_nonneg pattern colorMode dn d1 h2 t1, fun y x =>
      ⟨updateAges_nonneg dn.game dn.cellAges h2 y x,
       updateAges_zero_iff dn.game dn.cellAges h2 y x⟩⟩

/-- Witness of C17: three ticks from the start-up state on the crowded board, and the
tick that follows them. -/
theorem ages_track_alive_cells_witness :
    ∃ dn, ticks "gliders" "age" 3 (driverOf crowdedGame) = some dn ∧
      (∀ y x, 0 ≤ dn.cellAges y x) ∧
      ∃ d1, tick "gliders" "age" dn = some d1 ∧
        d1.net = (DrawImage (renderFrame dn.game (updateAges dn.game dn.cellAges)
                    "age").toImage dn.net).2 ∧
        (∀ y x, 0 ≤ d1.cellAges y x) ∧
        ∀ y x : Fin 64,
          0 ≤ updateAges dn.game dn.cellAges y x ∧
          (updateAges dn.game dn.cellAges y x = 0 ↔ IsAlive dn.game x.val y.val = false) :=
  (ages_track_alive_cells "gliders" "age" (driverOf crowdedGame) (fun _ _ => rfl) 3).2

/-- C18: for every character outside the digits, `%`, `:` and the letters C, P, U, M,
E, G, B, `getCharPattern` returns the all-zero glyph and `drawChar` returns the image
unchanged, for every image, position and colour; `DrawTextOnImage` on a text made
only of such characters returns the image unchanged; every listed character has a
glyph with a row that is not zero. -/
theorem unlisted_chars_draw_nothing (ch : Char) (hch : ch ∉ glyphChars)
    (text : String) (htext : ∀ t ∈ text.data, t ∉ glyphChars) :
    getCharPattern ch = [0, 0, 0, 0, 0, 0, 0] ∧
    (∀ (img : ImageRGBA) (x y : Int) (c : Color), drawChar img ch x y c = img) ∧
    (∀ (img : ImageRGBA) (x y : Int) (c : Color), DrawTextOnImage img text x y c = img) ∧
    (∀ g ∈ glyphChars, ∃ r ∈ getCharPattern g, r ≠ 0) :=
  ⟨getCharPattern_unknown ch hch,
   fun img x y c => drawChar_unknown img ch hch x y c,
   fun img x y c => drawText_fold_unknown text.data htext x y c img 0,
   glyphs_not_blank⟩

/-- Witness of C18: the space, the letter `x`, and the text `"a b."`. -/
theorem unlisted_chars_draw_nothing_witness :
    getCharPattern ' ' = [0, 0, 0, 0, 0, 0, 0] ∧
    getCharPattern 'x' = [0, 0, 0, 0, 0, 0, 0] ∧
    drawChar whiteImage 'x' 3 4 ⟨0, 0, 0, 255⟩ = whiteImage ∧
    DrawTextOnImage whiteImage "a b." (-2) 70 ⟨0, 0, 0, 255⟩ = whiteImage :=
  ⟨(unlisted_chars_draw_nothing ' ' (by decide) "a b." (by decide)).1,
   (unlisted_chars_draw_nothing 'x' (by decide) "a b." (by decide)).1,
   (unlisted_chars_draw_nothing 'x' (by decide) "a b." (by decide)).2.1 _ _ _ _,
   (unlisted_chars_draw_nothing 'x' (by decide) "a b." (by decide)).2.2.1 _ _ _ _⟩

/-- C19, as stated, fails: the glyph of `0` has 7 rows, not 5. -/
theorem glyph_of_zero_has_seven_rows :
    (getCharPattern '0').length = 7 ∧ (getCharPattern '0').length ≠ 5 := by
  decide

/-- C19, amended: every glyph is a bit pattern of 7 rows by 5 columns:
`getCharPattern` returns exactly 7 rows, each one below 32, and `drawChar` changes no
pixel outside the 5 columns from `x` and the 7 rows from `y`, and keeps the bounds. -/
theorem glyphs_are_seven_rows_of_five_columns (ch : Char) :
    (getCharPattern ch).length = 7 ∧
    (∀ r ∈ getCharPattern ch, r < 32) ∧
    ∀ (img : ImageRGBA) (x y : Int) (c : Color),
      (drawChar img ch x y c).Rect = img.Rect ∧
      ∀ px py : Int, (drawChar img ch x y c).Pix px py ≠ img.Pix px py →
        (0 ≤ px - x ∧ px - x < 5) ∧ (0 ≤ py - y ∧ py - y < 7) := by
  refine ⟨getCharPattern_length ch, getCharPattern_lt ch, ?_⟩
  intro img x y c
  rw [drawChar_eq]
  refine ⟨rfl, ?_⟩
  intro px py hne
  simp only [] at hne
  by_cases hp : paints (getCharPattern ch) x y img.Rect px py = true
  · have hb := paints_box _ _ _ _ _ _ hp
    rw [getCharPattern_length] at hb
    exact ⟨hb.1, hb.2.1⟩
  · rw [if_neg hp] at hne
    exact absurd rfl hne

/-- Witness of the amended C19: the glyph of `1` drawn at `(10, 20)` changes the
pixel `(12, 20)`, which lies in the box. -/
theorem glyphs_are_seven_rows_of_five_columns_witness :
    (getCharPattern '1').length = 7 ∧
    (drawChar CreateImage '1' 10 20 white).Pix 12 20 ≠ CreateImage.Pix 12 20 ∧
    ((0 : Int) ≤ 12 - 10 ∧ (12 : Int) - 10 < 5) ∧ ((0 : Int) ≤ 20 - 20 ∧ (20 : Int) - 20 < 7) :=
  ⟨(glyphs_are_seven_rows_of_five_columns '1').1, by decide,
   ((glyphs_are_seven_rows_of_five_columns '1').2.2 CreateImage 10 20 white).2 12 20
     (by decide)⟩

/-- C20 on the text `"\u00e90"` (the character `é`, two bytes in UTF-8, then `0`)
drawn at `(0, 0)`: the index of the loop over the text is
the byte index, so the second character `0`, which follows a character of two bytes,
is drawn with its left column at 12 (its pixel `(13, 0)` is painted) and not at 6
(the pixel `(7, 0)` is not painted), where drawing character by character paints
`(7, 0)` and not `(13, 0)`. -/
theorem drawText_advances_by_bytes :
    (DrawTextOnImage CreateImage "\u00e90" 0 0 white).At 13 0 = white ∧
    (DrawTextOnImage CreateImage "\u00e90" 0 0 white).At 7 0 = ⟨0, 0, 0, 0⟩ ∧
    (drawTextPerChar CreateImage "\u00e90".data 0 0 white 0).At 7 0 = white ∧
    (drawTextPerChar CreateImage "\u00e90".data 0 0 white 0).At 13 0 = ⟨0, 0, 0, 0⟩ := by
  decide!

/-- C21: the client that posts through curl is not identical to the primary client.
For the all-white 64x64 buffer and a device that answers 200, `Client.DrawImage`
posts two commands, the reset and a `Draw/SendHttpGif` with `PicID` 1 and `PicData` a
base64 string, while `CurlClient.DrawImage` posts one command, with `PicID` 0 and
`PicData` an array of 4096 integers, and no reset. For the text "A" in white,
`Client.DrawText` posts `y` 24, `speed` 0 and `align` 2, while `CurlClient.DrawText`
posts `y` 0, `speed` 50 and `align` 1. -/
theorem curlClient_is_not_identical_to_client :
    (∃ (data : String) (pixels : List Int),
      (DrawImage whiteImage.toImage okNet).2.sent = [resetCmd, sendGifCommand data] ∧
      (CurlClient.DrawImage whiteImage.toImage okNet).2.sent
        = [CurlClient.sendGifCommand pixels] ∧
      Command.field (sendGifCommand data) "PicID" = some (Value.int 1) ∧
      Command.field (CurlClient.sendGifCommand pixels) "PicID" = some (Value.int 0) ∧
      Command.field (sendGifCommand data) "PicData" = some (Value.str data) ∧
      Command.field (CurlClient.sendGifCommand pixels) "PicData" = some (Value.ints pixels) ∧
      pixels.length = 4096) ∧
    (DrawText "A" 255 255 255 okNet).2.sent
      = [[("Command", Value.str "Draw/SendHttpText"), ("TextId", Value.int 1),
          ("x", Value.int 0), ("y", Value.int 24), ("dir", Value.int 0),
          ("font", Value.int 2), ("TextWidth", Value.int 64), ("speed", Value.int 0),
          ("TextString", Value.str "A"), ("color", Value.str "#ffffff"),
          ("align", Value.int 2)]] ∧
    (CurlClient.DrawText "A" 255 255 255 okNet).2.sent
      = [[("Command", Value.str "Draw/SendHttpText"), ("TextId", Value.int 1),
          ("x", Value.int 0), ("y", Value.int 0), ("dir", Value.int 0),
          ("font", Value.int 2), ("TextWidth", Value.int 64), ("speed", Value.int 50),
          ("TextString", Value.str "A"), ("color", Value.str "#ffffff"),
          ("align", Value.int 1)]] := by
  refine ⟨?_, ?_, ?_⟩
  · refine ⟨base64.EncodeToString (rowMajorBytes whiteImage.toImage),
      CurlClient.fillPixels whiteImage.toImage, ?_, ?_, rfl, rfl, rfl, rfl,
      curl_fillPixels_length _⟩
    · rw [DrawImage_ok whiteImage.toImage okNet (by decide) rfl, post_sent, post_sent]
      rfl
    · rw [curl_DrawImage_ok whiteImage.toImage okNet (by decide), curl_run_sent]
      rfl
  · unfold DrawText
    rw [post_sent]
    decide
  · unfold CurlClient.DrawText CurlClient.post
    rw [curl_run_sent]
    decide

set_option maxRecDepth 100000 in
/-- C22, as stated, fails: on a buffer of 32x32 pixels, `drawChar` of `1` at
`(40, 40)` in white leaves the point `(42, 40)` at the zero colour, although the point
lies in the 64x64 frame and in the glyph box and its bit, bit 2 of row 0, is set: the
point is outside the bounds of the image, where `Set` writes nothing. -/
theorem drawChar_outside_bounds_not_painted :
    ((0 : Int) ≤ 42 ∧ (42 : Int) < 64 ∧ (0 : Int) ≤ 40 ∧ (40 : Int) < 64) ∧
    ((0 : Int) ≤ 42 - 40 ∧ (42 : Int) - 40 < 5) ∧ ((0 : Int) ≤ 40 - 40 ∧ (40 : Int) - 40 < 7) ∧
    ((getCharPattern '1').getD ((40 : Int) - 40).toNat 0).testBit (4 - ((42 : Int) - 40).toNat)
      = true ∧
    (drawChar smallBuffer '1' 40 40 white).At 42 40 = ⟨0, 0, 0, 0⟩ ∧
    (drawChar smallBuffer '1' 40 40 white).At 42 40 ≠ white := by
  decide!

/-- C22, amended: for every image, character, position `(x, y)` and colour `c`,
`drawChar` keeps the bounds of the image, and the point `(px, py)` reads as `c`
afterwards when it lies inside the bounds of the image, in the 64x64 frame and in the
box of 5 columns and 7 rows at `(x, y)`, and bit `4 - (px - x)` of row `py - y` of the
pattern of the character is set; every other point reads as it did before. -/
theorem drawChar_paints_set_bits_only (img : ImageRGBA) (ch : Char) (x y : Int) (c : Color)
    (px py : Int) :
    (drawChar img ch x y c).Rect = img.Rect ∧
    (drawChar img ch x y c).At px py
      = if Point.In ⟨px, py⟩ img.Rect = true ∧
            (0 ≤ px ∧ px < 64 ∧ 0 ≤ py ∧ py < 64) ∧
            (0 ≤ px - x ∧ px - x < 5) ∧ (0 ≤ py - y ∧ py - y < 7) ∧
            ((getCharPattern ch).getD (py - y).toNat 0).testBit (4 - (px - x).toNat) = true
        then c else img.At px py := by
  constructor
  · rw [drawChar_eq]
  · rw [drawChar_At]
    have h := paints_iff (getCharPattern ch) x y img.Rect px py
    rw [getCharPattern_length] at h
    simp only [Nat.cast_ofNat] at h
    by_cases hp : paints (getCharPattern ch) x y img.Rect px py = true
    · rw [if_pos hp, if_pos (h.1 hp)]
    · rw [if_neg hp, if_neg (fun hh => hp (h.2 hh))]

/-- C23: `DrawImage` serializes the points `(i, j)` with `0 ≤ i, j < 64`, not the
pixels in column `i` and row `j` of the bounds. The all-white buffer with bounds
`(10, 10)-(74, 74)` is accepted and posted to a device that answers 200, and the
first three bytes of the payload are 0, 0, 0, the colour that `At(0, 0)` gives outside
the bounds, while the pixel in column 0 and row 0 of the bounds, at `(10, 10)`, has
R, G, B 255, 255, 255. -/
theorem drawImage_serializes_absolute_points :
    (shiftedWhite.toImage.Bounds.Dx = 64 ∧ shiftedWhite.toImage.Bounds.Dy = 64) ∧
    (DrawImage shiftedWhite.toImage okNet).1 = none ∧
    (∃ (data : String) (bytes : List Nat),
      (DrawImage shiftedWhite.toImage okNet).2.sent = [resetCmd, sendGifCommand data] ∧
      base64.DecodeString data = some bytes ∧
      bytes[0]? = some 0 ∧ bytes[1]? = some 0 ∧ bytes[2]? = some 0) ∧
    highByte (shiftedWhite.toImage.pixelOfBounds 0 0).r = 255 ∧
    highByte (shiftedWhite.toImage.pixelOfBounds 0 0).g = 255 ∧
    highByte (shiftedWhite.toImage.pixelOfBounds 0 0).b = 255 := by
  refine ⟨by decide, ?_, ?_, by decide, by decide, by decide⟩
  · rw [DrawImage_ok shiftedWhite.toImage okNet (by decide) rfl]
    rfl
  · obtain ⟨data, bytes, h1, h2, h3⟩ :=
      DrawImage_payload_absolute shiftedWhite.toImage okNet (by decide) rfl
    refine ⟨data, bytes, h1, h2, ?_⟩
    have h := h3 0 0 (by decide) (by decide)
    exact h

/-- C24: `Step` commutes with the translations of the torus. For every two games and
every shift `(dx, dy)`, if the second has the cell `((x + dx) mod 64, (y + dy) mod 64)`
alive exactly when the first has the cell `(x, y)` alive, for all `0 ≤ x, y < 64`,
then `Step` returns on both and the same relation holds between the two results. -/
theorem step_commutes_with_translation (g g' : Game) (dx dy : Int)
    (h : ∀ x y : Int, 0 ≤ x → x < 64 → 0 ≤ y → y < 64 →
      IsAlive g' ((x + dx) % 64) ((y + dy) % 64) = IsAlive g x y) :
    ∃ g1 g1' : Game, Step g = some g1 ∧ Step g' = some g1' ∧
      ∀ x y : Int, 0 ≤ x → x < 64 → 0 ≤ y → y < 64 →
        IsAlive g1' ((x + dx) % 64) ((y + dy) % 64) = IsAlive g1 x y := by
  obtain ⟨a, ha⟩ := shift_exists dx
  obtain ⟨b, hb⟩ := shift_exists dy
  have hc : ∀ y x : Fin 64, g'.cells (y + b) (x + a) = g.cells y x := by
    intro y x
    have := h x.val y.val (by omega) (by have := x.isLt; omega) (by omega)
      (by have := y.isLt; omega)
    rw [IsAlive_shift g' x y a b dx dy ha hb, IsAlive_fin] at this
    exact this
  refine ⟨stepped g, stepped g', Step_stepped g, Step_stepped g', ?_⟩
  intro x y hx0 hx hy0 hy
  have ex : x = (((toIdx x ⟨hx0, hx⟩).val : Nat) : Int) := (toIdx_val x ⟨hx0, hx⟩).symm
  have ey : y = (((toIdx y ⟨hy0, hy⟩).val : Nat) : Int) := (toIdx_val y ⟨hy0, hy⟩).symm
  rw [ex, ey, IsAlive_shift (stepped g') _ _ a b dx dy ha hb, IsAlive_fin]
  exact next_shift g.cells g'.cells a b hc _ _

set_option maxRecDepth 100000 in
/-- Witness of C24: the glider at `(5, 5)` and the same glider at `(8, 3)`, which is
the first moved by `(3, -2)`. -/
theorem step_commutes_with_translation_witness :
    ∃ g1 g1' : Game, Step gliderAt55 = some g1 ∧ Step gliderAt83 = some g1' ∧
      ∀ x y : Int, 0 ≤ x → x < 64 → 0 ≤ y → y < 64 →
        IsAlive g1' ((x + 3) % 64) ((y + -2) % 64) = IsAlive g1 x y :=
  step_commutes_with_translation gliderAt55 gliderAt83 3 (-2) (by
    intro x y hx0 hx hy0 hy
    have ex : x = (((toIdx x ⟨hx0, hx⟩).val : Nat) : Int) := (toIdx_val x ⟨hx0, hx⟩).symm
    have ey : y = (((toIdx y ⟨hy0, hy⟩).val : Nat) : Int) := (toIdx_val y ⟨hy0, hy⟩).symm
    rw [ex, ey]
    generalize toIdx x ⟨hx0, hx⟩ = i
    generalize toIdx y ⟨hy0, hy⟩ = j
    revert i j
    decide!)

/-- C25: for every age, every mode string and every `0 ≤ x, y < 64`, the colour
`getCellColor age mode x y` has alpha 255 and its R, G, B are not all zero; in mode
"rainbow" its largest channel is 255 and its smallest is 0; and for every game and
every matrix of ages, the point `(x, y)` of the frame rendered in that mode has
R, G, B all zero exactly when the cell `(x, y)` is dead. -/
theorem alive_cells_are_never_black (age : Int) (mode : String) (x y : Int)
    (game : Game) (cellAges : Ages)
    (hx : 0 ≤ x ∧ x < 64) (hy : 0 ≤ y ∧ y < 64) :
    (getCellColor age mode x y).A = 255
    ∧ ¬ ((getCellColor age mode x y).R = 0 ∧ (getCellColor age mode x y).G = 0 ∧
          (getCellColor age mode x y).B = 0)
    ∧ (mode = "rainbow" →
        max (getCellColor age mode x y).R.val
          (max (getCellColor age mode x y).G.val (getCellColor age mode x y).B.val) = 255
        ∧ min (getCellColor age mode x y).R.val
          (min (getCellColor age mode x y).G.val (getCellColor age mode x y).B.val) = 0)
    ∧ ((((renderFrame game cellAges mode).At x y).R = 0
          ∧ ((renderFrame game cellAges mode).At x y).G = 0
          ∧ ((renderFrame game cellAges mode).At x y).B = 0)
        ↔ IsAlive game x y = false) := by
  have hs : 0 ≤ x + y ∧ x + y < 2 ^ 63 := by omega
  refine ⟨getCellColor_alpha age mode x y, getCellColor_not_black age mode x y hs, ?_, ?_⟩
  · intro hm
    subst hm
    exact getCellColor_rainbow_extremes age x y hs
  · rw [renderFrame_At game cellAges mode x y hx hy]
    cases hal : IsAlive game x y
    · simp
    · simp only [if_true]
      constructor
      · intro hb
        exact absurd hb (getCellColor_not_black _ mode x y hs)
      · intro hf
        cases hf

/-- Witness of C25: the cell `(6, 5)` of the glider at `(5, 5)`, of age 7, in mode
"rainbow". -/
theorem alive_cells_are_never_black_witness :
    (getCellColor 7 "rainbow" 6 5).A = 255
    ∧ ¬ ((getCellColor 7 "rainbow" 6 5).R = 0 ∧ (getCellColor 7 "rainbow" 6 5).G = 0 ∧
          (getCellColor 7 "rainbow" 6 5).B = 0)
    ∧ (max (getCellColor 7 "rainbow" 6 5).R.val
          (max (getCellColor 7 "rainbow" 6 5).G.val (getCellColor 7 "rainbow" 6 5).B.val) = 255
        ∧ min (getCellColor 7 "rainbow" 6 5).R.val
          (min (getCellColor 7 "rainbow" 6 5).G.val (getCellColor 7 "rainbow" 6 5).B.val) = 0)
    ∧ ((((renderFrame gliderAt55 (fun _ _ => 7) "rainbow").At 6 5).R = 0
          ∧ ((renderFrame gliderAt55 (fun _ _ => 7) "rainbow").At 6 5).G = 0
          ∧ ((renderFrame gliderAt55 (fun _ _ => 7) "rainbow").At 6 5).B = 0)
        ↔ IsAlive gliderAt55 6 5 = false) :=
  have h := alive_cells_are_never_black 7 "rainbow" 6 5 gliderAt55 (fun _ _ => 7)
    (by decide) (by decide)
  ⟨h.1, h.2.1, h.2.2.1 rfl, h.2.2.2⟩

end Claims
